import Mathlib

/-!
# Coverage-path engine of the drone mission generator

A shallow embedding of `Backend/utils/waypointCalculator.js` and theorems about it.

Conventions of the embedding

* A JavaScript number is a `JSNum`: a finite value (a rational, with exact arithmetic:
  rounding to binary64, overflow and the sign of zero are not modelled), `NaN`, `+Infinity`
  or `-Infinity`.  The special values follow the IEEE rules the program can observe.  The
  functions that compute with numbers (the lattice generator, the cartesian conversion and
  `calculateWaypoints`) are given a second time with the result of every arithmetic operation
  passed through a rounding function, which is the identity or the rounding to binary64.
* An array is a value (a list, without holes).  The functions that receive the input ring or
  the rows are given a second time over a heap of array objects, to follow which object a
  method changes, and `validatePolygonCoordinates` a second time on arrays with holes.
* A function that may throw returns `Except JSError _`.
* The two `while` loops of the lattice generator take a fuel argument (the number of loop
  iterations allowed); running out of fuel is the result `none`.
* The geometry and projection libraries (`@turf/*`, `proj4`) and the transcendental functions
  of `Math` are not part of the repository: they are the fields of `Env`, about which nothing
  is assumed.
-/

namespace WaypointCalculator

/-! ## Numbers -/

/-- A JavaScript number. -/
inductive JSNum where
  | fin (q : ℚ)
  | nan
  | posInf
  | negInf
  deriving DecidableEq, Repr

namespace JSNum

instance : Inhabited JSNum := ⟨fin 0⟩

instance (n : Nat) : OfNat JSNum n := ⟨fin n⟩

/-- The global `isNaN` on a number. -/
def isNaN : JSNum → Bool
  | nan => true
  | _ => false

/-- The global `isFinite` on a number. -/
def isFinite : JSNum → Bool
  | fin _ => true
  | _ => false

/-- Unary minus. -/
def neg : JSNum → JSNum
  | fin q => fin (-q)
  | nan => nan
  | posInf => negInf
  | negInf => posInf

/-- The infinity with the sign of `q` (`+Infinity` for a zero `q`, zero being unsigned here). -/
def infOfSign (q : ℚ) : JSNum :=
  if q < 0 then negInf else posInf

/-- Binary `+`. -/
def add : JSNum → JSNum → JSNum
  | fin a, fin b => fin (a + b)
  | nan, _ => nan
  | _, nan => nan
  | posInf, negInf => nan
  | negInf, posInf => nan
  | posInf, _ => posInf
  | negInf, _ => negInf
  | fin _, posInf => posInf
  | fin _, negInf => negInf

/-- Binary `-`. -/
def sub (a b : JSNum) : JSNum :=
  add a (neg b)

/-- Binary `*`. -/
def mul : JSNum → JSNum → JSNum
  | fin a, fin b => fin (a * b)
  | nan, _ => nan
  | _, nan => nan
  | fin a, posInf => if a = 0 then nan else infOfSign a
  | fin a, negInf => if a = 0 then nan else infOfSign (-a)
  | posInf, fin b => if b = 0 then nan else infOfSign b
  | negInf, fin b => if b = 0 then nan else infOfSign (-b)
  | posInf, posInf => posInf
  | posInf, negInf => negInf
  | negInf, posInf => negInf
  | negInf, negInf => posInf

/-- Binary `/`. -/
def div : JSNum → JSNum → JSNum
  | fin a, fin b => if b = 0 then (if a = 0 then nan else infOfSign a) else fin (a / b)
  | nan, _ => nan
  | _, nan => nan
  | fin _, posInf => fin 0
  | fin _, negInf => fin 0
  | posInf, fin b => infOfSign b
  | negInf, fin b => neg (infOfSign b)
  | posInf, posInf => nan
  | posInf, negInf => nan
  | negInf, posInf => nan
  | negInf, negInf => nan

instance : Add JSNum := ⟨add⟩
instance : Sub JSNum := ⟨sub⟩
instance : Mul JSNum := ⟨mul⟩
instance : Div JSNum := ⟨div⟩

/-- The comparison `a <= b`: false as soon as one side is `NaN`. -/
def le : JSNum → JSNum → Bool
  | fin a, fin b => decide (a ≤ b)
  | nan, _ => false
  | _, nan => false
  | negInf, _ => true
  | _, posInf => true
  | _, _ => false

/-- The comparison `a < b`: false as soon as one side is `NaN`. -/
def lt : JSNum → JSNum → Bool
  | fin a, fin b => decide (a < b)
  | nan, _ => false
  | _, nan => false
  | posInf, _ => false
  | _, negInf => false
  | _, _ => true

/-- The comparison `a > b`. -/
def gt (a b : JSNum) : Bool :=
  lt b a

/-- The comparison `a >= b`. -/
def ge (a b : JSNum) : Bool :=
  le b a

/-- Strict equality `a === b` of two numbers: `NaN` equals nothing. -/
def strictEq (a b : JSNum) : Bool :=
  !a.isNaN && decide (a = b)

/-- Strict inequality `a !== b` of two numbers. -/
def strictNe (a b : JSNum) : Bool :=
  !strictEq a b

/-- Truthiness of a number: every number but zero and `NaN`. -/
def truthy : JSNum → Bool
  | fin q => decide (q ≠ 0)
  | nan => false
  | _ => true

/-- The operator `a || b` on numbers. -/
def orElse (a b : JSNum) : JSNum :=
  if a.truthy then a else b

/-- The function `Math.floor`. -/
def floor : JSNum → JSNum
  | fin q => fin ⌊q⌋
  | x => x

/-- The value of `parseFloat(x.toFixed(2))`.  On a finite `x` below `10^21` in magnitude
`toFixed(2)` prints the integer `n` for which `n / 100` is closest to the magnitude of `x` (the
larger one on a tie) after the sign, and `parseFloat` reads it back; from `10^21` on, and for
`NaN` and the infinities, `toFixed` prints the number itself. -/
def toFixed2 : JSNum → JSNum
  | fin q =>
    if (10 : ℚ) ^ 21 ≤ |q| then fin q
    else if q < 0 then fin (-((⌊(-q) * 100 + 1 / 2⌋ : ℤ) : ℚ) / 100)
    else fin (((⌊q * 100 + 1 / 2⌋ : ℤ) : ℚ) / 100)
  | x => x

/-- The constant `Math.PI`: the binary64 number `3.141592653589793`. -/
def PI : JSNum :=
  fin (884279719003555 / 281474976710656)

end JSNum

/-! ## Errors -/

/-- The exceptions of the program, one constructor for each `throw` site (the message texts are
not modelled), `typeError` for a property read on `undefined` or `null`, `library` for an
`Error` object thrown inside `@turf/*` or `proj4`, and `foreign` for any other value thrown
there, one whose `message` is not a string. -/
inductive JSError where
  /-- Message `Coordinate del poligono non valide`. -/
  | invalidCoordinates
  /-- Message `Poligono non valido: sono richieste almeno 3 coordinate, trovate n`. -/
  | tooFewCoordinates (found : Nat)
  /-- Message `Coordinate non valide alla posizione i: ...`. -/
  | invalidCoordinateAt (index : Nat)
  /-- Message `Poligono non valido: geometria mancante`. -/
  | missingGeometry
  /-- Message `Poligono non valido: tipo di geometria non supportato`. -/
  | unsupportedGeometry
  /-- Message `Poligono non valido: insufficienti coordinate`. -/
  | insufficientCoordinates
  /-- Message `Poligono non valido: non è chiuso`. -/
  | notClosed
  /-- Message `Bounding box contiene valori non numerici: ...`. -/
  | invalidBoundingBox
  | typeError
  | library
  | foreign
  deriving DecidableEq, Repr

/-- Whether `error.message` is a string, so that `error.message.includes(...)` can be called:
it is for every `Error` object. -/
def JSError.hasMessage : JSError → Bool
  | .foreign => false
  | _ => true

deriving instance DecidableEq for Except

/-! ## Input values -/

/-- The value found when a property such as `coord.lat` is read. -/
inductive JSValue where
  | undefined
  | null
  | boolean (b : Bool)
  | string (s : String)
  | number (n : JSNum)
  | object
  deriving DecidableEq, Repr

/-- The operator `typeof`. -/
def JSValue.typeof : JSValue → String
  | .undefined => "undefined"
  | .null => "object"
  | .boolean _ => "boolean"
  | .string _ => "string"
  | .number _ => "number"
  | .object => "object"

/-- The global `isNaN` on a value of number type (it is only reached for such values, after
the `typeof` tests). -/
def JSValue.isNaN : JSValue → Bool
  | .number n => n.isNaN
  | _ => false

/-- The number held by a value that passed the `typeof` test. -/
def JSValue.toNum : JSValue → JSNum
  | .number n => n
  | _ => JSNum.nan

/-- An entry of the coordinate array (arrays are dense, as the KML parser builds them): `null`
or `undefined`, on which reading a property throws a `TypeError`, or any other value, given by
what reading `.lat` and `.lon` returns. -/
inductive Coord where
  | nullish
  | props (lat lon : JSValue)
  deriving DecidableEq, Repr

/-- The argument `polygonCoordinates`: an array of entries, or anything else. -/
inductive Argument where
  | notArray
  | array (entries : List Coord)
  deriving DecidableEq, Repr

/-- A coordinate `{lat, lon}` in degrees. -/
structure GeoPoint where
  lat : JSNum
  lon : JSNum
  deriving DecidableEq, Repr

/-- The object `{lat: coord.lat, lon: coord.lon}` that `calculateWaypoints` copies from an
entry; the entry has passed `validatePolygonCoordinates`, so both properties hold numbers. -/
def Coord.toGeoPoint : Coord → GeoPoint
  | .props lat lon => { lat := lat.toNum, lon := lon.toNum }
  | .nullish => { lat := .nan, lon := .nan }

/-- The entries of the argument once `validatePolygonCoordinates` has accepted it as an
array. -/
def Argument.entries : Argument → List Coord
  | .array entries => entries
  | .notArray => []

/-- A GeoJSON position `[lng, lat]` (or `[x, y]` in the metric plane): `p.1` is `p[0]` and `p.2`
is `p[1]`. -/
abbrev Position := JSNum × JSNum

/-- A GeoJSON geometry: its `type` and its `coordinates`, a list of rings. -/
structure Geometry where
  type : String
  coordinates : List (List Position)
  deriving DecidableEq, Repr

/-- A GeoJSON feature, read through its `geometry` property. -/
structure Feature where
  geometry : Option Geometry
  deriving DecidableEq, Repr

/-- An absolute (geographic) waypoint. -/
structure AbsoluteWaypoint where
  id : Nat
  lat : JSNum
  lng : JSNum
  alt : JSNum
  deriving DecidableEq, Repr

/-- A cartesian (local frame) waypoint. -/
structure CartesianWaypoint where
  id : Nat
  x : JSNum
  y : JSNum
  z : JSNum
  deriving DecidableEq, Repr

/-- The object returned by `calculateWaypoints`. -/
structure CoverageResult where
  absolute : List AbsoluteWaypoint
  cartesian : List CartesianWaypoint
  deriving DecidableEq, Repr

/-! ## The libraries -/

/-- The functions of `@turf/*`, `proj4` and `Math` that the program calls.  They are
deterministic; each one that can throw returns an `Except`. -/
structure Env where
  /-- Whether `turf.polygon` rejects the rings it is given (it throws then; otherwise it wraps
  them in a feature of geometry type `Polygon`). -/
  polygonThrows : List (List Position) → Bool
  /-- Whether `turf.point` rejects the position it is given. -/
  pointThrows : Position → Bool
  /-- The array `[minx, miny, maxx, maxy]` of `turf.bbox`. -/
  bbox : Feature → Except JSError (JSNum × JSNum × JSNum × JSNum)
  /-- The coordinates of the point feature of `turf.centroid`. -/
  centroid : Feature → Except JSError Position
  /-- The call `proj4(from, to, coords)`. -/
  proj4 : String → String → Position → Except JSError Position
  /-- The call `turf.booleanPointInPolygon(point, polygon)`. -/
  booleanPointInPolygon : Position → Feature → Except JSError Bool
  /-- The call `turfBuffer(point, r, opts)` with units meters and 32 steps; `none` is
  `undefined`. -/
  buffer : Position → JSNum → Except JSError (Option Feature)
  /-- The call `turfIntersect(circle, polygon)`; `none` is `null`. -/
  intersect : Feature → Feature → Except JSError (Option Feature)
  /-- The call `turfArea(feature)`. -/
  area : Feature → Except JSError JSNum
  /-- The function `Math.sqrt` on a finite argument that is not negative. -/
  sqrt : ℚ → ℚ
  /-- The function `Math.cos` on a finite argument. -/
  cos : ℚ → ℚ
  /-- The text of a finite number that is not an integer below `10^21` in magnitude. -/
  numberText : ℚ → String

/-- The function `Math.sqrt`. -/
def Env.mathSqrt (env : Env) : JSNum → JSNum
  | .fin q => if q < 0 then .nan else .fin (env.sqrt q)
  | .posInf => .posInf
  | _ => .nan

/-- The function `Math.cos`. -/
def Env.mathCos (env : Env) : JSNum → JSNum
  | .fin q => .fin (env.cos q)
  | _ => .nan

/-- The text of a number inside a template literal. -/
def Env.numberToString (env : Env) : JSNum → String
  | .fin q =>
    if q.den = 1 ∧ |q| < (10 : ℚ) ^ 21 then toString q.num else env.numberText q
  | .nan => "NaN"
  | .posInf => "Infinity"
  | .negInf => "-Infinity"

/-- The call `turf.polygon(rings)`. -/
def Env.polygon (env : Env) (rings : List (List Position)) : Except JSError Feature :=
  if env.polygonThrows rings then .error .library
  else .ok { geometry := some { type := "Polygon", coordinates := rings } }

/-! ## Validation -/

/-- The callback of the `forEach` of `validatePolygonCoordinates`, at index `index`. -/
def checkCoordinate (index : Nat) : Coord → Except JSError Unit
  | .nullish => .error .typeError
  | .props lat lon =>
    if lat.typeof ≠ "number" || lon.typeof ≠ "number" || lat.isNaN || lon.isNaN then
      .error (.invalidCoordinateAt index)
    else .ok ()

/-- The loop `coordinates.forEach(...)` of `validatePolygonCoordinates`, from index `index`
on. -/
def checkCoordinatesFrom : Nat → List Coord → Except JSError Unit
  | _, [] => .ok ()
  | index, c :: cs =>
    match checkCoordinate index c with
    | .error e => .error e
    | .ok _ => checkCoordinatesFrom (index + 1) cs

/-- The function `validatePolygonCoordinates`. -/
def validatePolygonCoordinates : Argument → Except JSError Bool
  | .notArray => .error .invalidCoordinates
  | .array coordinates =>
    if coordinates.length < 3 then .error (.tooFewCoordinates coordinates.length)
    else
      match checkCoordinatesFrom 0 coordinates with
      | .error e => .error e
      | .ok _ => .ok true

/-- The function `getUTMZone`. -/
def getUTMZone (longitude : JSNum) : JSNum :=
  JSNum.floor ((longitude + 180) / 6) + 1

/-- The function `getUTMEPSG`. -/
def getUTMEPSG (env : Env) (latitude longitude : JSNum) : String :=
  let zone := getUTMZone longitude
  if latitude.ge 0 then "EPSG:326" ++ env.numberToString zone
  else "EPSG:327" ++ env.numberToString zone

/-- The function `validatePolygon`. -/
def validatePolygon (polygon : Feature) : Except JSError Bool :=
  match polygon.geometry with
  | none => .error .missingGeometry
  | some geometry =>
    if geometry.type ≠ "Polygon" then .error .unsupportedGeometry
    else
      match geometry.coordinates with
      | [] => .error .typeError
      | coords :: _ =>
        if coords.length < 4 then .error .insufficientCoordinates
        else
          match coords[0]?, coords[coords.length - 1]? with
          | some firstCoord, some lastCoord =>
            if firstCoord.1.strictNe lastCoord.1 || firstCoord.2.strictNe lastCoord.2 then
              .error .notClosed
            else .ok true
          | _, _ => .error .typeError

/-- The ring built by `createTurfPolygon` before it is handed to `turf.polygon`: the
coordinates as `[lon, lat]`, closed by one copy of the first position when the last differs
from it.  On an empty array reading `firstCoord[0]` throws. -/
def closeRing (coordinates : List GeoPoint) : Except JSError (List Position) :=
  let turfCoords : List Position := coordinates.map (fun coord => (coord.lon, coord.lat))
  match turfCoords[0]?, turfCoords[turfCoords.length - 1]? with
  | some firstCoord, some lastCoord =>
    if firstCoord.1.strictNe lastCoord.1 || firstCoord.2.strictNe lastCoord.2 then
      .ok (turfCoords ++ [(firstCoord.1, firstCoord.2)])
    else .ok turfCoords
  | _, _ => .error .typeError

/-- The function `createTurfPolygon`. -/
def createTurfPolygon (env : Env) (coordinates : List GeoPoint) : Except JSError Feature :=
  match closeRing coordinates with
  | .error e => .error e
  | .ok turfCoords => env.polygon [turfCoords]

/-! ## The lattice generator -/

/-- The test `bbox.every(val => typeof val === 'number' && !isNaN(val) && isFinite(val))`. -/
def bboxValid (bbox : JSNum × JSNum × JSNum × JSNum) : Bool :=
  [bbox.1, bbox.2.1, bbox.2.2.1, bbox.2.2.2].all (fun val => !val.isNaN && val.isFinite)

/-- The decision taken inside the `try` block for a candidate outside the polygon: `true` when
the candidate is pushed to its row, `false` when it goes to `removedPoints`.  An exception here
is caught by the `catch` of the caller. -/
def coversEnough (env : Env) (polygon : Feature) (r threshold : JSNum) (pointWGS84 : Position) :
    Except JSError Bool :=
  match env.buffer pointWGS84 r with
  | .error e => .error e
  | .ok none => .ok false
  | .ok (some circleBuf) =>
    match circleBuf.geometry, polygon.geometry with
    | some circleGeometry, some polygonGeometry =>
      if circleGeometry.coordinates.length = 0 || polygonGeometry.coordinates.length = 0 then
        .ok false
      else
        match env.intersect circleBuf polygon with
        | .error e => .error e
        | .ok none => .ok false
        | .ok (some intersection) =>
          match intersection.geometry with
          | none => .ok false
          | some _ =>
            match env.area intersection with
            | .error e => .error e
            | .ok intersectionArea =>
              match env.area circleBuf with
              | .error e => .error e
              | .ok circleArea =>
                .ok (intersectionArea.gt 0 && circleArea.gt 0 &&
                  (intersectionArea / circleArea).ge threshold)
    | _, _ => .ok false

/-- The body of the inner loop up to `x += dx`, for the candidate `[x, y]`: the position in
WGS84 and whether it is kept in the row.  Exceptions of `proj4`, `turf.point` and
`turf.booleanPointInPolygon` are outside the `try` block and propagate; the `catch` turns an
exception of the overlap test into a rejection after reading `error.message.includes(...)`,
which throws a `TypeError` itself when the caught value has no string `message`. -/
def evaluateCandidate (env : Env) (utmEPSG : String) (polygon : Feature) (r threshold : JSNum)
    (x y : JSNum) : Except JSError (Position × Bool) :=
  match env.proj4 utmEPSG "WGS84" (x, y) with
  | .error e => .error e
  | .ok pointWGS84 =>
    if env.pointThrows pointWGS84 then .error .library
    else
      match env.booleanPointInPolygon pointWGS84 polygon with
      | .error e => .error e
      | .ok true => .ok (pointWGS84, true)
      | .ok false =>
        match coversEnough env polygon r threshold pointWGS84 with
        | .error e => if e.hasMessage then .ok (pointWGS84, false) else .error .typeError
        | .ok keep => .ok (pointWGS84, keep)

/-- The variables the inner loop updates. -/
structure RowState where
  currentRow : List Position
  removedPoints : List Position
  totalPoints : Nat
  deriving DecidableEq, Repr

/-- The inner loop `while (x <= maxUTM[0] + r)`, from the abscissa `x` on. -/
def columnLoop (env : Env) (utmEPSG : String) (polygon : Feature) (r threshold dx maxX y : JSNum) :
    Nat → JSNum → RowState → Option (Except JSError RowState)
  | fuel, x, st =>
    if x.le (maxX + r) then
      match fuel with
      | 0 => none
      | fuel + 1 =>
        match evaluateCandidate env utmEPSG polygon r threshold x y with
        | .error e => some (.error e)
        | .ok (pointWGS84, true) =>
          columnLoop env utmEPSG polygon r threshold dx maxX y fuel (x + dx)
            { st with currentRow := st.currentRow ++ [pointWGS84],
                      totalPoints := st.totalPoints + 1 }
        | .ok (pointWGS84, false) =>
          columnLoop env utmEPSG polygon r threshold dx maxX y fuel (x + dx)
            { st with removedPoints := st.removedPoints ++ [pointWGS84],
                      totalPoints := st.totalPoints + 1 }
    else some (.ok st)

/-- The variables the outer loop updates. -/
structure GridState where
  rowPoints : List (List Position)
  removedPoints : List Position
  totalPoints : Nat
  y : JSNum
  row : Nat
  deriving DecidableEq, Repr

/-- The outer loop `while (y <= maxUTM[1] + r)`, left also by the `break` of the safety
check. -/
def rowLoop (env : Env) (utmEPSG : String) (polygon : Feature) (r threshold dx dy : JSNum)
    (minUTM maxUTM : Position) : Nat → GridState → Option (Except JSError GridState)
  | fuel, st =>
    if st.y.le (maxUTM.2 + r) then
      match fuel with
      | 0 => none
      | fuel + 1 =>
        let xOffset : JSNum := if st.row % 2 = 1 then dx / 2 else 0
        let x := minUTM.1 - r + xOffset
        match columnLoop env utmEPSG polygon r threshold dx maxUTM.1 st.y (fuel + 1) x
            { currentRow := [], removedPoints := st.removedPoints,
              totalPoints := st.totalPoints } with
        | none => none
        | some (.error e) => some (.error e)
        | some (.ok inner) =>
          let st' : GridState :=
            { rowPoints :=
                if inner.currentRow.length > 0 then st.rowPoints ++ [inner.currentRow]
                else st.rowPoints,
              removedPoints := inner.removedPoints,
              totalPoints := inner.totalPoints,
              y := st.y + dy,
              row := st.row + 1 }
          if st'.totalPoints > 500 then some (.ok st')
          else rowLoop env utmEPSG polygon r threshold dx dy minUTM maxUTM fuel st'
    else some (.ok st)

/-- The function `generateHexGridWithBufferAndFilter` up to its `return`: the state of the
outer loop when it is left. -/
def hexGridFinalState (env : Env) (fuel : Nat) (polygonCoords : List GeoPoint) (r : JSNum)
    (threshold : JSNum := .fin (1 / 10)) : Option (Except JSError GridState) :=
  match createTurfPolygon env polygonCoords with
  | .error e => some (.error e)
  | .ok polygon =>
    match env.bbox polygon with
    | .error e => some (.error e)
    | .ok bbox =>
      if !bboxValid bbox then some (.error .invalidBoundingBox)
      else
        match env.centroid polygon with
        | .error e => some (.error e)
        | .ok centerCoords =>
          let utmEPSG := getUTMEPSG env centerCoords.2 centerCoords.1
          match env.proj4 "WGS84" utmEPSG (bbox.1, bbox.2.1) with
          | .error e => some (.error e)
          | .ok minUTM =>
            match env.proj4 "WGS84" utmEPSG (bbox.2.2.1, bbox.2.2.2) with
            | .error e => some (.error e)
            | .ok maxUTM =>
              let dx := env.mathSqrt 3 * r
              let dy := JSNum.fin (3 / 2) * r
              rowLoop env utmEPSG polygon r threshold dx dy minUTM maxUTM fuel
                { rowPoints := [], removedPoints := [], totalPoints := 0,
                  y := minUTM.2 - r, row := 0 }

/-- The function `generateHexGridWithBufferAndFilter`: the pair `{ rowPoints, removedPoints }`
it returns. -/
def generateHexGridWithBufferAndFilter (env : Env) (fuel : Nat) (polygonCoords : List GeoPoint)
    (r : JSNum) (threshold : JSNum := .fin (1 / 10)) :
    Option (Except JSError (List (List Position) × List Position)) :=
  match hexGridFinalState env fuel polygonCoords r threshold with
  | none => none
  | some (.error e) => some (.error e)
  | some (.ok st) => some (.ok (st.rowPoints, st.removedPoints))

/-! ## The path optimizer -/

/-- The order given by the comparator `(a, b) => a[0] - b[0]`: `a` may stay before `b` unless
the difference is positive. -/
def lngLe (a b : Position) : Prop :=
  (a.1 - b.1).gt 0 = false

instance : DecidableRel lngLe :=
  fun a b => inferInstanceAs (Decidable ((a.1 - b.1).gt 0 = false))

/-- The copy `[...row].sort((a, b) => a[0] - b[0])`: `Array.prototype.sort` is stable, so for a
consistent comparator it is the stable sort by `a[0]` (with an inconsistent comparator, which
needs a `NaN` key, the language leaves the order to the engine). -/
def sortByLng (row : List Position) : List Position :=
  row.insertionSort lngLe

/-- The variables the `forEach` over `normalRows` updates; `none` is `undefined`. -/
structure PathState where
  optimizedPath : List (Option Position)
  skippedPoints : List (Option Position)
  deriving DecidableEq, Repr

/-- The callback of `normalRows.forEach`, for the row `row` at index `idx`. -/
def processNormalRow (st : PathState) (idx : Nat) (row : List Position) : PathState :=
  if row.length = 0 then st
  else
    let sortedRow := sortByLng row
    let skipped := sortedRow[0]?
    let mainPoints := sortedRow.drop 1
    let mainOrder := if idx % 2 = 0 then mainPoints else mainPoints.reverse
    { optimizedPath := st.optimizedPath ++ mainOrder.map some,
      skippedPoints := skipped :: st.skippedPoints }

/-- The loop `normalRows.forEach(...)`, from index `idx` on. -/
def processNormalRows : PathState → Nat → List (List Position) → PathState
  | st, _, [] => st
  | st, idx, row :: rows => processNormalRows (processNormalRow st idx row) (idx + 1) rows

/-- The array `interleaved` built from `main1` and `main2`. -/
def interleave (main1 main2 : List Position) : List (Option Position) :=
  let minLength := min main1.length main2.length
  let pairs := (List.range minLength).flatMap
    (fun i => [main1[main1.length - 1 - i]?, main2[main2.length - 1 - i]?])
  if main1.length > main2.length then
    pairs ++ ((main1.take (main1.length - main2.length)).reverse).map some
  else if main2.length > main1.length then
    pairs ++ ((main2.take (main2.length - main1.length)).reverse).map some
  else pairs

/-- The function `optimizePathLayeredWithFinalInterleaved`. -/
def optimizePathLayeredWithFinalInterleaved (rowPoints : List (List Position)) :
    List (Option Position) :=
  let totalRows := rowPoints.length
  let interleavedHandled := totalRows % 2 = 1 && totalRows ≥ 2
  let normalRows := if interleavedHandled then rowPoints.take (totalRows - 2) else rowPoints
  let st := processNormalRows { optimizedPath := [], skippedPoints := [] } 0 normalRows
  let st :=
    if interleavedHandled then
      let row1 := sortByLng (rowPoints.getD (totalRows - 2) [])
      let row2 := sortByLng (rowPoints.getD (totalRows - 1) [])
      let skipped1 := row1[0]?
      let main1 := row1.drop 1
      let main2 := row2
      { optimizedPath := st.optimizedPath ++ interleave main1 main2,
        skippedPoints := skipped1 :: st.skippedPoints }
    else st
  st.optimizedPath ++ st.skippedPoints

/-! ## The waypoint assembler -/

/-- The function `convertGeographicToCartesian`; `referencePoint` is `none` for `null`. -/
def convertGeographicToCartesian (env : Env) (waypoints : List AbsoluteWaypoint)
    (referencePoint : Option GeoPoint := none) : List CartesianWaypoint :=
  match waypoints with
  | [] => []
  | first :: _ =>
    let refPoint : GeoPoint :=
      match referencePoint with
      | some p => p
      | none => { lat := first.lat, lon := first.lng }
    let EARTH_RADIUS : JSNum := 6371000
    waypoints.map (fun waypoint =>
      let lat := waypoint.lat
      let lng := waypoint.lng
      let dLat := lat - refPoint.lat
      let dLng := lng - refPoint.lon
      let x := dLng * (JSNum.PI / 180) * EARTH_RADIUS *
        env.mathCos (refPoint.lat * JSNum.PI / 180)
      let y := dLat * (JSNum.PI / 180) * EARTH_RADIUS
      { id := waypoint.id,
        x := x.toFixed2,
        y := y.toFixed2,
        z := waypoint.alt.orElse 50 })

/-- The function `applyTranslation`. -/
def applyTranslation (waypoints : List CartesianWaypoint) (translationX : JSNum := 3)
    (translationY : JSNum := 3) : List CartesianWaypoint :=
  waypoints.map (fun waypoint =>
    { waypoint with x := waypoint.x + translationX, y := waypoint.y + translationY })

/-- The two assignments to `cartesianWaypoints` of `calculateWaypoints`. -/
def cartesianOf (env : Env) (needCartesian : Bool) (absoluteWaypoints : List AbsoluteWaypoint) :
    List CartesianWaypoint :=
  if needCartesian then applyTranslation (convertGeographicToCartesian env absoluteWaypoints)
  else []

/-- The call `optimizedPath.map((point, index) => ...)` of `calculateWaypoints`, from index
`index` on: reading `point[1]` of an `undefined` point throws. -/
def absoluteFromPath : Nat → List (Option Position) → Except JSError (List AbsoluteWaypoint)
  | _, [] => .ok []
  | _, none :: _ => .error .typeError
  | index, some point :: rest =>
    match absoluteFromPath (index + 1) rest with
    | .error e => .error e
    | .ok ws => .ok ({ id := index + 1, lat := point.2, lng := point.1, alt := .fin (7 / 2) } :: ws)

/-- The function `calculateWaypoints`.  Its `catch` rethrows an error with the same message,
which is the same `JSError` here. -/
def calculateWaypoints (env : Env) (fuel : Nat) (polygonCoordinates : Argument)
    (needCartesian : Bool := true) : Option (Except JSError CoverageResult) :=
  match validatePolygonCoordinates polygonCoordinates with
  | .error e => some (.error e)
  | .ok _ =>
    let turfCoords : List GeoPoint := polygonCoordinates.entries.map Coord.toGeoPoint
    match createTurfPolygon env turfCoords with
    | .error e => some (.error e)
    | .ok polygon =>
      match validatePolygon polygon with
      | .error e => some (.error e)
      | .ok _ =>
        match generateHexGridWithBufferAndFilter env fuel turfCoords 3 (.fin (1 / 10)) with
        | none => none
        | some (.error e) => some (.error e)
        | some (.ok (rowPoints, _)) =>
          if rowPoints.length = 0 then
            let absoluteWaypoints : List AbsoluteWaypoint := turfCoords.mapIdx (fun index coord =>
              { id := index + 1, lat := coord.lat, lng := coord.lon, alt := .fin (7 / 2) })
            some (.ok { absolute := absoluteWaypoints,
                        cartesian := cartesianOf env needCartesian absoluteWaypoints })
          else
            let optimizedPath := optimizePathLayeredWithFinalInterleaved rowPoints
            match absoluteFromPath 0 optimizedPath with
            | .error e => some (.error e)
            | .ok absoluteWaypoints =>
              some (.ok { absolute := absoluteWaypoints,
                          cartesian := cartesianOf env needCartesian absoluteWaypoints })

/-! ## Predicates of the specification -/

/-- An entry whose `lat` and `lon` are both of number type and not `NaN`. -/
def Coord.isNumeric : Coord → Bool
  | .props (.number lat) (.number lon) => !lat.isNaN && !lon.isNaN
  | _ => false

/-- An array of at least 3 entries, every one with `lat` and `lon` of number type and not
`NaN`. -/
def Argument.isNumericRing : Argument → Bool
  | .array entries => decide (3 ≤ entries.length) && entries.all Coord.isNumeric
  | .notArray => false

/-- A coordinate value equal to `NaN`, `+Infinity` or `-Infinity`. -/
def JSValue.isNonFinite : JSValue → Bool
  | .number n => !n.isFinite
  | _ => false

/-- An entry with a `lat` or a `lon` equal to `NaN`, `+Infinity` or `-Infinity`. -/
def Coord.hasNonFinite : Coord → Bool
  | .props lat lon => lat.isNonFinite || lon.isNonFinite
  | .nullish => false

/-- An entry with a `lat` or a `lon` equal to `NaN`. -/
def Coord.hasNaN : Coord → Bool
  | .props lat lon => decide (lat = .number .nan) || decide (lon = .number .nan)
  | .nullish => false

/-! ## A stand-in for the libraries

To run the program on a concrete ring, `rectEnv` plays the libraries for axis-aligned
rectangles: the projection is the identity (a degree counts as a metre), a point is inside the
polygon when it lies in the bounding box, and no buffer is ever built, so that a candidate
outside the polygon is always removed. -/

/-- The bounding box as `turf.bbox` accumulates it over the positions of all rings. -/
def bboxOfRings (rings : List (List Position)) : JSNum × JSNum × JSNum × JSNum :=
  rings.flatten.foldl
    (fun result coord =>
      (if result.1.gt coord.1 then coord.1 else result.1,
       if result.2.1.gt coord.2 then coord.2 else result.2.1,
       if result.2.2.1.lt coord.1 then coord.1 else result.2.2.1,
       if result.2.2.2.lt coord.2 then coord.2 else result.2.2.2))
    (.posInf, .posInf, .negInf, .negInf)

/-- The rings of a feature, none when it has no geometry. -/
def Feature.rings (feature : Feature) : List (List Position) :=
  match feature.geometry with
  | some geometry => geometry.coordinates
  | none => []

/-- The stand-in for the libraries. -/
def rectEnv : Env where
  polygonThrows rings := rings.any (fun ring =>
    ring.length < 4 || ring.head? ≠ ring.getLast?)
  pointThrows point := point.1.isNaN || point.2.isNaN
  bbox feature := .ok (bboxOfRings feature.rings)
  centroid feature :=
    match feature.rings.flatten with
    | [] => .error .library
    | first :: _ => .ok first
  proj4 _ _ coords := .ok coords
  booleanPointInPolygon point feature :=
    let box := bboxOfRings feature.rings
    .ok (box.1.le point.1 && point.1.le box.2.2.1 && box.2.1.le point.2 &&
      point.2.le box.2.2.2)
  buffer _ _ := .ok none
  intersect _ _ := .ok none
  area _ := .ok 0
  sqrt _ := 433 / 250
  cos _ := 1
  numberText _ := "?"

/-- The entry `{lat, lon}` of two finite numbers. -/
def Coord.ofRat (lat lon : ℚ) : Coord :=
  .props (.number (.fin lat)) (.number (.fin lon))

/-- The closed square of the specification, `(lat, lon)` in degrees: under `rectEnv` it is far
smaller than the lattice pitch and no candidate falls inside it. -/
def closedSquare : List Coord :=
  [Coord.ofRat 0 0, Coord.ofRat 0 (1 / 1000), Coord.ofRat (1 / 1000) (1 / 1000),
   Coord.ofRat (1 / 1000) 0, Coord.ofRat 0 0]

/-- A closed square of side 0.00001 degrees, about 1.1 m, `(lat, lon)` in degrees: smaller than
the pitch of the lattice, so that no candidate falls inside it. -/
def metreSquare : List Coord :=
  [Coord.ofRat 0 0, Coord.ofRat 0 (1 / 100000), Coord.ofRat (1 / 100000) (1 / 100000),
   Coord.ofRat (1 / 100000) 0, Coord.ofRat 0 0]

/-- The absolute waypoints of `metreSquare`, whose lattice has no row. -/
def metreSquareAbsolute : List AbsoluteWaypoint :=
  [{ id := 1, lat := .fin 0, lng := .fin 0, alt := .fin (7 / 2) },
   { id := 2, lat := .fin 0, lng := .fin (1 / 100000), alt := .fin (7 / 2) },
   { id := 3, lat := .fin (1 / 100000), lng := .fin (1 / 100000), alt := .fin (7 / 2) },
   { id := 4, lat := .fin (1 / 100000), lng := .fin 0, alt := .fin (7 / 2) },
   { id := 5, lat := .fin 0, lng := .fin 0, alt := .fin (7 / 2) }]

/-- A triangle given closed: three entries, the last equal to the first. -/
def closedTriangle : List Coord :=
  [Coord.ofRat 0 0, Coord.ofRat 0 10, Coord.ofRat 0 0]

/-- A triangle given open: three distinct vertices. -/
def openTriangle : List Coord :=
  [Coord.ofRat 0 0, Coord.ofRat 0 10, Coord.ofRat 10 10]

/-- A ring with a `NaN` latitude. -/
def nanRing : List Coord :=
  [Coord.ofRat 0 0, .props (.number .nan) (.number (.fin 1)), Coord.ofRat 1 1]

/-- A ring with infinite coordinates and no `NaN`. -/
def infiniteRing : List Coord :=
  [.props (.number .posInf) (.number (.fin 0)), .props (.number (.fin 0)) (.number .negInf),
   Coord.ofRat 1 1]

/-- Three rows of lengths 4, 3 and 3, as `[lng, lat]` positions. -/
def sampleRows : List (List Position) :=
  [[(.fin 2, .fin 0), (.fin 0, .fin 0), (.fin 3, .fin 0), (.fin 1, .fin 0)],
   [(.fin 1, .fin 1), (.fin 3, .fin 1), (.fin 2, .fin 1)],
   [(.fin 3, .fin 2), (.fin 1, .fin 2), (.fin 2, .fin 2)]]

/-- A rectangle 10 degrees wide and 14 degrees high, given open. -/
def tallRectangle : List Coord :=
  [Coord.ofRat 0 0, Coord.ofRat 0 10, Coord.ofRat 14 10, Coord.ofRat 14 0]

/-- The absolute waypoints of `tallRectangle` under `rectEnv`: three lattice rows of two
points. -/
def tallAbsolute : List AbsoluteWaypoint :=
  [{ id := 1, lat := .fin (3 / 2), lng := .fin (999 / 100), alt := .fin (7 / 2) },
   { id := 2, lat := .fin 6, lng := .fin (924 / 125), alt := .fin (7 / 2) },
   { id := 3, lat := .fin (21 / 2), lng := .fin (999 / 100), alt := .fin (7 / 2) },
   { id := 4, lat := .fin (21 / 2), lng := .fin (2397 / 500), alt := .fin (7 / 2) },
   { id := 5, lat := .fin 6, lng := .fin (549 / 250), alt := .fin (7 / 2) },
   { id := 6, lat := .fin (3 / 2), lng := .fin (2397 / 500), alt := .fin (7 / 2) }]

/-- The absolute waypoints of `closedSquare` when the lattice has no row. -/
def closedSquareAbsolute : List AbsoluteWaypoint :=
  [{ id := 1, lat := .fin 0, lng := .fin 0, alt := .fin (7 / 2) },
   { id := 2, lat := .fin 0, lng := .fin (1 / 1000), alt := .fin (7 / 2) },
   { id := 3, lat := .fin (1 / 1000), lng := .fin (1 / 1000), alt := .fin (7 / 2) },
   { id := 4, lat := .fin (1 / 1000), lng := .fin 0, alt := .fin (7 / 2) },
   { id := 5, lat := .fin 0, lng := .fin 0, alt := .fin (7 / 2) }]

/-- The candidates evaluated for `closedSquare` under `rectEnv`, all removed. -/
def closedSquareRemoved : List Position :=
  [(.fin (-3), .fin (-3)), (.fin (549 / 250), .fin (-3)), (.fin (-201 / 500), .fin (3 / 2))]

/-- The polygon feature that `createTurfPolygon` builds for `closedSquare`. -/
def closedSquarePolygon : Feature :=
  { geometry := some
      { type := "Polygon",
        coordinates := [[(.fin 0, .fin 0), (.fin (1 / 1000), .fin 0),
          (.fin (1 / 1000), .fin (1 / 1000)), (.fin 0, .fin (1 / 1000)), (.fin 0, .fin 0)]] } }

/-- The lattice rows of `tallRectangle` under `rectEnv`. -/
def tallRows : List (List Position) :=
  [[(.fin (2397 / 500), .fin (3 / 2)), (.fin (999 / 100), .fin (3 / 2))],
   [(.fin (549 / 250), .fin 6), (.fin (924 / 125), .fin 6)],
   [(.fin (2397 / 500), .fin (21 / 2)), (.fin (999 / 100), .fin (21 / 2))]]

/-- The candidates removed for `tallRectangle` under `rectEnv`. -/
def tallRemoved : List Position :=
  [(.fin (-3), .fin (-3)), (.fin (549 / 250), .fin (-3)), (.fin (924 / 125), .fin (-3)),
   (.fin (3147 / 250), .fin (-3)), (.fin (-201 / 500), .fin (3 / 2)), (.fin (-3), .fin 6),
   (.fin (3147 / 250), .fin 6), (.fin (-201 / 500), .fin (21 / 2)), (.fin (-3), .fin 15),
   (.fin (549 / 250), .fin 15), (.fin (924 / 125), .fin 15), (.fin (3147 / 250), .fin 15)]


/-- The abscissa at which the inner loop starts in the lattice row of index `row`. -/
def rowStartX (minUTM : Position) (r dx : JSNum) (row : Nat) : JSNum :=
  minUTM.1 - r + (if row % 2 = 1 then dx / 2 else 0)

/-- The variables of the outer loop after a row whose inner loop ended in the state `inner`:
the row is kept when it holds a point, then `y += dy` and `row += 1`. -/
def GridState.afterRow (st : GridState) (inner : RowState) (dy : JSNum) : GridState :=
  { rowPoints :=
      if inner.currentRow.length > 0 then st.rowPoints ++ [inner.currentRow] else st.rowPoints,
    removedPoints := inner.removedPoints,
    totalPoints := inner.totalPoints,
    y := st.y + dy,
    row := st.row + 1 }

/-- A rectangle 2640 degrees wide and 10 degrees high: under `rectEnv` its first lattice row has
510 candidates. -/
def wideRectangle : List Coord :=
  [Coord.ofRat 0 0, Coord.ofRat 0 2640, Coord.ofRat 10 2640, Coord.ofRat 10 0]

/-- The 510 candidates of the first lattice row of `wideRectangle`, all below the rectangle. -/
def wideRemoved : List Position :=
  (List.range 510).map (fun j => (.fin (-3 + (j : ℚ) * (1299 / 250)), .fin (-3)))

/-- The variables of the outer loop when the generator returns for `wideRectangle`. -/
def wideFinalState : GridState :=
  { rowPoints := [], removedPoints := wideRemoved, totalPoints := 510, y := .fin (3 / 2),
    row := 1 }

/-- The variables of the outer loop when the generator returns for `tallRectangle`. -/
def tallFinalState : GridState :=
  { rowPoints := tallRows, removedPoints := tallRemoved, totalPoints := 18, y := .fin (39 / 2),
    row := 5 }


/-! ## Arrays with holes

`Argument` holds dense arrays.  A JavaScript array can also have holes, indices below its
`length` at which there is no element (`new Array(3)`, `[a, , b]`); `forEach` does not call its
callback there.  `validatePolygonCoordinates` is given once more on such arrays. -/

/-- An index of an array below its `length`: a hole, or an element. -/
inductive Slot where
  | hole
  | element (entry : Coord)
  deriving DecidableEq, Repr

/-- The argument `polygonCoordinates` when the array may have holes: an array, by its indices
below `length`, or anything else. -/
inductive SparseArgument where
  | notArray
  | array (slots : List Slot)
  deriving DecidableEq, Repr

/-- A dense array as an array that may have holes. -/
def Argument.toSparse : Argument → SparseArgument
  | .notArray => .notArray
  | .array entries => .array (entries.map Slot.element)

/-- The loop `coordinates.forEach(...)` of `validatePolygonCoordinates` on an array that may
have holes, from index `index` on: a hole is skipped. -/
def checkSlotsFrom : Nat → List Slot → Except JSError Unit
  | _, [] => .ok ()
  | index, .hole :: slots => checkSlotsFrom (index + 1) slots
  | index, .element c :: slots =>
    match checkCoordinate index c with
    | .error e => .error e
    | .ok _ => checkSlotsFrom (index + 1) slots

/-- The function `validatePolygonCoordinates` on an argument whose array may have holes;
`coordinates.length` counts the holes. -/
def validatePolygonCoordinatesSparse : SparseArgument → Except JSError Bool
  | .notArray => .error .invalidCoordinates
  | .array coordinates =>
    if coordinates.length < 3 then .error (.tooFewCoordinates coordinates.length)
    else
      match checkSlotsFrom 0 coordinates with
      | .error e => .error e
      | .ok _ => .ok true

/-- From the specification: an index that holds an entry with `lat` and `lon` of number type
and not `NaN`; a hole holds no entry. -/
def Slot.isNumeric : Slot → Bool
  | .hole => false
  | .element c => c.isNumeric

/-- From the specification: an array of at least 3 entries, every one with `lat` and `lon` of
number type and not `NaN`. -/
def SparseArgument.isNumericRing : SparseArgument → Bool
  | .array slots => decide (3 ≤ slots.length) && slots.all Slot.isNumeric
  | .notArray => false

/-- An index that is a hole or holds an entry with `lat` and `lon` of number type and not
`NaN`. -/
def Slot.isHoleOrNumeric : Slot → Bool
  | .hole => true
  | .element c => c.isNumeric

/-- An array of length at least 3 whose elements, at the indices that are not holes, all have
`lat` and `lon` of number type and not `NaN`. -/
def SparseArgument.isNumericWhereDefined : SparseArgument → Bool
  | .array slots => decide (3 ≤ slots.length) && slots.all Slot.isHoleOrNumeric
  | .notArray => false

/-- The array `new Array(3)`: length 3, no element. -/
def emptySlots : SparseArgument :=
  .array [.hole, .hole, .hole]

/-- The array `[{lat: 0, lon: 0}, , {lat: 0, lon: 10}, {lat: 14, lon: 10}]`, with a hole at
index 1. -/
def holedRing : SparseArgument :=
  .array [.element (Coord.ofRat 0 0), .hole, .element (Coord.ofRat 0 10),
    .element (Coord.ofRat 14 10)]

/-! ## The travel order in the words of the specification -/

/-- From the specification: the points of the row of index `idx` that are not deferred, in
travel order, i.e. the row sorted by ascending longitude without its first (lowest) element,
ascending for an even index and descending for an odd one. -/
def specMainOrder (idx : Nat) (row : List Position) : List Position :=
  if idx % 2 = 0 then (sortByLng row).drop 1 else ((sortByLng row).drop 1).reverse

/-- From the specification: the deferred point of a row, its lowest-longitude point. -/
def specDeferred (row : List Position) : Option Position :=
  (sortByLng row).head?

/-- From the specification: the path for rows processed independently, the non-deferred points
of rows `0, 1, ...` in order, then the deferred points, most recently deferred first. -/
def specPlainPath (rows : List (List Position)) : List (Option Position) :=
  ((rows.mapIdx specMainOrder).flatten).map some ++ (rows.map specDeferred).reverse

/-- From the specification: the interleaved segment of `A` and `B`, both sorted ascending:
`A`'s highest, `B`'s highest, `A`'s next highest, `B`'s next highest, ... while both have
points, then the unpaired points of the longer one in descending order. -/
def specSegment (A B : List Position) : List Position :=
  (A.reverse.zip B.reverse).flatMap (fun pair => [pair.1, pair.2]) ++
    A.reverse.drop B.length ++ B.reverse.drop A.length

/-- From the specification: the path when the last two rows `row1` and `row2` are interleaved
after the rows `normalRows`. -/
def specInterleavedPath (normalRows : List (List Position)) (row1 row2 : List Position) :
    List (Option Position) :=
  ((normalRows.mapIdx specMainOrder).flatten).map some ++
    (specSegment ((sortByLng row1).drop 1) (sortByLng row2)).map some ++
    ((normalRows ++ [row1]).map specDeferred).reverse


/-! ## The cartesian coordinates in the words of the specification -/

/-- From the specification: the abscissa of the waypoint `w` in the flat-earth frame anchored
at `ref`, translated by 3. -/
def specCartesianX (env : Env) (w ref : AbsoluteWaypoint) : JSNum :=
  (w.lng - ref.lng) * (JSNum.PI / 180) * 6371000 * env.mathCos (ref.lat * JSNum.PI / 180) + 3

/-- From the specification: the ordinate of the waypoint `w` in the flat-earth frame anchored
at `ref`, translated by 3. -/
def specCartesianY (w ref : AbsoluteWaypoint) : JSNum :=
  (w.lat - ref.lat) * (JSNum.PI / 180) * 6371000 + 3


/-- The rows `rows` were generated at the planar northings `ys`, row by row: every point of a
row is the inverse projection of a planar point of the northing of the row. -/
def RowsAtNorthings (env : Env) (utmEPSG : String) (rows : List (List Position))
    (ys : List ℚ) : Prop :=
  List.Forall₂
    (fun row y => ∀ p ∈ row, ∃ x, env.proj4 utmEPSG "WGS84" (x, JSNum.fin y) = .ok p) rows ys


/-! ## The program with rounded arithmetic

The functions that compute with numbers once more, the result of every arithmetic operation
being passed through a rounding function `rnd`.  With `rnd = id` these are the functions above;
with `rnd = roundBinary64` they are the functions as a JavaScript engine runs them on numbers
within the normal range of binary64.  The numbers that the libraries and `Math` return, and
the numbers of the input, are binary64 numbers already and are not rounded again. -/

/-- The integer nearest to `m`, the even one of the two on a tie. -/
def roundHalfEven (m : ℚ) : ℚ :=
  let fl : ℤ := ⌊m⌋
  let frac : ℚ := m - fl
  if frac < 1 / 2 then fl
  else if 1 / 2 < frac then fl + 1
  else if fl % 2 = 0 then fl
  else fl + 1

/-- The number of 53 significant bits nearest to a positive `m`, ties to even: `m` is scaled
by powers of two into `[2^52, 2^53)`, rounded to an integer there and scaled back.  `fuel`
bounds the number of scalings. -/
def roundPositive : Nat → ℚ → ℚ
  | 0, m => m
  | fuel + 1, m =>
    if m < 2 ^ 52 then roundPositive fuel (2 * m) / 2
    else if 2 ^ 53 ≤ m then roundPositive fuel (m / 2) * 2
    else roundHalfEven m

/-- Rounding to binary64 (round to nearest, ties to even) of a rational within the normal range
of binary64; 2200 scalings cover every exponent of the format.  Overflow to an infinity and the
reduced precision of subnormal numbers are not modelled. -/
def roundBinary64 (q : ℚ) : ℚ :=
  if q = 0 then 0
  else if q < 0 then -roundPositive 2200 (-q)
  else roundPositive 2200 q

/-- The result of an arithmetic operation, rounded by `rnd` when it is finite. -/
def JSNum.rounded (rnd : ℚ → ℚ) : JSNum → JSNum
  | .fin q => .fin (rnd q)
  | x => x

/-- A rounding function that returns zero for zero, keeps the order of the numbers and returns
what it is given when that is one of its own results; rounding to nearest is one. -/
def MonotoneRounding (rnd : ℚ → ℚ) : Prop :=
  rnd 0 = 0 ∧ (∀ a b, a ≤ b → rnd a ≤ rnd b) ∧ ∀ a, rnd (rnd a) = rnd a

/-- The northings `a` and `b` of two rows of which the second was generated later, the step of
the outer loop being `d`: `b` is not smaller than `a`, and it is larger when the addition
`a + d` is not absorbed by the rounding. -/
def NorthingsGrow (rnd : ℚ → ℚ) (d : ℚ) (a b : ℚ) : Prop :=
  a ≤ b ∧ (a < rnd (a + d) → a < b)

/-- The stand-in for the libraries with the binary64 number nearest to the square root of 3 as
the value of `Math.sqrt(3)`. -/
def binary64Env : Env :=
  { rectEnv with sqrt := fun _ => 3900231685776981 / 2251799813685248 }

/-- The lattice rows of `tallRectangle` under `binary64Env` in binary64 arithmetic. -/
def tallRows64 : List (List Position) :=
  [[(.fin (84340962069849 / 17592186044416), .fin (3 / 2)),
    (.fin (175752642205247 / 17592186044416), .fin (3 / 2))],
   [(.fin (19317561001075 / 8796093022208), .fin 6),
    (.fin (32511700534387 / 4398046511104), .fin 6)],
   [(.fin (84340962069849 / 17592186044416), .fin (21 / 2)),
    (.fin (175752642205247 / 17592186044416), .fin (21 / 2))]]

/-- The candidates removed for `tallRectangle` under `binary64Env` in binary64 arithmetic. -/
def tallRemoved64 : List Position :=
  [(.fin (-3), .fin (-3)), (.fin (19317561001075 / 8796093022208), .fin (-3)),
   (.fin (32511700534387 / 4398046511104), .fin (-3)),
   (.fin (110729241136473 / 8796093022208), .fin (-3)),
   (.fin (-7070718065549 / 17592186044416), .fin (3 / 2)), (.fin (-3), .fin 6),
   (.fin (110729241136473 / 8796093022208), .fin 6),
   (.fin (-7070718065549 / 17592186044416), .fin (21 / 2)), (.fin (-3), .fin 15),
   (.fin (19317561001075 / 8796093022208), .fin 15),
   (.fin (32511700534387 / 4398046511104), .fin 15),
   (.fin (110729241136473 / 8796093022208), .fin 15)]

/-- The function `getUTMZone` with rounded arithmetic. -/
def getUTMZoneRounded (rnd : ℚ → ℚ) (longitude : JSNum) : JSNum :=
  (JSNum.floor (((longitude + 180).rounded rnd / 6).rounded rnd) + 1).rounded rnd

/-- The function `getUTMEPSG` with rounded arithmetic. -/
def getUTMEPSGRounded (rnd : ℚ → ℚ) (env : Env) (latitude longitude : JSNum) : String :=
  let zone := getUTMZoneRounded rnd longitude
  if latitude.ge 0 then "EPSG:326" ++ env.numberToString zone
  else "EPSG:327" ++ env.numberToString zone

/-- The decision taken inside the `try` block with rounded arithmetic: the quotient
`intersectionArea / circleArea` is rounded. -/
def coversEnoughRounded (rnd : ℚ → ℚ) (env : Env) (polygon : Feature) (r threshold : JSNum)
    (pointWGS84 : Position) : Except JSError Bool :=
  match env.buffer pointWGS84 r with
  | .error e => .error e
  | .ok none => .ok false
  | .ok (some circleBuf) =>
    match circleBuf.geometry, polygon.geometry with
    | some circleGeometry, some polygonGeometry =>
      if circleGeometry.coordinates.length = 0 || polygonGeometry.coordinates.length = 0 then
        .ok false
      else
        match env.intersect circleBuf polygon with
        | .error e => .error e
        | .ok none => .ok false
        | .ok (some intersection) =>
          match intersection.geometry with
          | none => .ok false
          | some _ =>
            match env.area intersection with
            | .error e => .error e
            | .ok intersectionArea =>
              match env.area circleBuf with
              | .error e => .error e
              | .ok circleArea =>
                .ok (intersectionArea.gt 0 && circleArea.gt 0 &&
                  ((intersectionArea / circleArea).rounded rnd).ge threshold)
    | _, _ => .ok false

/-- The body of the inner loop up to `x += dx` with rounded arithmetic. -/
def evaluateCandidateRounded (rnd : ℚ → ℚ) (env : Env) (utmEPSG : String) (polygon : Feature)
    (r threshold x y : JSNum) : Except JSError (Position × Bool) :=
  match env.proj4 utmEPSG "WGS84" (x, y) with
  | .error e => .error e
  | .ok pointWGS84 =>
    if env.pointThrows pointWGS84 then .error .library
    else
      match env.booleanPointInPolygon pointWGS84 polygon with
      | .error e => .error e
      | .ok true => .ok (pointWGS84, true)
      | .ok false =>
        match coversEnoughRounded rnd env polygon r threshold pointWGS84 with
        | .error e => if e.hasMessage then .ok (pointWGS84, false) else .error .typeError
        | .ok keep => .ok (pointWGS84, keep)

/-- The inner loop `while (x <= maxUTM[0] + r)` with rounded arithmetic. -/
def columnLoopRounded (rnd : ℚ → ℚ) (env : Env) (utmEPSG : String) (polygon : Feature)
    (r threshold dx maxX y : JSNum) : Nat → JSNum → RowState → Option (Except JSError RowState)
  | fuel, x, st =>
    if x.le ((maxX + r).rounded rnd) then
      match fuel with
      | 0 => none
      | fuel + 1 =>
        match evaluateCandidateRounded rnd env utmEPSG polygon r threshold x y with
        | .error e => some (.error e)
        | .ok (pointWGS84, true) =>
          columnLoopRounded rnd env utmEPSG polygon r threshold dx maxX y fuel
            ((x + dx).rounded rnd)
            { st with currentRow := st.currentRow ++ [pointWGS84],
                      totalPoints := st.totalPoints + 1 }
        | .ok (pointWGS84, false) =>
          columnLoopRounded rnd env utmEPSG polygon r threshold dx maxX y fuel
            ((x + dx).rounded rnd)
            { st with removedPoints := st.removedPoints ++ [pointWGS84],
                      totalPoints := st.totalPoints + 1 }
    else some (.ok st)

/-- The abscissa at which the inner loop starts in the lattice row of index `row`, with rounded
arithmetic: `minUTM[0] - r + xOffset`, where `xOffset` is `dx / 2` or `0`. -/
def rowStartXRounded (rnd : ℚ → ℚ) (minUTM : Position) (r dx : JSNum) (row : Nat) : JSNum :=
  ((minUTM.1 - r).rounded rnd + (if row % 2 = 1 then (dx / 2).rounded rnd else 0)).rounded rnd

/-- The outer loop `while (y <= maxUTM[1] + r)` with rounded arithmetic. -/
def rowLoopRounded (rnd : ℚ → ℚ) (env : Env) (utmEPSG : String) (polygon : Feature)
    (r threshold dx dy : JSNum) (minUTM maxUTM : Position) :
    Nat → GridState → Option (Except JSError GridState)
  | fuel, st =>
    if st.y.le ((maxUTM.2 + r).rounded rnd) then
      match fuel with
      | 0 => none
      | fuel + 1 =>
        match columnLoopRounded rnd env utmEPSG polygon r threshold dx maxUTM.1 st.y (fuel + 1)
            (rowStartXRounded rnd minUTM r dx st.row)
            { currentRow := [], removedPoints := st.removedPoints,
              totalPoints := st.totalPoints } with
        | none => none
        | some (.error e) => some (.error e)
        | some (.ok inner) =>
          let st' : GridState :=
            { rowPoints :=
                if inner.currentRow.length > 0 then st.rowPoints ++ [inner.currentRow]
                else st.rowPoints,
              removedPoints := inner.removedPoints,
              totalPoints := inner.totalPoints,
              y := (st.y + dy).rounded rnd,
              row := st.row + 1 }
          if st'.totalPoints > 500 then some (.ok st')
          else rowLoopRounded rnd env utmEPSG polygon r threshold dx dy minUTM maxUTM fuel st'
    else some (.ok st)

/-- The function `generateHexGridWithBufferAndFilter` up to its `return`, with rounded
arithmetic. -/
def hexGridFinalStateRounded (rnd : ℚ → ℚ) (env : Env) (fuel : Nat)
    (polygonCoords : List GeoPoint) (r : JSNum) (threshold : JSNum) :
    Option (Except JSError GridState) :=
  match createTurfPolygon env polygonCoords with
  | .error e => some (.error e)
  | .ok polygon =>
    match env.bbox polygon with
    | .error e => some (.error e)
    | .ok bbox =>
      if !bboxValid bbox then some (.error .invalidBoundingBox)
      else
        match env.centroid polygon with
        | .error e => some (.error e)
        | .ok centerCoords =>
          let utmEPSG := getUTMEPSGRounded rnd env centerCoords.2 centerCoords.1
          match env.proj4 "WGS84" utmEPSG (bbox.1, bbox.2.1) with
          | .error e => some (.error e)
          | .ok minUTM =>
            match env.proj4 "WGS84" utmEPSG (bbox.2.2.1, bbox.2.2.2) with
            | .error e => some (.error e)
            | .ok maxUTM =>
              let dx := (env.mathSqrt 3 * r).rounded rnd
              let dy := (JSNum.fin (3 / 2) * r).rounded rnd
              rowLoopRounded rnd env utmEPSG polygon r threshold dx dy minUTM maxUTM fuel
                { rowPoints := [], removedPoints := [], totalPoints := 0,
                  y := (minUTM.2 - r).rounded rnd, row := 0 }

/-- The function `generateHexGridWithBufferAndFilter` with rounded arithmetic: the pair
`{ rowPoints, removedPoints }` it returns. -/
def generateHexGridRounded (rnd : ℚ → ℚ) (env : Env) (fuel : Nat)
    (polygonCoords : List GeoPoint) (r threshold : JSNum) :
    Option (Except JSError (List (List Position) × List Position)) :=
  match hexGridFinalStateRounded rnd env fuel polygonCoords r threshold with
  | none => none
  | some (.error e) => some (.error e)
  | some (.ok st) => some (.ok (st.rowPoints, st.removedPoints))

/-- The value of `parseFloat(x.toFixed(2))` with rounded arithmetic: `toFixed` prints the
decimal nearest to the exact value of `x`, and `parseFloat` rounds what it reads. -/
def JSNum.toFixed2Rounded (rnd : ℚ → ℚ) (x : JSNum) : JSNum :=
  (x.toFixed2).rounded rnd

/-- The function `convertGeographicToCartesian` with rounded arithmetic, called without a
reference point as `calculateWaypoints` does. -/
def convertGeographicToCartesianRounded (rnd : ℚ → ℚ) (env : Env)
    (waypoints : List AbsoluteWaypoint) : List CartesianWaypoint :=
  match waypoints with
  | [] => []
  | first :: _ =>
    let refPoint : GeoPoint := { lat := first.lat, lon := first.lng }
    let EARTH_RADIUS : JSNum := 6371000
    waypoints.map (fun waypoint =>
      let lat := waypoint.lat
      let lng := waypoint.lng
      let dLat := (lat - refPoint.lat).rounded rnd
      let dLng := (lng - refPoint.lon).rounded rnd
      let x := (((dLng * (JSNum.PI / 180).rounded rnd).rounded rnd * EARTH_RADIUS).rounded rnd *
        env.mathCos (((refPoint.lat * JSNum.PI).rounded rnd / 180).rounded rnd)).rounded rnd
      let y := ((dLat * (JSNum.PI / 180).rounded rnd).rounded rnd * EARTH_RADIUS).rounded rnd
      { id := waypoint.id,
        x := x.toFixed2Rounded rnd,
        y := y.toFixed2Rounded rnd,
        z := waypoint.alt.orElse 50 })

/-- The function `applyTranslation` with rounded arithmetic, called with its default
translation as `calculateWaypoints` does. -/
def applyTranslationRounded (rnd : ℚ → ℚ) (waypoints : List CartesianWaypoint) :
    List CartesianWaypoint :=
  waypoints.map (fun waypoint =>
    { waypoint with x := (waypoint.x + 3).rounded rnd, y := (waypoint.y + 3).rounded rnd })

/-- The two assignments to `cartesianWaypoints` of `calculateWaypoints` with rounded
arithmetic. -/
def cartesianOfRounded (rnd : ℚ → ℚ) (env : Env) (needCartesian : Bool)
    (absoluteWaypoints : List AbsoluteWaypoint) : List CartesianWaypoint :=
  if needCartesian then
    applyTranslationRounded rnd (convertGeographicToCartesianRounded rnd env absoluteWaypoints)
  else []

/-- The function `calculateWaypoints` with rounded arithmetic; the literal `0.1` is the rounded
value of one tenth, the other literals are binary64 numbers. -/
def calculateWaypointsRounded (rnd : ℚ → ℚ) (env : Env) (fuel : Nat)
    (polygonCoordinates : Argument) (needCartesian : Bool) :
    Option (Except JSError CoverageResult) :=
  match validatePolygonCoordinates polygonCoordinates with
  | .error e => some (.error e)
  | .ok _ =>
    let turfCoords : List GeoPoint := polygonCoordinates.entries.map Coord.toGeoPoint
    match createTurfPolygon env turfCoords with
    | .error e => some (.error e)
    | .ok polygon =>
      match validatePolygon polygon with
      | .error e => some (.error e)
      | .ok _ =>
        match generateHexGridRounded rnd env fuel turfCoords 3
            ((JSNum.fin (1 / 10)).rounded rnd) with
        | none => none
        | some (.error e) => some (.error e)
        | some (.ok (rowPoints, _)) =>
          if rowPoints.length = 0 then
            let absoluteWaypoints : List AbsoluteWaypoint := turfCoords.mapIdx (fun index coord =>
              { id := index + 1, lat := coord.lat, lng := coord.lon, alt := .fin (7 / 2) })
            some (.ok { absolute := absoluteWaypoints,
                        cartesian := cartesianOfRounded rnd env needCartesian absoluteWaypoints })
          else
            let optimizedPath := optimizePathLayeredWithFinalInterleaved rowPoints
            match absoluteFromPath 0 optimizedPath with
            | .error e => some (.error e)
            | .ok absoluteWaypoints =>
              some (.ok { absolute := absoluteWaypoints,
                          cartesian := cartesianOfRounded rnd env needCartesian absoluteWaypoints })

/-- A rectangle away from the origin, `(lat, lon)` in degrees: latitudes 16 to 30, longitudes
16 to 26. -/
def remoteRectangle : List Coord :=
  [Coord.ofRat 16 16, Coord.ofRat 16 26, Coord.ofRat 30 26, Coord.ofRat 30 16]

/-- The polygon feature that `createTurfPolygon` builds for `remoteRectangle`. -/
def remotePolygon : Feature :=
  { geometry := some
      { type := "Polygon",
        coordinates := [[(.fin 16, .fin 16), (.fin 26, .fin 16), (.fin 26, .fin 30),
          (.fin 16, .fin 30), (.fin 16, .fin 16)]] } }

/-- A pitch of `2^-60`, a number of binary64. -/
def tinyPitch : JSNum :=
  .fin (1 / 2 ^ 60)


/-! ## The coverage test in the words of the specification -/

/-- From the specification: the area-overlap ratio `intersectionArea / circleArea` of the
buffer of a point with the polygon, and `none` for a failure to compute a valid intersection:
the buffer or the intersection throws or is missing, a geometry is degenerate (absent, or
without coordinates), or an area cannot be computed. -/
def specOverlapRatio (rnd : ℚ → ℚ) (env : Env) (polygon : Feature) (r : JSNum)
    (point : Position) : Option JSNum :=
  match env.buffer point r with
  | .ok (some circleBuf) =>
    match circleBuf.geometry, polygon.geometry with
    | some circleGeometry, some polygonGeometry =>
      if circleGeometry.coordinates = [] ∨ polygonGeometry.coordinates = [] then none
      else
        match env.intersect circleBuf polygon with
        | .ok (some intersection) =>
          match intersection.geometry, env.area intersection, env.area circleBuf with
          | some _, .ok intersectionArea, .ok circleArea =>
            some ((intersectionArea / circleArea).rounded rnd)
          | _, _, _ => none
        | _ => none
    | _, _ => none
  | _ => none

/-- From the specification: a point is kept when it is inside the polygon or when the ratio of
its buffer is at least the threshold. -/
def specKeeps (rnd : ℚ → ℚ) (env : Env) (polygon : Feature) (r threshold : JSNum)
    (point : Position) : Bool :=
  decide (env.booleanPointInPolygon point polygon = .ok true) ||
    match specOverlapRatio rnd env polygon r point with
    | some ratio => ratio.ge threshold
    | none => false

/-- A property of the geometry library: the buffer of a point and the intersection of two
features, when one is returned, have a positive area. -/
def Env.AreasPositive (env : Env) : Prop :=
  (∀ point r circleBuf area, env.buffer point r = .ok (some circleBuf) →
    env.area circleBuf = .ok area → area.gt 0 = true) ∧
  (∀ circleBuf polygon intersection area,
    env.intersect circleBuf polygon = .ok (some intersection) →
    env.area intersection = .ok area → area.gt 0 = true)

/-- A property of the geometry library: what `buffer`, `intersect` and `area` throw is an
`Error` object, with a string `message`. -/
def Env.ThrowsErrorObjects (env : Env) : Prop :=
  (∀ point r e, env.buffer point r = .error e → e.hasMessage = true) ∧
  (∀ circleBuf polygon e, env.intersect circleBuf polygon = .error e → e.hasMessage = true) ∧
  (∀ feature e, env.area feature = .error e → e.hasMessage = true)

/-- The square of half side `r` around a point, standing for its buffer. -/
def squareAround (point : Position) (r : JSNum) : Feature :=
  { geometry := some
      { type := "Polygon",
        coordinates := [[(point.1 - r, point.2 - r), (point.1 + r, point.2 - r),
          (point.1 + r, point.2 + r), (point.1 - r, point.2 + r),
          (point.1 - r, point.2 - r)]] } }

/-- The square `[0, 3] x [0, 3]`, standing for the intersection of a buffer with a polygon. -/
def cornerFeature : Feature :=
  { geometry := some
      { type := "Polygon",
        coordinates := [[(.fin 0, .fin 0), (.fin 3, .fin 0), (.fin 3, .fin 3), (.fin 0, .fin 3),
          (.fin 0, .fin 0)]] } }

/-- A variant of `rectEnv` in which every buffer is built, of area 36; the buffer of a point
of negative ordinate makes `intersect` throw an `Error`, any other buffer meets the polygon in
a feature of area 9. -/
def overlapEnv : Env :=
  { rectEnv with
    buffer := fun point r => .ok (some (squareAround point r))
    intersect := fun circleBuf _ =>
      if circleBuf = squareAround (.fin (-3), .fin (-3)) 3 then .error .library
      else .ok (some cornerFeature)
    area := fun feature => .ok (if feature = cornerFeature then .fin 9 else .fin 36) }

/-! ## The lattice in the words of the specification -/

/-- From the specification: the offset `o_k` of the lattice row `k`, `dx / 2` for an odd `k`
and `0` for an even one. -/
def specOffset (dx : ℚ) (k : Nat) : ℚ :=
  if k % 2 = 1 then dx / 2 else 0

/-- The number of `j = 0, 1, ...` with `start + j * step <= bound`, for a positive `step`. -/
def specCount (start step bound : ℚ) : Nat :=
  if start ≤ bound then ⌊(bound - start) / step⌋.toNat + 1 else 0

/-- From the specification: the candidates of the lattice row `k`, of northing `y`: the planar
points `(minX - r + o_k + j * dx, y)` for `j = 0, 1, ...` while the abscissa is at most
`maxX + r`. -/
def specRowCandidates (minX maxX r dx y : ℚ) (k : Nat) : List (ℚ × ℚ) :=
  (List.range (specCount (minX - r + specOffset dx k) dx (maxX + r))).map
    (fun (j : Nat) => (minX - r + specOffset dx k + (j : ℚ) * dx, y))

/-- From the specification: the lattice, row by row: the row `k` has the northing
`minY - r + k * dy`, for `k = 0, 1, ...` while the northing is at most `maxY + r`. -/
def specLattice (minX minY maxX maxY r dx dy : ℚ) : List (List (ℚ × ℚ)) :=
  (List.range (specCount (minY - r) dy (maxY + r))).map
    (fun (k : Nat) => specRowCandidates minX maxX r dx (minY - r + (k : ℚ) * dy) k)

/-- The end of the body of the inner loop: the candidate goes to its row or to
`removedPoints`, and the counter goes up. -/
def placeCandidate (st : RowState) (res : Position × Bool) : RowState :=
  if res.2 then
    { st with currentRow := st.currentRow ++ [res.1], totalPoints := st.totalPoints + 1 }
  else
    { st with removedPoints := st.removedPoints ++ [res.1], totalPoints := st.totalPoints + 1 }

/-- The body of the inner loop run on the planar points of a list, in order. -/
def evaluateRow (env : Env) (utmEPSG : String) (polygon : Feature) (r threshold : JSNum) :
    List (ℚ × ℚ) → RowState → Except JSError RowState
  | [], st => .ok st
  | point :: rest, st =>
    match evaluateCandidate env utmEPSG polygon r threshold (.fin point.1) (.fin point.2) with
    | .error e => .error e
    | .ok res => evaluateRow env utmEPSG polygon r threshold rest (placeCandidate st res)

/-- The body of the outer loop run on the rows of a list, in order, up to the row after which
the counter is above 500: the rows kept, the removed points and the counter. -/
def evaluateLattice (env : Env) (utmEPSG : String) (polygon : Feature) (r threshold : JSNum) :
    List (List (ℚ × ℚ)) → List (List Position) × List Position × Nat →
      Except JSError (List (List Position) × List Position × Nat)
  | [], acc => .ok acc
  | row :: rest, acc =>
    match evaluateRow env utmEPSG polygon r threshold row
        { currentRow := [], removedPoints := acc.2.1, totalPoints := acc.2.2 } with
    | .error e => .error e
    | .ok inner =>
      let acc' : List (List Position) × List Position × Nat :=
        (if inner.currentRow.length > 0 then acc.1 ++ [inner.currentRow] else acc.1,
          inner.removedPoints, inner.totalPoints)
      if inner.totalPoints > 500 then .ok acc'
      else evaluateLattice env utmEPSG polygon r threshold rest acc'

/-- The rows kept, the removed points and the counter of a state of the outer loop. -/
def GridState.summary (st : GridState) : List (List Position) × List Position × Nat :=
  (st.rowPoints, st.removedPoints, st.totalPoints)


/-! ## The arrays as mutable objects

The definitions above treat arrays as values.  To follow which array object a method call
changes, the functions that receive the input ring, or arrays derived from it, are given once
more over a heap of array objects: an array is an address, `map`, `slice` and the spread
`[...a]` allocate a new object, and `push`, `sort` and `reverse` change the object they are
called on.  The source has no assignment to a property or to an element, so the entries
themselves (`{lat, lon}` objects and `[lng, lat]` pairs) are values.  Arrays that start as the
literal `[]` and are only pushed onto (`optimizedPath`, `skippedPoints`, `interleaved`, and the
arrays of the lattice loops until they are returned) are carried as values. -/

/-- An array object, by the kind of its entries. -/
inductive ArrayObject where
  | coords (entries : List Coord)
  | geoPoints (entries : List GeoPoint)
  | positions (entries : List Position)
  | refs (entries : List Nat)
  deriving DecidableEq, Repr

/-- The method `push` on an array of positions. -/
def ArrayObject.push (p : Position) : ArrayObject → ArrayObject
  | .positions entries => .positions (entries ++ [p])
  | obj => obj

/-- The method `sort((a, b) => a[0] - b[0])`, in place. -/
def ArrayObject.sort : ArrayObject → ArrayObject
  | .positions entries => .positions (sortByLng entries)
  | obj => obj

/-- The method `reverse`, in place. -/
def ArrayObject.reverse : ArrayObject → ArrayObject
  | .positions entries => .positions entries.reverse
  | obj => obj

/-- The heap: the array objects by address. -/
abbrev Heap := List ArrayObject

/-- A new array object; its address is returned with the heap. -/
def Heap.alloc (h : Heap) (obj : ArrayObject) : Heap × Nat :=
  (h ++ [obj], h.length)

/-- A method that changes the array object at `addr` in place. -/
def Heap.update (h : Heap) (addr : Nat) (f : ArrayObject → ArrayObject) : Heap :=
  match h[addr]? with
  | some obj => h.set addr (f obj)
  | none => h

/-- The entries of the array of coordinate entries at `addr`. -/
def Heap.coords (h : Heap) (addr : Nat) : List Coord :=
  match h[addr]? with
  | some (.coords entries) => entries
  | _ => []

/-- The entries of the array of `{lat, lon}` objects at `addr`. -/
def Heap.geoPoints (h : Heap) (addr : Nat) : List GeoPoint :=
  match h[addr]? with
  | some (.geoPoints entries) => entries
  | _ => []

/-- The entries of the array of positions at `addr`. -/
def Heap.positions (h : Heap) (addr : Nat) : List Position :=
  match h[addr]? with
  | some (.positions entries) => entries
  | _ => []

/-- The entries of the array of arrays at `addr`. -/
def Heap.refs (h : Heap) (addr : Nat) : List Nat :=
  match h[addr]? with
  | some (.refs entries) => entries
  | _ => []

/-- The argument `polygonCoordinates` on the heap: the address of an array of entries, or
anything else. -/
inductive HeapArgument where
  | notArray
  | arrayAt (addr : Nat)
  deriving DecidableEq, Repr

/-- The argument as a value. -/
def HeapArgument.load (h : Heap) : HeapArgument → Argument
  | .notArray => .notArray
  | .arrayAt addr => .array (h.coords addr)

/-- The function `createTurfPolygon` on the heap: `coordinates.map(...)` allocates `turfCoords`
and the closing position is pushed onto `turfCoords`. -/
def createTurfPolygonHeap (env : Env) (h : Heap) (coordinates : Nat) :
    Heap × Except JSError Feature :=
  let (h1, turfCoords) :=
    h.alloc (.positions ((h.geoPoints coordinates).map (fun coord => (coord.lon, coord.lat))))
  match (h1.positions turfCoords)[0]?,
      (h1.positions turfCoords)[(h1.positions turfCoords).length - 1]? with
  | some firstCoord, some lastCoord =>
    let h2 :=
      if firstCoord.1.strictNe lastCoord.1 || firstCoord.2.strictNe lastCoord.2 then
        h1.update turfCoords (ArrayObject.push (firstCoord.1, firstCoord.2))
      else h1
    (h2, env.polygon [h2.positions turfCoords])
  | _, _ => (h1, .error .typeError)

/-- The function `generateHexGridWithBufferAndFilter` after `createTurfPolygon`, up to its
`return`. -/
def hexGridFromPolygon (env : Env) (fuel : Nat) (polygon : Feature) (r threshold : JSNum) :
    Option (Except JSError GridState) :=
  match env.bbox polygon with
  | .error e => some (.error e)
  | .ok bbox =>
    if !bboxValid bbox then some (.error .invalidBoundingBox)
    else
      match env.centroid polygon with
      | .error e => some (.error e)
      | .ok centerCoords =>
        let utmEPSG := getUTMEPSG env centerCoords.2 centerCoords.1
        match env.proj4 "WGS84" utmEPSG (bbox.1, bbox.2.1) with
        | .error e => some (.error e)
        | .ok minUTM =>
          match env.proj4 "WGS84" utmEPSG (bbox.2.2.1, bbox.2.2.2) with
          | .error e => some (.error e)
          | .ok maxUTM =>
            let dx := env.mathSqrt 3 * r
            let dy := JSNum.fin (3 / 2) * r
            rowLoop env utmEPSG polygon r threshold dx dy minUTM maxUTM fuel
              { rowPoints := [], removedPoints := [], totalPoints := 0,
                y := minUTM.2 - r, row := 0 }

/-- The rows of the lattice as array objects: the addresses of the rows, in order. -/
def allocRows (h : Heap) : List (List Position) → Heap × List Nat
  | [] => (h, [])
  | row :: rest =>
    let (h1, addr) := h.alloc (.positions row)
    let (h2, addrs) := allocRows h1 rest
    (h2, addr :: addrs)

/-- The function `generateHexGridWithBufferAndFilter` on the heap: the addresses of
`rowPoints` and `removedPoints`. -/
def generateHexGridHeap (env : Env) (fuel : Nat) (h : Heap) (polygonCoords : Nat)
    (r threshold : JSNum) : Option (Heap × Except JSError (Nat × Nat)) :=
  match createTurfPolygonHeap env h polygonCoords with
  | (h1, .error e) => some (h1, .error e)
  | (h1, .ok polygon) =>
    match hexGridFromPolygon env fuel polygon r threshold with
    | none => none
    | some (.error e) => some (h1, .error e)
    | some (.ok st) =>
      let (h2, rows) := allocRows h1 st.rowPoints
      let (h3, rowPoints) := h2.alloc (.refs rows)
      let (h4, removedPoints) := h3.alloc (.positions st.removedPoints)
      some (h4, .ok (rowPoints, removedPoints))

/-- The copy `[...row].sort((a, b) => a[0] - b[0])`: the spread allocates, `sort` works in
place on the new array. -/
def copySorted (h : Heap) (row : Nat) : Heap × Nat :=
  let (h1, copy) := h.alloc (.positions (h.positions row))
  (h1.update copy ArrayObject.sort, copy)

/-- The copy `[...points].reverse()` when `n` is `none`, and `points.slice(0, n).reverse()`
when `n` is given: the spread or `slice` allocates, `reverse` works in place on the new
array. -/
def copyReversed (h : Heap) (points : Nat) (n : Option Nat) : Heap × Nat :=
  let entries := h.positions points
  let (h1, copy) := h.alloc (.positions (match n with
    | some n => entries.take n
    | none => entries))
  (h1.update copy ArrayObject.reverse, copy)

/-- The callback of `normalRows.forEach` on the heap, for the row at the address `row`. -/
def processNormalRowHeap (h : Heap) (st : PathState) (idx : Nat) (row : Nat) :
    Heap × PathState :=
  if (h.positions row).length = 0 then (h, st)
  else
    let (h1, sortedRow) := copySorted h row
    let skipped := (h1.positions sortedRow)[0]?
    let (h2, mainPoints) := h1.alloc (.positions ((h1.positions sortedRow).drop 1))
    let (h3, mainOrder) :=
      if idx % 2 = 0 then (h2, mainPoints) else copyReversed h2 mainPoints none
    (h3, { optimizedPath := st.optimizedPath ++ (h3.positions mainOrder).map some,
           skippedPoints := skipped :: st.skippedPoints })

/-- The loop `normalRows.forEach(...)` on the heap, from index `idx` on. -/
def processNormalRowsHeap : Heap → PathState → Nat → List Nat → Heap × PathState
  | h, st, _, [] => (h, st)
  | h, st, idx, row :: rows =>
    let (h1, st1) := processNormalRowHeap h st idx row
    processNormalRowsHeap h1 st1 (idx + 1) rows

/-- The array `interleaved` built from the arrays at `main1` and `main2`. -/
def interleaveHeap (h : Heap) (main1 main2 : Nat) : Heap × List (Option Position) :=
  let m1 := h.positions main1
  let m2 := h.positions main2
  let minLength := min m1.length m2.length
  let pairs := (List.range minLength).flatMap
    (fun i => [m1[m1.length - 1 - i]?, m2[m2.length - 1 - i]?])
  if m1.length > m2.length then
    let (h1, tail) := copyReversed h main1 (some (m1.length - m2.length))
    (h1, pairs ++ (h1.positions tail).map some)
  else if m2.length > m1.length then
    let (h1, tail) := copyReversed h main2 (some (m2.length - m1.length))
    (h1, pairs ++ (h1.positions tail).map some)
  else (h, pairs)

/-- The block `if (interleavedHandled) { ... }` on the heap, for the last two rows at the
addresses `rowA` and `rowB`: both are copied and sorted, the array `interleaved` is pushed onto
`optimizedPath` and `skipped1` is put in front of `skippedPoints`. -/
def interleaveRowsHeap (h : Heap) (st : PathState) (rowA rowB : Nat) : Heap × PathState :=
  let (h1, row1) := copySorted h rowA
  let (h2, row2) := copySorted h1 rowB
  let skipped1 := (h2.positions row1)[0]?
  let (h3, main1) := h2.alloc (.positions ((h2.positions row1).drop 1))
  let main2 := row2
  let (h4, interleaved) := interleaveHeap h3 main1 main2
  (h4, { optimizedPath := st.optimizedPath ++ interleaved,
         skippedPoints := skipped1 :: st.skippedPoints })

/-- The function `optimizePathLayeredWithFinalInterleaved` on the heap; `rowPoints` is the
address of the array of rows.  `normalRows` is `rowPoints` itself or the new array
`rowPoints.slice(0, -2)`. -/
def optimizePathHeap (h : Heap) (rowPoints : Nat) : Heap × List (Option Position) :=
  let rows := h.refs rowPoints
  let totalRows := rows.length
  let interleavedHandled := totalRows % 2 = 1 && totalRows ≥ 2
  let (h1, normalRows) :=
    if interleavedHandled then h.alloc (.refs (rows.take (totalRows - 2))) else (h, rowPoints)
  let (h2, st) :=
    processNormalRowsHeap h1 { optimizedPath := [], skippedPoints := [] } 0 (h1.refs normalRows)
  let (h3, st) :=
    if interleavedHandled then
      interleaveRowsHeap h2 st (rows.getD (totalRows - 2) 0) (rows.getD (totalRows - 1) 0)
    else (h2, st)
  (h3, st.optimizedPath ++ st.skippedPoints)

/-- The function `calculateWaypoints` on the heap: the heap after the call and what the call
returned or threw. -/
def calculateWaypointsHeap (env : Env) (fuel : Nat) (h : Heap)
    (polygonCoordinates : HeapArgument) (needCartesian : Bool) :
    Option (Heap × Except JSError CoverageResult) :=
  match validatePolygonCoordinates (polygonCoordinates.load h) with
  | .error e => some (h, .error e)
  | .ok _ =>
    let (h1, turfCoords) :=
      h.alloc (.geoPoints ((polygonCoordinates.load h).entries.map Coord.toGeoPoint))
    match createTurfPolygonHeap env h1 turfCoords with
    | (h2, .error e) => some (h2, .error e)
    | (h2, .ok polygon) =>
      match validatePolygon polygon with
      | .error e => some (h2, .error e)
      | .ok _ =>
        match generateHexGridHeap env fuel h2 turfCoords 3 (.fin (1 / 10)) with
        | none => none
        | some (h3, .error e) => some (h3, .error e)
        | some (h3, .ok (rowPoints, _)) =>
          if (h3.refs rowPoints).length = 0 then
            let absoluteWaypoints : List AbsoluteWaypoint :=
              (h3.geoPoints turfCoords).mapIdx (fun index coord =>
                { id := index + 1, lat := coord.lat, lng := coord.lon, alt := .fin (7 / 2) })
            some (h3, .ok { absolute := absoluteWaypoints,
                            cartesian := cartesianOf env needCartesian absoluteWaypoints })
          else
            let (h4, optimizedPath) := optimizePathHeap h3 rowPoints
            match absoluteFromPath 0 optimizedPath with
            | .error e => some (h4, .error e)
            | .ok absoluteWaypoints =>
              some (h4, .ok { absolute := absoluteWaypoints,
                              cartesian := cartesianOf env needCartesian absoluteWaypoints })


/-- A heap with `tallRectangle` at address 0, the rows of `sampleRows` at the addresses 1 to 3
and the array of these rows at address 4. -/
def sampleHeap : Heap :=
  .coords tallRectangle :: (sampleRows.map .positions ++ [.refs [1, 2, 3]])

/-- The heap after the call of `calculateWaypoints` on the array at address 0 of `sampleHeap`:
`turfCoords`, the two rings of the two calls of `createTurfPolygon`, the rows of the lattice,
`rowPoints`, `removedPoints`, and the arrays that the optimizer allocates. -/
def sampleHeapAfter : Heap :=
  sampleHeap ++
    [.geoPoints (tallRectangle.map Coord.toGeoPoint),
     .positions [(.fin 0, .fin 0), (.fin 10, .fin 0), (.fin 10, .fin 14), (.fin 0, .fin 14),
       (.fin 0, .fin 0)],
     .positions [(.fin 0, .fin 0), (.fin 10, .fin 0), (.fin 10, .fin 14), (.fin 0, .fin 14),
       (.fin 0, .fin 0)]] ++
    tallRows.map .positions ++
    [.refs [8, 9, 10],
     .positions tallRemoved,
     .refs [8],
     .positions [(.fin (2397 / 500), .fin (3 / 2)), (.fin (999 / 100), .fin (3 / 2))],
     .positions [(.fin (999 / 100), .fin (3 / 2))],
     .positions [(.fin (549 / 250), .fin 6), (.fin (924 / 125), .fin 6)],
     .positions [(.fin (2397 / 500), .fin (21 / 2)), (.fin (999 / 100), .fin (21 / 2))],
     .positions [(.fin (924 / 125), .fin 6)],
     .positions [(.fin (2397 / 500), .fin (21 / 2))]]


/-! ## The cartesian coordinates with rounded arithmetic -/

/-- A closed square of side `2^-17` degrees, about 0.85 m, `(lat, lon)` in degrees: its
coordinates are binary64 numbers, and it is smaller than the pitch of the lattice, so that no
candidate falls inside it. -/
def dyadicSquare : List Coord :=
  [Coord.ofRat 0 0, Coord.ofRat 0 (1 / 131072), Coord.ofRat (1 / 131072) (1 / 131072),
   Coord.ofRat (1 / 131072) 0, Coord.ofRat 0 0]

/-- The absolute waypoints of `dyadicSquare`, whose lattice has no row. -/
def dyadicAbsolute : List AbsoluteWaypoint :=
  [{ id := 1, lat := .fin 0, lng := .fin 0, alt := .fin (7 / 2) },
   { id := 2, lat := .fin 0, lng := .fin (1 / 131072), alt := .fin (7 / 2) },
   { id := 3, lat := .fin (1 / 131072), lng := .fin (1 / 131072), alt := .fin (7 / 2) },
   { id := 4, lat := .fin (1 / 131072), lng := .fin 0, alt := .fin (7 / 2) },
   { id := 5, lat := .fin 0, lng := .fin 0, alt := .fin (7 / 2) }]

/-- The cartesian waypoints of `dyadicSquare` in binary64 arithmetic; the fraction is the
binary64 number `3.85`. -/
def dyadicCartesian : List CartesianWaypoint :=
  [{ id := 1, x := .fin 3, y := .fin 3, z := .fin (7 / 2) },
   { id := 2, x := .fin (8669429282688205 / 2251799813685248), y := .fin 3, z := .fin (7 / 2) },
   { id := 3, x := .fin (8669429282688205 / 2251799813685248),
     y := .fin (8669429282688205 / 2251799813685248), z := .fin (7 / 2) },
   { id := 4, x := .fin 3, y := .fin (8669429282688205 / 2251799813685248), z := .fin (7 / 2) },
   { id := 5, x := .fin 3, y := .fin 3, z := .fin (7 / 2) }]

/-- From the specification, with rounded arithmetic: the abscissa of the waypoint `w` in the
flat-earth frame anchored at `ref`, translated by 3, every operation of the formula being
rounded. -/
def specCartesianXRounded (rnd : ℚ → ℚ) (env : Env) (w ref : AbsoluteWaypoint) : JSNum :=
  (((((w.lng - ref.lng).rounded rnd * (JSNum.PI / 180).rounded rnd).rounded rnd *
    6371000).rounded rnd *
      env.mathCos (((ref.lat * JSNum.PI).rounded rnd / 180).rounded rnd)).rounded rnd +
    3).rounded rnd

/-- From the specification, with rounded arithmetic: the ordinate of the waypoint `w` in the
flat-earth frame anchored at `ref`, translated by 3, every operation of the formula being
rounded. -/
def specCartesianYRounded (rnd : ℚ → ℚ) (w ref : AbsoluteWaypoint) : JSNum :=
  ((((w.lat - ref.lat).rounded rnd * (JSNum.PI / 180).rounded rnd).rounded rnd *
    6371000).rounded rnd + 3).rounded rnd


/-! ## The lattice by repeated addition

The lattice as the loops reach it, by repeated rounded addition, in the words of the
specification of the loops: the first abscissa of a row, the step from one abscissa to the
next and the bound of the row, and the same for the northings. -/

/-- The offset `o_k` of the lattice row `k` with rounded arithmetic: `dx / 2` for an odd `k`
and `0` for an even one. -/
def offsetRounded (rnd : ℚ → ℚ) (dx : ℚ) (k : Nat) : ℚ :=
  if k % 2 = 1 then rnd (dx / 2) else 0

/-- The numbers of the list are `x`, `x + step`, `x + step + step`, ..., every sum rounded,
for as long as they are at most `bound`: each number of the list is at most `bound`, and the
sum that follows the last one is above `bound`. -/
def AccumulatedRun (rnd : ℚ → ℚ) (step bound : ℚ) : ℚ → List ℚ → Prop
  | x, [] => ¬ x ≤ bound
  | x, a :: rest => a = x ∧ x ≤ bound ∧ AccumulatedRun rnd step bound (rnd (x + step)) rest

instance AccumulatedRun.decidable (rnd : ℚ → ℚ) (step bound : ℚ) :
    ∀ x xs, Decidable (AccumulatedRun rnd step bound x xs)
  | x, [] => inferInstanceAs (Decidable (¬ x ≤ bound))
  | x, a :: rest =>
    have := AccumulatedRun.decidable rnd step bound (rnd (x + step)) rest
    inferInstanceAs (Decidable (a = x ∧ x ≤ bound ∧
      AccumulatedRun rnd step bound (rnd (x + step)) rest))

/-- The rows of the list are the lattice rows `k`, `k + 1`, ... of the northings `y`,
`y + dy`, ..., every operation rounded: a row has a northing that is at most `maxY + r`, its
points have this northing, and their abscissas are `minX - r + o_k` and the sums reached from
it by adding `dx`, for as long as they are at most `maxX + r`. -/
def AccumulatedLattice (rnd : ℚ → ℚ) (minX maxX maxY r dx dy : ℚ) :
    Nat → ℚ → List (List (ℚ × ℚ)) → Prop
  | _, _, [] => True
  | k, y, row :: rest =>
    y ≤ rnd (maxY + r) ∧ (∀ p ∈ row, p.2 = y) ∧
      AccumulatedRun rnd dx (rnd (maxX + r)) (rnd (rnd (minX - r) + offsetRounded rnd dx k))
        (row.map Prod.fst) ∧
      AccumulatedLattice rnd minX maxX maxY r dx dy (k + 1) (rnd (y + dy)) rest

instance AccumulatedLattice.decidable (rnd : ℚ → ℚ) (minX maxX maxY r dx dy : ℚ) :
    ∀ k y rows, Decidable (AccumulatedLattice rnd minX maxX maxY r dx dy k y rows)
  | _, _, [] => inferInstanceAs (Decidable True)
  | k, y, row :: rest =>
    have := AccumulatedLattice.decidable rnd minX maxX maxY r dx dy (k + 1) (rnd (y + dy)) rest
    inferInstanceAs (Decidable (y ≤ rnd (maxY + r) ∧ (∀ p ∈ row, p.2 = y) ∧
      AccumulatedRun rnd dx (rnd (maxX + r)) (rnd (rnd (minX - r) + offsetRounded rnd dx k))
        (row.map Prod.fst) ∧
      AccumulatedLattice rnd minX maxX maxY r dx dy (k + 1) (rnd (y + dy)) rest))

/-- The northing reached from `y` by adding `dy` a number of times, every sum rounded. -/
def northingAfter (rnd : ℚ → ℚ) (dy : ℚ) : Nat → ℚ → ℚ
  | 0, y => y
  | n + 1, y => northingAfter rnd dy n (rnd (y + dy))

/-- The body of the inner loop with rounded arithmetic run on the planar points of a list, in
order. -/
def evaluateRowRounded (rnd : ℚ → ℚ) (env : Env) (utmEPSG : String) (polygon : Feature)
    (r threshold : JSNum) : List (ℚ × ℚ) → RowState → Except JSError RowState
  | [], st => .ok st
  | point :: rest, st =>
    match evaluateCandidateRounded rnd env utmEPSG polygon r threshold (.fin point.1)
        (.fin point.2) with
    | .error e => .error e
    | .ok res => evaluateRowRounded rnd env utmEPSG polygon r threshold rest
        (placeCandidate st res)

/-- The body of the outer loop with rounded arithmetic run on the rows of a list, in order, up
to the row after which the counter is above 500: the rows kept, the removed points and the
counter. -/
def evaluateLatticeRounded (rnd : ℚ → ℚ) (env : Env) (utmEPSG : String) (polygon : Feature)
    (r threshold : JSNum) :
    List (List (ℚ × ℚ)) → List (List Position) × List Position × Nat →
      Except JSError (List (List Position) × List Position × Nat)
  | [], acc => .ok acc
  | row :: rest, acc =>
    match evaluateRowRounded rnd env utmEPSG polygon r threshold row
        { currentRow := [], removedPoints := acc.2.1, totalPoints := acc.2.2 } with
    | .error e => .error e
    | .ok inner =>
      let acc' : List (List Position) × List Position × Nat :=
        (if inner.currentRow.length > 0 then acc.1 ++ [inner.currentRow] else acc.1,
          inner.removedPoints, inner.totalPoints)
      if inner.totalPoints > 500 then .ok acc'
      else evaluateLatticeRounded rnd env utmEPSG polygon r threshold rest acc'

/-- A rectangle whose longitudes are the binary64 numbers `1.002` and `5.394304845413263`,
latitudes 0 to 1, given open. -/
def skewRectangle : List Coord :=
  [Coord.ofRat 0 (4512606826625237 / 4503599627370496),
   Coord.ofRat 0 (1518361830732877 / 281474976710656),
   Coord.ofRat 1 (1518361830732877 / 281474976710656),
   Coord.ofRat 1 (4512606826625237 / 4503599627370496)]

/-- The candidates evaluated for `skewRectangle` under `binary64Env` in binary64 arithmetic,
all removed: three of the northing -3 and two of the northing 3/2. -/
def skewRemoved64 : List Position :=
  [(.fin (-8998192055486251 / 4503599627370496), .fin (-3)),
   (.fin (3600799514793909 / 1125899906842624), .fin (-3)),
   (.fin (2362786760864845 / 281474976710656), .fin (-3)),
   (.fin (2702503001844693 / 4503599627370496), .fin (3 / 2)),
   (.fin (6525973279126645 / 1125899906842624), .fin (3 / 2))]

/-- The lattice of `tallRectangle` under `binary64Env` in binary64 arithmetic: five rows of
four or three candidates. -/
def tallLattice64 : List (List (ℚ × ℚ)) :=
  [[(-3, -3), (19317561001075 / 8796093022208, -3), (32511700534387 / 4398046511104, -3),
    (110729241136473 / 8796093022208, -3)],
   [(-7070718065549 / 17592186044416, 3 / 2), (84340962069849 / 17592186044416, 3 / 2),
    (175752642205247 / 17592186044416, 3 / 2)],
   [(-3, 6), (19317561001075 / 8796093022208, 6), (32511700534387 / 4398046511104, 6),
    (110729241136473 / 8796093022208, 6)],
   [(-7070718065549 / 17592186044416, 21 / 2), (84340962069849 / 17592186044416, 21 / 2),
    (175752642205247 / 17592186044416, 21 / 2)],
   [(-3, 15), (19317561001075 / 8796093022208, 15), (32511700534387 / 4398046511104, 15),
    (110729241136473 / 8796093022208, 15)]]


/-! ## Theorems -/

/-! ### Validation -/

theorem checkCoordinate_eq (index : Nat) (c : Coord) :
    checkCoordinate index c =
      if c.isNumeric then .ok ()
      else match c with
        | .nullish => .error .typeError
        | .props _ _ => .error (.invalidCoordinateAt index) := by
  cases c with
  | nullish => rfl
  | props lat lon =>
    cases lat <;> cases lon <;>
      simp [checkCoordinate, JSValue.typeof, JSValue.isNaN, Coord.isNumeric]
    rename_i a b
    cases a <;> cases b <;> simp [JSNum.isNaN]

theorem checkCoordinatesFrom_all (cs : List Coord) (index : Nat)
    (h : cs.all Coord.isNumeric = true) : checkCoordinatesFrom index cs = .ok () := by
  induction cs generalizing index with
  | nil => rfl
  | cons c cs ih =>
    simp only [List.all_cons, Bool.and_eq_true] at h
    simp [checkCoordinatesFrom, checkCoordinate_eq, h.1, ih (index + 1) h.2]

theorem checkCoordinatesFrom_not_all (cs : List Coord) (index : Nat)
    (h : cs.all Coord.isNumeric = false) : ∃ e, checkCoordinatesFrom index cs = .error e := by
  induction cs generalizing index with
  | nil => simp at h
  | cons c cs ih =>
    by_cases hc : c.isNumeric = true
    · have hcs : cs.all Coord.isNumeric = false := by
        simpa [List.all_cons, hc] using h
      obtain ⟨e, he⟩ := ih (index + 1) hcs
      exact ⟨e, by simp [checkCoordinatesFrom, checkCoordinate_eq, hc, he]⟩
    · cases c with
      | nullish => exact ⟨.typeError, by simp [checkCoordinatesFrom, checkCoordinate]⟩
      | props lat lon =>
        exact ⟨.invalidCoordinateAt index, by
          simp [checkCoordinatesFrom, checkCoordinate_eq, hc]⟩

theorem validatePolygonCoordinates_of_numeric (arg : Argument) (h : arg.isNumericRing = true) :
    validatePolygonCoordinates arg = .ok true := by
  cases arg with
  | notArray => simp [Argument.isNumericRing] at h
  | array entries =>
    simp only [Argument.isNumericRing, Bool.and_eq_true, decide_eq_true_eq] at h
    have hlen : ¬ entries.length < 3 := by omega
    simp [validatePolygonCoordinates, hlen, checkCoordinatesFrom_all entries 0 h.2]

theorem validatePolygonCoordinates_of_not_numeric (arg : Argument)
    (h : arg.isNumericRing = false) : ∃ e, validatePolygonCoordinates arg = .error e := by
  cases arg with
  | notArray => exact ⟨_, rfl⟩
  | array entries =>
    by_cases hlen : entries.length < 3
    · exact ⟨.tooFewCoordinates entries.length, by simp [validatePolygonCoordinates, hlen]⟩
    · have hall : entries.all Coord.isNumeric = false := by
        have h3 : 3 ≤ entries.length := by omega
        simpa [Argument.isNumericRing, h3] using h
      obtain ⟨e, he⟩ := checkCoordinatesFrom_not_all entries 0 hall
      exact ⟨e, by simp [validatePolygonCoordinates, hlen, he]⟩

theorem validatePolygonCoordinates_ok (arg : Argument) (b : Bool)
    (h : validatePolygonCoordinates arg = .ok b) : arg.isNumericRing = true := by
  by_contra hn
  obtain ⟨e, he⟩ := validatePolygonCoordinates_of_not_numeric arg (by simpa using hn)
  rw [he] at h
  cases h

/-- On an argument whose array, if it is one, is dense, `validatePolygonCoordinates` returns
`true` exactly on the arrays of at least 3 entries whose `lat` and `lon` are all of number type
and not `NaN`, and throws otherwise: either it returns `true` and the argument is such an array,
or the argument is not and the call throws. -/
theorem validatePolygonCoordinates_true_iff_numeric_ring (arg : Argument) :
    (validatePolygonCoordinates arg = .ok true ∧ arg.isNumericRing = true) ∨
      (arg.isNumericRing = false ∧ ∃ e, validatePolygonCoordinates arg = .error e) := by
  by_cases h : arg.isNumericRing = true
  · exact Or.inl ⟨validatePolygonCoordinates_of_numeric arg h, h⟩
  · have h' : arg.isNumericRing = false := by simpa using h
    exact Or.inr ⟨h', validatePolygonCoordinates_of_not_numeric arg h'⟩

/-- Claim C9, counterexample. The ring `infiniteRing` has a latitude `+Infinity` and a longitude
`-Infinity`, and `validatePolygonCoordinates` returns `true` on it. -/
theorem validatePolygonCoordinates_accepts_infinite :
    infiniteRing.any Coord.hasNonFinite = true ∧
      validatePolygonCoordinates (.array infiniteRing) = .ok true := by
  decide

/-- Claim C9, as amended. `validatePolygonCoordinates` throws on every array that has an entry
with a `lat` or a `lon` equal to `NaN`; an array of at least 3 entries whose `lat` and `lon` are
all numbers other than `NaN` is accepted, whether or not some of them are infinite. -/
theorem validatePolygonCoordinates_fails_on_nan (entries : List Coord) :
    (entries.any Coord.hasNaN = true →
        ∃ e, validatePolygonCoordinates (.array entries) = .error e) ∧
      (3 ≤ entries.length → entries.all Coord.isNumeric = true →
        validatePolygonCoordinates (.array entries) = .ok true) := by
  constructor
  · intro h
    apply validatePolygonCoordinates_of_not_numeric
    obtain ⟨c, hc, hnan⟩ := List.any_eq_true.1 h
    have hnum : c.isNumeric = false := by
      cases c with
      | nullish => rfl
      | props lat lon =>
        simp only [Coord.hasNaN, Bool.or_eq_true, decide_eq_true_eq] at hnan
        rcases hnan with h1 | h1 <;> subst h1
        · cases lon <;> simp [Coord.isNumeric, JSNum.isNaN]
        · cases lat <;> simp [Coord.isNumeric, JSNum.isNaN]
    have hall : entries.all Coord.isNumeric = false := by
      rw [List.all_eq_false]
      exact ⟨c, hc, by simp [hnum]⟩
    simp [Argument.isNumericRing, hall]
  · intro h3 hall
    apply validatePolygonCoordinates_of_numeric
    simp [Argument.isNumericRing, h3, hall]

/-- The amended C9 at `nanRing`, which is rejected, and at `openTriangle`, which is accepted. -/
theorem validatePolygonCoordinates_fails_on_nan_witness :
    (nanRing.any Coord.hasNaN = true ∧
        ∃ e, validatePolygonCoordinates (.array nanRing) = .error e) ∧
      (3 ≤ openTriangle.length ∧ openTriangle.all Coord.isNumeric = true ∧
        validatePolygonCoordinates (.array openTriangle) = .ok true) :=
  ⟨⟨by decide, (validatePolygonCoordinates_fails_on_nan nanRing).1 (by decide)⟩,
   ⟨by decide, by decide,
    (validatePolygonCoordinates_fails_on_nan openTriangle).2 (by decide) (by decide)⟩⟩

/-! ### Ring closing -/

theorem closeRing_eq (coordinates : List GeoPoint) :
    closeRing coordinates =
      match coordinates.head?, coordinates.getLast? with
      | some a, some b =>
        if a.lon.strictNe b.lon || a.lat.strictNe b.lat then
          .ok (coordinates.map (fun coord => (coord.lon, coord.lat)) ++ [(a.lon, a.lat)])
        else .ok (coordinates.map (fun coord => (coord.lon, coord.lat)))
      | _, _ => .error .typeError := by
  unfold closeRing
  simp only [← List.head?_eq_getElem?, ← List.getLast?_eq_getElem?, List.head?_map,
    List.getLast?_map]
  cases coordinates.head? <;> cases coordinates.getLast? <;> rfl

theorem createTurfPolygon_ok (env : Env) (coordinates : List GeoPoint) (polygon : Feature)
    (h : createTurfPolygon env coordinates = .ok polygon) :
    ∃ ring, closeRing coordinates = .ok ring ∧
      polygon = { geometry := some { type := "Polygon", coordinates := [ring] } } := by
  unfold createTurfPolygon at h
  cases hc : closeRing coordinates with
  | error e => simp [hc] at h
  | ok ring =>
    refine ⟨ring, rfl, ?_⟩
    simp only [hc, Env.polygon] at h
    split at h
    · cases h
    · cases h; rfl

theorem validatePolygon_short (ring : List Position) (h : ring.length < 4) :
    validatePolygon { geometry := some { type := "Polygon", coordinates := [ring] } } =
      .error .insufficientCoordinates := by
  simp [validatePolygon, h]

theorem validatePolygon_long (ring : List Position) (h : 4 ≤ ring.length) :
    validatePolygon { geometry := some { type := "Polygon", coordinates := [ring] } } ≠
      .error .insufficientCoordinates := by
  have h' : ¬ ring.length < 4 := by omega
  simp only [validatePolygon, h', ne_eq, not_true_eq_false, ite_false]
  split
  · split <;> simp
  · simp

theorem calculateWaypoints_fails_of_short_ring (env : Env) (fuel : Nat) (entries : List Coord)
    (needCartesian : Bool) (ring : List Position)
    (hring : closeRing (entries.map Coord.toGeoPoint) = .ok ring) (hlen : ring.length < 4) :
    ∃ e, calculateWaypoints env fuel (.array entries) needCartesian = some (.error e) := by
  unfold calculateWaypoints
  cases hv : validatePolygonCoordinates (.array entries) with
  | error e => exact ⟨e, rfl⟩
  | ok b =>
    simp only [Argument.entries]
    cases hp : createTurfPolygon env (entries.map Coord.toGeoPoint) with
    | error e => exact ⟨e, rfl⟩
    | ok polygon =>
      obtain ⟨ring', hring', hpoly⟩ := createTurfPolygon_ok env _ polygon hp
      rw [hring] at hring'
      cases hring'
      subst hpoly
      exact ⟨.insufficientCoordinates, by simp [validatePolygon_short ring hlen]⟩

theorem strictNe_of_numeric (c d : Coord) (hc : c.isNumeric = true) (hd : d.isNumeric = true) :
    (c.toGeoPoint.lon.strictNe d.toGeoPoint.lon || c.toGeoPoint.lat.strictNe d.toGeoPoint.lat) =
      decide (c ≠ d) := by
  cases c with
  | nullish => simp [Coord.isNumeric] at hc
  | props lat lon =>
    cases d with
    | nullish => simp [Coord.isNumeric] at hd
    | props lat' lon' =>
      cases lat <;> cases lon <;> simp [Coord.isNumeric] at hc
      cases lat' <;> cases lon' <;> simp [Coord.isNumeric] at hd
      rename_i a b a' b'
      cases a <;> cases b <;> simp [JSNum.isNaN] at hc <;>
        simp [Coord.toGeoPoint, JSValue.toNum, JSNum.strictNe, JSNum.strictEq, JSNum.isNaN] <;>
        exact Bool.or_comm _ _

/-- The ring of `createTurfPolygon` on an accepted array: the entries as `[lon, lat]`, with a
copy of the first position appended exactly when the last entry differs from the first. -/
theorem closeRing_of_numeric (entries : List Coord)
    (h : (Argument.array entries).isNumericRing = true) :
    ∃ a b, entries.head? = some a ∧ entries.getLast? = some b ∧
      closeRing (entries.map Coord.toGeoPoint) =
        .ok (if a = b then (entries.map Coord.toGeoPoint).map (fun coord => (coord.lon, coord.lat))
          else (entries.map Coord.toGeoPoint).map (fun coord => (coord.lon, coord.lat)) ++
            [(a.toGeoPoint.lon, a.toGeoPoint.lat)]) := by
  simp only [Argument.isNumericRing, Bool.and_eq_true, decide_eq_true_eq, List.all_eq_true] at h
  obtain ⟨hlen, hall⟩ := h
  cases ha : entries.head? with
  | none =>
    rw [List.head?_eq_none_iff] at ha
    subst ha
    simp at hlen
  | some a =>
    cases hb : entries.getLast? with
    | none =>
      rw [List.getLast?_eq_none_iff] at hb
      subst hb
      simp at hlen
    | some b =>
      refine ⟨a, b, rfl, rfl, ?_⟩
      have hma : a ∈ entries := List.mem_of_mem_head? (by simp [ha])
      have hmb : b ∈ entries := List.mem_of_getLast?_eq_some hb
      rw [closeRing_eq]
      simp only [List.head?_map, List.getLast?_map, ha, hb, Option.map_some']
      rw [strictNe_of_numeric a b (hall a hma) (hall b hmb)]
      by_cases hab : a = b <;> simp [hab]

/-- Claim C10. On every array whose closed ring has fewer than 4 positions `calculateWaypoints`
throws, in particular on every array of 3 entries whose last entry equals the first; and an
accepted array (at least 3 numeric entries) whose last entry differs from the first is closed
into a ring of one more position, at least 4, which `validatePolygon` never rejects for
insufficient coordinates. -/
theorem calculateWaypoints_ring_of_four (env : Env) (fuel : Nat) (entries : List Coord)
    (needCartesian : Bool) :
    (∀ ring, closeRing (entries.map Coord.toGeoPoint) = .ok ring → ring.length < 4 →
        ∃ e, calculateWaypoints env fuel (.array entries) needCartesian = some (.error e)) ∧
      (entries.length = 3 → entries.head? = entries.getLast? →
        ∃ e, calculateWaypoints env fuel (.array entries) needCartesian = some (.error e)) ∧
      (validatePolygonCoordinates (.array entries) = .ok true →
        entries.head? ≠ entries.getLast? →
        ∃ ring, closeRing (entries.map Coord.toGeoPoint) = .ok ring ∧
          ring.length = entries.length + 1 ∧ 4 ≤ ring.length ∧
          ∀ polygon, createTurfPolygon env (entries.map Coord.toGeoPoint) = .ok polygon →
            validatePolygon polygon ≠ .error .insufficientCoordinates) := by
  refine ⟨fun ring hring hlen =>
    calculateWaypoints_fails_of_short_ring env fuel entries needCartesian ring hring hlen, ?_, ?_⟩
  · intro h3 hclosed
    by_cases hnum : (Argument.array entries).isNumericRing = true
    · obtain ⟨a, b, ha, hb, hring⟩ := closeRing_of_numeric entries hnum
      have hab : a = b := by
        rw [ha, hb] at hclosed
        exact Option.some.inj hclosed
      rw [if_pos hab] at hring
      exact calculateWaypoints_fails_of_short_ring env fuel entries needCartesian _ hring
        (by simp [h3])
    · obtain ⟨e, he⟩ := validatePolygonCoordinates_of_not_numeric (.array entries)
        (by simpa using hnum)
      exact ⟨e, by simp [calculateWaypoints, he]⟩
  · intro hv hopen
    have hnum := validatePolygonCoordinates_ok _ _ hv
    obtain ⟨a, b, ha, hb, hring⟩ := closeRing_of_numeric entries hnum
    have hab : a ≠ b := by
      intro hab
      exact hopen (by rw [ha, hb, hab])
    rw [if_neg hab] at hring
    have h3 : 3 ≤ entries.length := by
      simp only [Argument.isNumericRing, Bool.and_eq_true, decide_eq_true_eq] at hnum
      exact hnum.1
    refine ⟨_, hring, by simp, by simp; omega, ?_⟩
    intro polygon hp
    obtain ⟨ring, hring', hpoly⟩ := createTurfPolygon_ok env _ polygon hp
    rw [hring] at hring'
    cases hring'
    subst hpoly
    exact validatePolygon_long _ (by simp; omega)

/-- C10 at `closedTriangle`, which is rejected, and at `openTriangle`, closed into 4 positions. -/
theorem calculateWaypoints_ring_of_four_witness :
    (closedTriangle.length = 3 ∧ closedTriangle.head? = closedTriangle.getLast? ∧
        ∃ e, calculateWaypoints rectEnv 0 (.array closedTriangle) true = some (.error e)) ∧
      (validatePolygonCoordinates (.array openTriangle) = .ok true ∧
        openTriangle.head? ≠ openTriangle.getLast? ∧
        ∃ ring, closeRing (openTriangle.map Coord.toGeoPoint) = .ok ring ∧
          ring.length = openTriangle.length + 1 ∧ 4 ≤ ring.length ∧
          ∀ polygon, createTurfPolygon rectEnv (openTriangle.map Coord.toGeoPoint) = .ok polygon →
            validatePolygon polygon ≠ .error .insufficientCoordinates) :=
  ⟨⟨by decide, by decide,
    (calculateWaypoints_ring_of_four rectEnv 0 closedTriangle true).2.1 (by decide) (by decide)⟩,
   ⟨by decide, by decide,
    (calculateWaypoints_ring_of_four rectEnv 0 openTriangle true).2.2 (by decide) (by decide)⟩⟩

/-! ### The path optimizer -/

theorem sortByLng_perm (row : List Position) : (sortByLng row).Perm row :=
  List.perm_insertionSort _ _

theorem sortByLng_length (row : List Position) : (sortByLng row).length = row.length :=
  List.length_insertionSort _ _

/-- A sorted copy of a row that is not empty, split as the loop does. -/
theorem sortByLng_cons (row : List Position) (h : row ≠ []) :
    ∃ skipped mainPoints, sortByLng row = skipped :: mainPoints ∧
      (sortByLng row)[0]? = some skipped ∧ (sortByLng row).drop 1 = mainPoints := by
  cases hs : sortByLng row with
  | nil =>
    have hl := sortByLng_length row
    rw [hs] at hl
    exact absurd (List.length_eq_zero.1 hl.symm) h
  | cons skipped mainPoints => exact ⟨skipped, mainPoints, rfl, by simp, rfl⟩

theorem interleave_pairs_perm (main1 main2 : List Position) (n : Nat) (h1 : n ≤ main1.length)
    (h2 : n ≤ main2.length) :
    ((List.range n).flatMap
        (fun i => [main1[main1.length - 1 - i]?, main2[main2.length - 1 - i]?])).Perm
      ((main1.drop (main1.length - n) ++ main2.drop (main2.length - n)).map some) := by
  induction n with
  | zero => simp
  | succ n ih =>
    have ih := ih (by omega) (by omega)
    have i1 : main1.length - 1 - n = main1.length - (n + 1) := by omega
    have i2 : main2.length - 1 - n = main2.length - (n + 1) := by omega
    have d1 : main1.length - (n + 1) + 1 = main1.length - n := by omega
    have d2 : main2.length - (n + 1) + 1 = main2.length - n := by omega
    have k1 : main1.length - (n + 1) < main1.length := by omega
    have k2 : main2.length - (n + 1) < main2.length := by omega
    rw [List.range_succ, List.flatMap_append, List.drop_eq_getElem_cons k1,
      List.drop_eq_getElem_cons k2, d1, d2]
    simp only [List.flatMap_cons, List.flatMap_nil, List.append_nil, i1, i2,
      List.getElem?_eq_getElem k1, List.getElem?_eq_getElem k2]
    rw [List.perm_iff_count] at ih ⊢
    intro a
    have := ih a
    simp only [List.count_append, List.count_cons, List.count_nil, List.map_append,
      List.map_cons] at this ⊢
    omega

theorem take_drop_map_perm (k : Nat) (l : List Position) :
    ((l.take k).map some ++ (l.drop k).map some).Perm (l.map some) := by
  rw [← List.map_append, List.take_append_drop]

/-- The interleaved segment holds the points of `main1` and of `main2`, each once. -/
theorem interleave_perm (main1 main2 : List Position) :
    (interleave main1 main2).Perm ((main1 ++ main2).map some) := by
  unfold interleave
  rw [List.perm_iff_count]
  intro a
  by_cases h12 : main1.length > main2.length
  · have hp := (interleave_pairs_perm main1 main2 main2.length (by omega) (by omega)).count_eq a
    have hm : min main1.length main2.length = main2.length := by omega
    have ht := (take_drop_map_perm (main1.length - main2.length) main1).count_eq a
    simp only [h12, hm, if_true, List.count_append, List.map_append, List.map_reverse,
      List.count_reverse, Nat.sub_self, List.drop_zero] at hp ht ⊢
    omega
  · by_cases h21 : main2.length > main1.length
    · have hp := (interleave_pairs_perm main1 main2 main1.length (by omega) (by omega)).count_eq a
      have hm : min main1.length main2.length = main1.length := by omega
      have ht := (take_drop_map_perm (main2.length - main1.length) main2).count_eq a
      simp only [h12, h21, hm, if_true, if_false, List.count_append, List.map_append,
        List.map_reverse, List.count_reverse, Nat.sub_self, List.drop_zero] at hp ht ⊢
      omega
    · have he : main1.length = main2.length := by omega
      have hp := (interleave_pairs_perm main1 main2 main1.length (by omega) (by omega)).count_eq a
      have hm : min main1.length main2.length = main1.length := by omega
      simp only [h12, h21, hm, if_false, List.count_append, List.map_append] at hp ⊢
      rw [hp, ← he]
      simp

theorem processNormalRow_perm (st : PathState) (idx : Nat) (row : List Position)
    (h : row ≠ []) :
    ((processNormalRow st idx row).optimizedPath ++
        (processNormalRow st idx row).skippedPoints).Perm
      (st.optimizedPath ++ st.skippedPoints ++ row.map some) := by
  obtain ⟨skipped, mainPoints, hs, h0, hd⟩ := sortByLng_cons row h
  have hlen : row.length ≠ 0 := fun hl => h (List.length_eq_zero.1 hl)
  have hrow := (sortByLng_perm row).map some
  rw [hs] at hrow
  unfold processNormalRow
  simp only [hlen, if_false, h0, hd]
  rw [List.perm_iff_count] at hrow ⊢
  intro a
  have := hrow a
  by_cases hi : idx % 2 = 0 <;>
    simp only [hi, if_true, if_false, List.count_append, List.count_cons, List.map_cons,
      List.map_reverse, List.count_reverse] at this ⊢ <;> omega

theorem processNormalRows_perm (rows : List (List Position)) (st : PathState) (idx : Nat)
    (h : ∀ row ∈ rows, row ≠ []) :
    ((processNormalRows st idx rows).optimizedPath ++
        (processNormalRows st idx rows).skippedPoints).Perm
      (st.optimizedPath ++ st.skippedPoints ++ rows.flatten.map some) := by
  induction rows generalizing st idx with
  | nil => simp [processNormalRows]
  | cons row rows ih =>
    have h1 := processNormalRow_perm st idx row (h row (List.mem_cons_self _ _))
    have h2 := ih (processNormalRow st idx row) (idx + 1)
      (fun r hr => h r (List.mem_cons_of_mem _ hr))
    simp only [processNormalRows, List.flatten_cons, List.map_append]
    refine h2.trans ?_
    rw [← List.append_assoc]
    exact h1.append_right _

/-- The optimizer when the last two rows are not interleaved (an even number of rows, or a
single row). -/
theorem optimizePath_plain (rowPoints : List (List Position))
    (h : ¬ (rowPoints.length % 2 = 1 ∧ rowPoints.length ≥ 2)) :
    optimizePathLayeredWithFinalInterleaved rowPoints =
      (processNormalRows { optimizedPath := [], skippedPoints := [] } 0 rowPoints).optimizedPath ++
        (processNormalRows { optimizedPath := [], skippedPoints := [] } 0 rowPoints).skippedPoints
    := by
  have hb : (decide (rowPoints.length % 2 = 1) && decide (rowPoints.length ≥ 2)) = false := by
    simpa using h
  simp only [optimizePathLayeredWithFinalInterleaved, hb]
  simp

/-- The optimizer when the last two rows `row1` and `row2` are interleaved (an odd number of
rows, at least 3). -/
theorem optimizePath_interleaved (normalRows : List (List Position)) (row1 row2 : List Position)
    (h : (normalRows.length + 2) % 2 = 1) :
    optimizePathLayeredWithFinalInterleaved (normalRows ++ [row1, row2]) =
      ((processNormalRows { optimizedPath := [], skippedPoints := [] } 0 normalRows).optimizedPath
          ++ interleave ((sortByLng row1).drop 1) (sortByLng row2)) ++
        ((sortByLng row1)[0]? ::
          (processNormalRows { optimizedPath := [], skippedPoints := [] }
            0 normalRows).skippedPoints) := by
  have hlen : (normalRows ++ [row1, row2]).length = normalRows.length + 2 := by simp
  have hb : (decide ((normalRows.length + 2) % 2 = 1) && decide (normalRows.length + 2 ≥ 2)) =
      true := by simp [h]
  have hg1 : (normalRows ++ [row1, row2]).getD normalRows.length [] = row1 := by
    rw [List.getD_eq_getElem?_getD, List.getElem?_append_right (Nat.le_refl _)]
    simp
  have hg2 : (normalRows ++ [row1, row2]).getD (normalRows.length + 1) [] = row2 := by
    rw [List.getD_eq_getElem?_getD, List.getElem?_append_right (Nat.le_succ _)]
    simp
  have hsub : normalRows.length + 2 - 1 = normalRows.length + 1 := rfl
  simp only [optimizePathLayeredWithFinalInterleaved, hlen, hb, if_true,
    Nat.add_sub_cancel, hsub, hg1, hg2, List.take_left']

/-- A list of rows of odd length at least 3 ends with two rows. -/
theorem rows_split_last_two (rowPoints : List (List Position))
    (h : rowPoints.length % 2 = 1 ∧ rowPoints.length ≥ 2) :
    ∃ normalRows row1 row2, rowPoints = normalRows ++ [row1, row2] := by
  have hd : (rowPoints.drop (rowPoints.length - 2)).length = 2 := by
    rw [List.length_drop]; omega
  match hm : rowPoints.drop (rowPoints.length - 2), hd with
  | [row1, row2], _ =>
    exact ⟨rowPoints.take (rowPoints.length - 2), row1, row2, by
      rw [← hm, List.take_append_drop]⟩

theorem optimizePath_perm (rowPoints : List (List Position))
    (h : ∀ row ∈ rowPoints, row ≠ []) :
    (optimizePathLayeredWithFinalInterleaved rowPoints).Perm (rowPoints.flatten.map some) := by
  by_cases hodd : rowPoints.length % 2 = 1 ∧ rowPoints.length ≥ 2
  · obtain ⟨normalRows, row1, row2, rfl⟩ := rows_split_last_two rowPoints hodd
    have hl : (normalRows.length + 2) % 2 = 1 := by simpa using hodd.1
    rw [optimizePath_interleaved normalRows row1 row2 hl]
    have hn := processNormalRows_perm normalRows { optimizedPath := [], skippedPoints := [] } 0
      (fun r hr => h r (List.mem_append_left _ hr))
    have h1 : row1 ≠ [] := h row1 (by simp)
    obtain ⟨skipped, mainPoints, hs, h0, hd⟩ := sortByLng_cons row1 h1
    have hr1 := (sortByLng_perm row1).map some
    have hr2 := (sortByLng_perm row2).map some
    have hi := interleave_perm mainPoints (sortByLng row2)
    rw [h0, hd]
    rw [hs] at hr1
    rw [List.perm_iff_count] at hn hr1 hr2 hi ⊢
    intro a
    have e1 := hn a
    have e2 := hr1 a
    have e3 := hr2 a
    have e4 := hi a
    simp only [List.count_append, List.count_cons, List.map_cons, List.map_append,
      List.flatten_append, List.flatten_cons, List.flatten_nil, List.append_nil,
      List.count_nil] at e1 e2 e3 e4 ⊢
    omega
  · rw [optimizePath_plain rowPoints hodd]
    simpa using processNormalRows_perm rowPoints { optimizedPath := [], skippedPoints := [] } 0 h

/-- Claim C3. On rows that are all non-empty the optimizer returns a permutation of the
concatenation of the rows: its length is the sum of the row lengths and every point occurs in
it as often as in the rows, whatever the parity of the number of rows. -/
theorem optimizePath_is_permutation (rowPoints : List (List Position))
    (h : ∀ row ∈ rowPoints, row ≠ []) :
    (optimizePathLayeredWithFinalInterleaved rowPoints).Perm (rowPoints.flatten.map some) ∧
      (optimizePathLayeredWithFinalInterleaved rowPoints).length =
        (rowPoints.map List.length).sum ∧
      ∀ point : Position,
        (optimizePathLayeredWithFinalInterleaved rowPoints).count (some point) =
          rowPoints.flatten.count point := by
  have hp := optimizePath_perm rowPoints h
  refine ⟨hp, ?_, ?_⟩
  · rw [hp.length_eq, List.length_map, List.length_flatten]
  · intro point
    rw [List.count_eq_countP, hp.countP_eq, List.countP_map, List.count_eq_countP]
    rfl

/-- C3 at `sampleRows`, three rows of lengths 4, 3 and 3. -/
theorem optimizePath_is_permutation_witness :
    (∀ row ∈ sampleRows, row ≠ []) ∧
      (optimizePathLayeredWithFinalInterleaved sampleRows).Perm (sampleRows.flatten.map some) ∧
      (optimizePathLayeredWithFinalInterleaved sampleRows).length =
        (sampleRows.map List.length).sum ∧
      ∀ point : Position,
        (optimizePathLayeredWithFinalInterleaved sampleRows).count (some point) =
          sampleRows.flatten.count point :=
  ⟨by decide, optimizePath_is_permutation sampleRows (by decide)⟩

/-! ### The lattice generator -/

/-- The outer loop only ever appends rows that are not empty. -/
theorem rowLoop_rows_nonempty (env : Env) (utmEPSG : String) (polygon : Feature)
    (r threshold dx dy : JSNum) (minUTM maxUTM : Position) (fuel : Nat) (st st' : GridState)
    (hst : ∀ row ∈ st.rowPoints, row ≠ [])
    (h : rowLoop env utmEPSG polygon r threshold dx dy minUTM maxUTM fuel st = some (.ok st')) :
    ∀ row ∈ st'.rowPoints, row ≠ [] := by
  induction fuel generalizing st with
  | zero =>
    unfold rowLoop at h
    split at h
    · cases h
    · cases h
      exact hst
  | succ fuel ih =>
    unfold rowLoop at h
    split at h
    · simp only at h
      split at h
      · cases h
      · cases h
      · rename_i inner hinner
        split at h
        · cases h
          intro row hrow
          simp only at hrow
          split at hrow
          · rcases List.mem_append.1 hrow with hr | hr
            · exact hst row hr
            · rename_i hpos
              simp only [List.mem_singleton] at hr
              subst hr
              intro hnil
              rw [hnil] at hpos
              simp at hpos
          · exact hst row hrow
        · refine ih _ ?_ h
          intro row hrow
          simp only at hrow
          split at hrow
          · rcases List.mem_append.1 hrow with hr | hr
            · exact hst row hr
            · rename_i hpos
              simp only [List.mem_singleton] at hr
              subst hr
              intro hnil
              rw [hnil] at hpos
              simp at hpos
          · exact hst row hrow
    · cases h
      exact hst

theorem hexGridFinalState_rows_nonempty (env : Env) (fuel : Nat) (polygonCoords : List GeoPoint)
    (r threshold : JSNum) (st : GridState)
    (h : hexGridFinalState env fuel polygonCoords r threshold = some (.ok st)) :
    ∀ row ∈ st.rowPoints, row ≠ [] := by
  unfold hexGridFinalState at h
  split at h
  · cases h
  · split at h
    · cases h
    · split at h
      · cases h
      · split at h
        · cases h
        · simp only at h
          split at h
          · cases h
          · split at h
            · cases h
            · exact rowLoop_rows_nonempty _ _ _ _ _ _ _ _ _ _ _ _ (by simp) h

/-- Every row returned by the generator holds at least one point. -/
theorem generateHexGrid_rows_nonempty (env : Env) (fuel : Nat) (polygonCoords : List GeoPoint)
    (r threshold : JSNum) (rowPoints : List (List Position)) (removedPoints : List Position)
    (h : generateHexGridWithBufferAndFilter env fuel polygonCoords r threshold =
      some (.ok (rowPoints, removedPoints))) :
    ∀ row ∈ rowPoints, row ≠ [] := by
  unfold generateHexGridWithBufferAndFilter at h
  split at h
  · cases h
  · cases h
  · rename_i st hst
    cases h
    exact hexGridFinalState_rows_nonempty env fuel polygonCoords r threshold st hst

/-! ### The waypoint assembler -/

/-- What a returning call of `calculateWaypoints` has gone through: the argument was accepted,
the generator returned its rows, `absolute` comes from the ring itself when there is no row and
from the optimized path otherwise, and `cartesian` is computed from `absolute`. -/
theorem calculateWaypoints_ok (env : Env) (fuel : Nat) (arg : Argument) (needCartesian : Bool)
    (res : CoverageResult)
    (h : calculateWaypoints env fuel arg needCartesian = some (.ok res)) :
    validatePolygonCoordinates arg = .ok true ∧
      ∃ rowPoints removedPoints,
        generateHexGridWithBufferAndFilter env fuel (arg.entries.map Coord.toGeoPoint) 3
            (.fin (1 / 10)) = some (.ok (rowPoints, removedPoints)) ∧
          ((rowPoints = [] ∧
              res.absolute = (arg.entries.map Coord.toGeoPoint).mapIdx (fun index coord =>
                { id := index + 1, lat := coord.lat, lng := coord.lon, alt := .fin (7 / 2) })) ∨
            (rowPoints ≠ [] ∧
              absoluteFromPath 0 (optimizePathLayeredWithFinalInterleaved rowPoints) =
                .ok res.absolute)) ∧
          res.cartesian = cartesianOf env needCartesian res.absolute := by
  unfold calculateWaypoints at h
  split at h
  · cases h
  · rename_i b hv
    have hv' : validatePolygonCoordinates arg = .ok true :=
      validatePolygonCoordinates_of_numeric arg (validatePolygonCoordinates_ok arg b hv)
    refine ⟨hv', ?_⟩
    simp only at h
    split at h
    · cases h
    · split at h
      · cases h
      · split at h
        · cases h
        · cases h
        · rename_i rowPoints removedPoints hg
          refine ⟨rowPoints, removedPoints, hg, ?_⟩
          split at h
          · rename_i hlen
            cases h
            exact ⟨Or.inl ⟨List.length_eq_zero.1 hlen, rfl⟩, rfl⟩
          · rename_i hlen
            split at h
            · cases h
            · rename_i ws hws
              cases h
              exact ⟨Or.inr ⟨fun hnil => hlen (by rw [hnil]; rfl), hws⟩, rfl⟩

theorem absoluteFromPath_spec (path : List (Option Position)) (index : Nat)
    (ws : List AbsoluteWaypoint) (h : absoluteFromPath index path = .ok ws) :
    ws.length = path.length ∧
      ∀ (i : Nat) (w : AbsoluteWaypoint), ws[i]? = some w →
        w.id = index + i + 1 ∧ w.alt = .fin (7 / 2) ∧ path[i]? = some (some (w.lng, w.lat)) := by
  induction path generalizing index ws with
  | nil =>
    cases h
    exact ⟨rfl, fun i w hw => by simp at hw⟩
  | cons p rest ih =>
    cases p with
    | none => cases h
    | some point =>
      unfold absoluteFromPath at h
      split at h
      · cases h
      · rename_i ws' hws'
        cases h
        obtain ⟨hl, hi⟩ := ih (index + 1) ws' hws'
        refine ⟨by simp [hl], ?_⟩
        intro i w hw
        cases i with
        | zero =>
          simp only [List.getElem?_cons_zero, Option.some.injEq] at hw
          subst hw
          exact ⟨rfl, rfl, by simp⟩
        | succ i =>
          simp only [List.getElem?_cons_succ] at hw
          obtain ⟨h1, h2, h3⟩ := hi i w hw
          exact ⟨by omega, h2, by simpa using h3⟩

/-- The length of `absolute` on the two paths of a returning call. -/
theorem calculateWaypoints_absolute_length (env : Env) (fuel : Nat) (arg : Argument)
    (needCartesian : Bool) (res : CoverageResult)
    (h : calculateWaypoints env fuel arg needCartesian = some (.ok res)) :
    ∃ rowPoints removedPoints,
      generateHexGridWithBufferAndFilter env fuel (arg.entries.map Coord.toGeoPoint) 3
          (.fin (1 / 10)) = some (.ok (rowPoints, removedPoints)) ∧
        ((rowPoints ≠ [] ∧
            res.absolute.length =
              (optimizePathLayeredWithFinalInterleaved rowPoints).length ∧
            res.absolute.length = (rowPoints.map List.length).sum ∧
            1 ≤ res.absolute.length) ∨
          (rowPoints = [] ∧ res.absolute.length = arg.entries.length ∧
            3 ≤ res.absolute.length)) := by
  obtain ⟨hv, rowPoints, removedPoints, hg, hcase, -⟩ :=
    calculateWaypoints_ok env fuel arg needCartesian res h
  have key : (rowPoints ≠ [] ∧
        res.absolute.length = (optimizePathLayeredWithFinalInterleaved rowPoints).length ∧
        res.absolute.length = (rowPoints.map List.length).sum ∧ 1 ≤ res.absolute.length) ∨
      (rowPoints = [] ∧ res.absolute.length = arg.entries.length ∧
        3 ≤ res.absolute.length) := by
    rcases hcase with ⟨hnil, habs⟩ | ⟨hne, habs⟩
    · right
      have hnum := validatePolygonCoordinates_ok arg true hv
      cases arg with
      | notArray => simp [Argument.isNumericRing] at hnum
      | array entries =>
        simp only [Argument.isNumericRing, Bool.and_eq_true, decide_eq_true_eq] at hnum
        have hl : res.absolute.length = entries.length := by
          rw [habs]
          simp [Argument.entries]
        exact ⟨hnil, hl, by omega⟩
    · left
      have hrows := generateHexGrid_rows_nonempty env fuel _ _ _ rowPoints removedPoints hg
      have hlen : (optimizePathLayeredWithFinalInterleaved rowPoints).length =
          (rowPoints.map List.length).sum := by
        rw [(optimizePath_perm rowPoints hrows).length_eq, List.length_map, List.length_flatten]
      obtain ⟨hl, -⟩ := absoluteFromPath_spec _ 0 res.absolute habs
      refine ⟨hne, hl, by rw [hl, hlen], ?_⟩
      rw [hl, hlen]
      cases rowPoints with
      | nil => exact absurd rfl hne
      | cons row rows =>
        have hrow : row ≠ [] := hrows row (List.mem_cons_self _ _)
        have : 1 ≤ row.length := List.length_pos.2 hrow
        simp only [List.map_cons, List.sum_cons]
        omega
  exact ⟨rowPoints, removedPoints, hg, key⟩

/-- The sequence `absolute` of a returning call is not empty. -/
theorem calculateWaypoints_absolute_ne_nil (env : Env) (fuel : Nat) (arg : Argument)
    (needCartesian : Bool) (res : CoverageResult)
    (h : calculateWaypoints env fuel arg needCartesian = some (.ok res)) :
    res.absolute ≠ [] := by
  obtain ⟨rowPoints, removedPoints, -, key⟩ :=
    calculateWaypoints_absolute_length env fuel arg needCartesian res h
  intro hnil
  rw [hnil] at key
  rcases key with ⟨-, -, -, h1⟩ | ⟨-, -, h3⟩ <;> simp at *

/-- Claim C1. When `calculateWaypoints` returns, `absolute` is not empty: either the lattice
has at least one row and `absolute` has one waypoint for each point of the rows, or the lattice
has no row and `absolute` has one waypoint for each of the at least 3 entries of the ring. -/
theorem calculateWaypoints_absolute_nonempty (env : Env) (fuel : Nat) (arg : Argument)
    (needCartesian : Bool) (res : CoverageResult)
    (h : calculateWaypoints env fuel arg needCartesian = some (.ok res)) :
    res.absolute ≠ [] ∧
      ∃ rowPoints removedPoints,
        generateHexGridWithBufferAndFilter env fuel (arg.entries.map Coord.toGeoPoint) 3
            (.fin (1 / 10)) = some (.ok (rowPoints, removedPoints)) ∧
          ((rowPoints ≠ [] ∧
              res.absolute.length =
                (optimizePathLayeredWithFinalInterleaved rowPoints).length ∧
              res.absolute.length = (rowPoints.map List.length).sum ∧
              1 ≤ res.absolute.length) ∨
            (rowPoints = [] ∧ res.absolute.length = arg.entries.length ∧
              3 ≤ res.absolute.length)) :=
  ⟨calculateWaypoints_absolute_ne_nil env fuel arg needCartesian res h,
   calculateWaypoints_absolute_length env fuel arg needCartesian res h⟩

/-- Claim C2. When `calculateWaypoints` returns, the ids of `absolute` are `1, 2, ..., N` in
sequence order, `N` being the length of `absolute`: the waypoint at index `i` has the id
`i + 1`, on the lattice path and on the fallback path alike. -/
theorem calculateWaypoints_ids_sequential (env : Env) (fuel : Nat) (arg : Argument)
    (needCartesian : Bool) (res : CoverageResult)
    (h : calculateWaypoints env fuel arg needCartesian = some (.ok res)) :
    res.absolute.map (fun w => w.id) = List.range' 1 res.absolute.length ∧
      ∀ (i : Nat) (w : AbsoluteWaypoint), res.absolute[i]? = some w → w.id = i + 1 := by
  obtain ⟨-, rowPoints, removedPoints, -, hcase, -⟩ :=
    calculateWaypoints_ok env fuel arg needCartesian res h
  have hidx : ∀ (i : Nat) (w : AbsoluteWaypoint), res.absolute[i]? = some w → w.id = i + 1 := by
    intro i w hw
    rcases hcase with ⟨-, habs⟩ | ⟨-, habs⟩
    · rw [habs, List.getElem?_mapIdx] at hw
      cases hc : (List.map Coord.toGeoPoint arg.entries)[i]? with
      | none => simp [hc] at hw
      | some coord =>
        simp only [hc, Option.map_some', Option.some.injEq] at hw
        subst hw
        rfl
    · obtain ⟨-, hid⟩ := absoluteFromPath_spec _ 0 res.absolute habs
      have := (hid i w hw).1
      omega
  refine ⟨?_, hidx⟩
  apply List.ext_getElem (by simp)
  intro i h1 h2
  have h1' : i < res.absolute.length := by simpa using h1
  rw [List.getElem_map, List.getElem_range',
    hidx i res.absolute[i] (List.getElem?_eq_getElem h1')]
  omega

/-- Claim C4. When the argument is accepted, its polygon passes `validatePolygon` and the
generator returns zero rows, `calculateWaypoints` returns, with as `absolute` the input points
in input order: the waypoint at index `i` is `{id: i + 1, lat, lng: lon, alt: 3.5}` for the
`lat` and `lon` of the entry at index `i`. -/
theorem calculateWaypoints_fallback_is_ring (env : Env) (fuel : Nat) (entries : List Coord)
    (needCartesian : Bool) (polygon : Feature) (removedPoints : List Position)
    (hv : validatePolygonCoordinates (.array entries) = .ok true)
    (hp : createTurfPolygon env (entries.map Coord.toGeoPoint) = .ok polygon)
    (hvp : validatePolygon polygon = .ok true)
    (hg : generateHexGridWithBufferAndFilter env fuel (entries.map Coord.toGeoPoint) 3
      (.fin (1 / 10)) = some (.ok ([], removedPoints))) :
    ∃ res, calculateWaypoints env fuel (.array entries) needCartesian = some (.ok res) ∧
      res.absolute.length = entries.length ∧
      ∀ (i : Nat) (lat lon : JSNum), entries[i]? = some (.props (.number lat) (.number lon)) →
        res.absolute[i]? = some { id := i + 1, lat := lat, lng := lon, alt := .fin (7 / 2) } := by
  refine ⟨{ absolute := (entries.map Coord.toGeoPoint).mapIdx (fun index coord =>
              { id := index + 1, lat := coord.lat, lng := coord.lon, alt := .fin (7 / 2) }),
            cartesian := cartesianOf env needCartesian
              ((entries.map Coord.toGeoPoint).mapIdx (fun index coord =>
                { id := index + 1, lat := coord.lat, lng := coord.lon,
                  alt := .fin (7 / 2) })) }, ?_, by simp, ?_⟩
  · simp only [calculateWaypoints, hv, hp, hvp, hg, Argument.entries, List.length_nil,
      if_true]
  · intro i lat lon hi
    simp [List.getElem?_mapIdx, List.getElem?_map, hi, Coord.toGeoPoint, JSValue.toNum]

theorem applyTranslation_length (waypoints : List CartesianWaypoint) (tx ty : JSNum) :
    (applyTranslation waypoints tx ty).length = waypoints.length := by
  simp [applyTranslation]

theorem convertGeographicToCartesian_length (env : Env) (waypoints : List AbsoluteWaypoint)
    (referencePoint : Option GeoPoint) :
    (convertGeographicToCartesian env waypoints referencePoint).length = waypoints.length := by
  cases waypoints with
  | nil => rfl
  | cons first rest => simp [convertGeographicToCartesian]

/-- Claim C6. When `calculateWaypoints` returns, `cartesian` has the length of `absolute` if
`needCartesian` is true and is empty if `needCartesian` is false. -/
theorem calculateWaypoints_cartesian_length (env : Env) (fuel : Nat) (arg : Argument)
    (needCartesian : Bool) (res : CoverageResult)
    (h : calculateWaypoints env fuel arg needCartesian = some (.ok res)) :
    (needCartesian = true → res.cartesian.length = res.absolute.length) ∧
      (needCartesian = false → res.cartesian = []) := by
  obtain ⟨-, rowPoints, removedPoints, -, -, hcart⟩ :=
    calculateWaypoints_ok env fuel arg needCartesian res h
  constructor
  · intro hn
    rw [hcart, hn]
    simp [cartesianOf, applyTranslation_length, convertGeographicToCartesian_length]
  · intro hn
    rw [hcart, hn]
    rfl

/-- Every absolute waypoint of a returning call has the altitude 3.5. -/
theorem calculateWaypoints_alt (env : Env) (fuel : Nat) (arg : Argument)
    (needCartesian : Bool) (res : CoverageResult)
    (h : calculateWaypoints env fuel arg needCartesian = some (.ok res)) :
    ∀ (i : Nat) (w : AbsoluteWaypoint), res.absolute[i]? = some w → w.alt = .fin (7 / 2) := by
  obtain ⟨-, rowPoints, removedPoints, -, hcase, -⟩ :=
    calculateWaypoints_ok env fuel arg needCartesian res h
  intro i w hw
  rcases hcase with ⟨-, habs⟩ | ⟨-, habs⟩
  · rw [habs, List.getElem?_mapIdx] at hw
    cases hc : (List.map Coord.toGeoPoint arg.entries)[i]? with
    | none => simp [hc] at hw
    | some coord =>
      simp only [hc, Option.map_some', Option.some.injEq] at hw
      subst hw
      rfl
  · obtain ⟨-, hid⟩ := absoluteFromPath_spec _ 0 res.absolute habs
    exact (hid i w hw).2.1

/-- Claim C5, as amended. When `calculateWaypoints` returns with a lattice of zero rows on a
ring given closed (last entry equal to the first), `absolute` has one waypoint for each entry,
the closing one included, all of altitude 3.5: the first vertex is both waypoint 1 and the last
waypoint. -/
theorem calculateWaypoints_fallback_keeps_closing_point (env : Env) (fuel : Nat)
    (entries : List Coord) (needCartesian : Bool) (res : CoverageResult)
    (removedPoints : List Position)
    (h : calculateWaypoints env fuel (.array entries) needCartesian = some (.ok res))
    (hg : generateHexGridWithBufferAndFilter env fuel (entries.map Coord.toGeoPoint) 3
      (.fin (1 / 10)) = some (.ok ([], removedPoints)))
    (hclosed : entries.head? = entries.getLast?) :
    res.absolute.length = entries.length ∧
      (∀ w ∈ res.absolute, w.alt = .fin (7 / 2)) ∧
      ∃ first last, res.absolute[0]? = some first ∧
        res.absolute[entries.length - 1]? = some last ∧
        first.id = 1 ∧ last.id = entries.length ∧ 1 < entries.length ∧
        last.lat = first.lat ∧ last.lng = first.lng := by
  obtain ⟨hv, rowPoints, removedPoints', hg', hcase, -⟩ :=
    calculateWaypoints_ok env fuel (.array entries) needCartesian res h
  have halt := calculateWaypoints_alt env fuel (.array entries) needCartesian res h
  simp only [Argument.entries] at hg' hcase
  rw [hg] at hg'
  simp only [Option.some.injEq, Except.ok.injEq, Prod.mk.injEq] at hg'
  obtain ⟨hrows, -⟩ := hg'
  subst hrows
  rcases hcase with ⟨-, habs⟩ | ⟨hne, -⟩
  · have hnum := validatePolygonCoordinates_ok _ true hv
    simp only [Argument.isNumericRing, Bool.and_eq_true, decide_eq_true_eq] at hnum
    have hlen : res.absolute.length = entries.length := by simp [habs]
    refine ⟨hlen, ?_, ?_⟩
    · intro w hw
      obtain ⟨i, hi⟩ := List.mem_iff_getElem?.1 hw
      exact halt i w hi
    · have h0 : 0 < entries.length := by omega
      have hl : entries.length - 1 < entries.length := by omega
      have e0 : entries[0]? = some entries[0] := List.getElem?_eq_getElem h0
      have el : entries[entries.length - 1]? = some entries[entries.length - 1] :=
        List.getElem?_eq_getElem hl
      have hsame : entries[entries.length - 1] = entries[0] := by
        rw [List.head?_eq_getElem?, List.getLast?_eq_getElem?, e0, el] at hclosed
        exact (Option.some.inj hclosed).symm
      refine ⟨_, _, by rw [habs, List.getElem?_mapIdx, List.getElem?_map, e0]; rfl,
        by rw [habs, List.getElem?_mapIdx, List.getElem?_map, el]; rfl, rfl, ?_, by omega, ?_, ?_⟩
      · show entries.length - 1 + 1 = entries.length
        omega
      · show (entries[entries.length - 1]).toGeoPoint.lat = (entries[0]).toGeoPoint.lat
        rw [hsame]
      · show (entries[entries.length - 1]).toGeoPoint.lon = (entries[0]).toGeoPoint.lon
        rw [hsame]
  · exact absurd rfl hne

theorem fin_add_fin (a b : ℚ) : (JSNum.fin a + JSNum.fin b) = JSNum.fin (a + b) := rfl

theorem fin_sub_fin (a b : ℚ) : (JSNum.fin a - JSNum.fin b) = JSNum.fin (a - b) := by
  show JSNum.add (JSNum.fin a) (JSNum.neg (JSNum.fin b)) = _
  simp [JSNum.add, JSNum.neg, sub_eq_add_neg]

theorem fin_mul_fin (a b : ℚ) : (JSNum.fin a * JSNum.fin b) = JSNum.fin (a * b) := rfl

theorem fin_div_fin (a b : ℚ) (hb : b ≠ 0) :
    (JSNum.fin a / JSNum.fin b) = JSNum.fin (a / b) := by
  show JSNum.div _ _ = _
  simp [JSNum.div, hb]

/-- The first cartesian waypoint, when the first absolute waypoint has finite coordinates: it
is its own reference point, so both differences are zero and only the translation is left. -/
theorem cartesianOf_first (env : Env) (first : AbsoluteWaypoint) (rest : List AbsoluteWaypoint)
    (a b : ℚ) (hlat : first.lat = .fin a) (hlng : first.lng = .fin b) :
    (cartesianOf env true (first :: rest))[0]? =
      some { id := first.id, x := 3, y := 3, z := first.alt.orElse 50 } := by
  simp only [cartesianOf, if_true, applyTranslation, convertGeographicToCartesian, List.map_cons,
    List.getElem?_cons_zero, hlat, hlng, fin_sub_fin, sub_self, JSNum.PI]
  have h180 : (180 : JSNum) = JSNum.fin 180 := by
    show JSNum.fin ((180 : ℕ) : ℚ) = _
    norm_num
  have hR : (6371000 : JSNum) = JSNum.fin 6371000 := by
    show JSNum.fin ((6371000 : ℕ) : ℚ) = _
    norm_num
  have h3 : (3 : JSNum) = JSNum.fin 3 := by
    show JSNum.fin ((3 : ℕ) : ℚ) = _
    norm_num
  rw [h180, hR, h3, fin_div_fin _ _ (by norm_num), fin_mul_fin, fin_mul_fin, fin_mul_fin,
    fin_div_fin _ _ (by norm_num)]
  simp only [Env.mathCos, fin_mul_fin, zero_mul, JSNum.toFixed2, fin_add_fin]
  norm_num
  simp only [fin_add_fin]
  norm_num

/-- Claim C7. When `calculateWaypoints` returns with `needCartesian` true and the first
absolute waypoint has finite coordinates, the first cartesian waypoint is the translation
applied to the origin: `x = 3`, `y = 3` and `z` the altitude of the first absolute waypoint. -/
theorem calculateWaypoints_first_cartesian (env : Env) (fuel : Nat) (arg : Argument)
    (res : CoverageResult)
    (h : calculateWaypoints env fuel arg true = some (.ok res))
    (hfin : ∀ w, res.absolute[0]? = some w → w.lat.isFinite = true ∧ w.lng.isFinite = true) :
    ∃ first c, res.absolute[0]? = some first ∧ res.cartesian[0]? = some c ∧
      c.x = 3 ∧ c.y = 3 ∧ c.z = first.alt := by
  have hne := calculateWaypoints_absolute_ne_nil env fuel arg true res h
  obtain ⟨-, -, -, -, -, hcart⟩ := calculateWaypoints_ok env fuel arg true res h
  have halt := calculateWaypoints_alt env fuel arg true res h
  cases habs : res.absolute with
  | nil => exact absurd habs hne
  | cons first rest =>
    rw [habs] at hfin halt hcart
    obtain ⟨hlat, hlng⟩ := hfin first (by simp)
    have ha : first.alt = .fin (7 / 2) := halt 0 first (by simp)
    cases hla : first.lat <;> simp [hla, JSNum.isFinite] at hlat
    cases hln : first.lng <;> simp [hln, JSNum.isFinite] at hlng
    rename_i a b
    refine ⟨first, _, by simp, by rw [hcart]; exact cartesianOf_first env first rest a b hla hln,
      rfl, rfl, ?_⟩
    show first.alt.orElse 50 = first.alt
    rw [ha]
    simp [JSNum.orElse, JSNum.truthy]

/-! ### Runs of the program on the sample rings -/

theorem tallRectangle_run (needCartesian : Bool) :
    calculateWaypoints rectEnv 10 (.array tallRectangle) needCartesian =
      some (.ok { absolute := tallAbsolute,
                  cartesian := cartesianOf rectEnv needCartesian tallAbsolute }) := by
  cases needCartesian <;> decide!

theorem closedSquare_grid :
    generateHexGridWithBufferAndFilter rectEnv 10 (closedSquare.map Coord.toGeoPoint) 3
      (.fin (1 / 10)) = some (.ok ([], closedSquareRemoved)) := by
  decide!

theorem closedSquare_run (needCartesian : Bool) :
    calculateWaypoints rectEnv 10 (.array closedSquare) needCartesian =
      some (.ok { absolute := closedSquareAbsolute,
                  cartesian := cartesianOf rectEnv needCartesian closedSquareAbsolute }) := by
  cases needCartesian <;> decide!

/-- C1 at `tallRectangle`, on the lattice path. -/
theorem calculateWaypoints_absolute_nonempty_witness :
    calculateWaypoints rectEnv 10 (.array tallRectangle) false =
        some (.ok { absolute := tallAbsolute, cartesian := [] }) ∧
      tallAbsolute ≠ [] :=
  ⟨tallRectangle_run false,
   (calculateWaypoints_absolute_nonempty rectEnv 10 (.array tallRectangle) false _
      (tallRectangle_run false)).1⟩

/-- C2 at `tallRectangle`: the ids are 1 to 6. -/
theorem calculateWaypoints_ids_sequential_witness :
    calculateWaypoints rectEnv 10 (.array tallRectangle) false =
        some (.ok { absolute := tallAbsolute, cartesian := [] }) ∧
      tallAbsolute.map (fun w => w.id) = List.range' 1 tallAbsolute.length :=
  ⟨tallRectangle_run false,
   (calculateWaypoints_ids_sequential rectEnv 10 (.array tallRectangle) false _
      (tallRectangle_run false)).1⟩

/-- C4 at `closedSquare`, whose lattice has no row. -/
theorem calculateWaypoints_fallback_is_ring_witness :
    validatePolygonCoordinates (.array closedSquare) = .ok true ∧
      createTurfPolygon rectEnv (closedSquare.map Coord.toGeoPoint) =
        .ok closedSquarePolygon ∧
      validatePolygon closedSquarePolygon = .ok true ∧
      generateHexGridWithBufferAndFilter rectEnv 10 (closedSquare.map Coord.toGeoPoint) 3
        (.fin (1 / 10)) = some (.ok ([], closedSquareRemoved)) ∧
      ∃ res, calculateWaypoints rectEnv 10 (.array closedSquare) true = some (.ok res) ∧
        res.absolute.length = closedSquare.length ∧
        ∀ (i : Nat) (lat lon : JSNum),
          closedSquare[i]? = some (.props (.number lat) (.number lon)) →
          res.absolute[i]? = some { id := i + 1, lat := lat, lng := lon, alt := .fin (7 / 2) } :=
  ⟨by decide!, by decide!, by decide!, closedSquare_grid,
   calculateWaypoints_fallback_is_ring rectEnv 10 closedSquare true closedSquarePolygon
     closedSquareRemoved (by decide!) (by decide!) (by decide!) closedSquare_grid⟩

/-- C6 at `tallRectangle` with the cartesian output requested. -/
theorem calculateWaypoints_cartesian_length_witness :
    calculateWaypoints rectEnv 10 (.array tallRectangle) true =
        some (.ok { absolute := tallAbsolute,
                    cartesian := cartesianOf rectEnv true tallAbsolute }) ∧
      (cartesianOf rectEnv true tallAbsolute).length = tallAbsolute.length :=
  ⟨tallRectangle_run true,
   (calculateWaypoints_cartesian_length rectEnv 10 (.array tallRectangle) true _
      (tallRectangle_run true)).1 rfl⟩

theorem metreSquare_grid :
    generateHexGridWithBufferAndFilter rectEnv 10 (metreSquare.map Coord.toGeoPoint) 3
      (.fin (1 / 10)) = some (.ok ([], closedSquareRemoved)) := by
  decide!

theorem metreSquare_run (needCartesian : Bool) :
    calculateWaypoints rectEnv 10 (.array metreSquare) needCartesian =
      some (.ok { absolute := metreSquareAbsolute,
                  cartesian := cartesianOf rectEnv needCartesian metreSquareAbsolute }) := by
  cases needCartesian <;> decide!

/-- Claim C5, counterexample. The closed square `metreSquare` of 5 entries, about 1.1 m wide,
has a lattice of zero rows at the pitch 3 of the program, and `absolute` has 5 waypoints, not 4:
the closing entry is kept, so that the first vertex is waypoint 1 and waypoint 5. -/
theorem metreSquare_fallback_has_five_waypoints :
    metreSquare.head? = metreSquare.getLast? ∧
      generateHexGridWithBufferAndFilter rectEnv 10 (metreSquare.map Coord.toGeoPoint) 3
        (.fin (1 / 10)) = some (.ok ([], closedSquareRemoved)) ∧
      calculateWaypoints rectEnv 10 (.array metreSquare) true =
        some (.ok { absolute := metreSquareAbsolute,
                    cartesian := cartesianOf rectEnv true metreSquareAbsolute }) ∧
      metreSquareAbsolute.length = 5 ∧
      metreSquareAbsolute.length ≠ 4 ∧
      (metreSquareAbsolute.map (fun w => (w.lat, w.lng))).count (.fin 0, .fin 0) = 2 :=
  ⟨by decide, metreSquare_grid, metreSquare_run true, by decide, by decide, by decide!⟩

/-- The amended C5 at `metreSquare`: five waypoints for five entries. -/
theorem calculateWaypoints_fallback_keeps_closing_point_witness :
    calculateWaypoints rectEnv 10 (.array metreSquare) true =
        some (.ok { absolute := metreSquareAbsolute,
                    cartesian := cartesianOf rectEnv true metreSquareAbsolute }) ∧
      generateHexGridWithBufferAndFilter rectEnv 10 (metreSquare.map Coord.toGeoPoint) 3
        (.fin (1 / 10)) = some (.ok ([], closedSquareRemoved)) ∧
      metreSquare.head? = metreSquare.getLast? ∧
      metreSquareAbsolute.length = metreSquare.length :=
  ⟨metreSquare_run true, metreSquare_grid, by decide,
   (calculateWaypoints_fallback_keeps_closing_point rectEnv 10 metreSquare true _
      closedSquareRemoved (metreSquare_run true) metreSquare_grid (by decide)).1⟩

/-- C7 at `tallRectangle`, whose first waypoint is finite. -/
theorem calculateWaypoints_first_cartesian_witness :
    calculateWaypoints rectEnv 10 (.array tallRectangle) true =
        some (.ok { absolute := tallAbsolute,
                    cartesian := cartesianOf rectEnv true tallAbsolute }) ∧
      (∀ w, tallAbsolute[0]? = some w → w.lat.isFinite = true ∧ w.lng.isFinite = true) ∧
      ∃ first c, tallAbsolute[0]? = some first ∧
        (cartesianOf rectEnv true tallAbsolute)[0]? = some c ∧
        c.x = 3 ∧ c.y = 3 ∧ c.z = first.alt :=
  ⟨tallRectangle_run true,
   fun w hw => by
     simp only [tallAbsolute, List.getElem?_cons_zero, Option.some.injEq] at hw
     subst hw
     exact ⟨rfl, rfl⟩,
   calculateWaypoints_first_cartesian rectEnv 10 (.array tallRectangle) _
     (tallRectangle_run true)
     (fun w hw => by
       simp only [tallAbsolute, List.getElem?_cons_zero, Option.some.injEq] at hw
       subst hw
       exact ⟨rfl, rfl⟩)⟩

/-! ### The closed ring of `createTurfPolygon` -/

theorem position_eq_of_numeric (c d : Coord) (hc : c.isNumeric = true) (hd : d.isNumeric = true) :
    (c.toGeoPoint.lon, c.toGeoPoint.lat) = (d.toGeoPoint.lon, d.toGeoPoint.lat) ↔ c = d := by
  cases c with
  | nullish => simp [Coord.isNumeric] at hc
  | props lat lon =>
    cases d with
    | nullish => simp [Coord.isNumeric] at hd
    | props lat' lon' =>
      cases lat <;> cases lon <;> simp [Coord.isNumeric] at hc
      cases lat' <;> cases lon' <;> simp [Coord.isNumeric] at hd
      simp only [Coord.toGeoPoint, JSValue.toNum, Prod.mk.injEq, Coord.props.injEq,
        JSValue.number.injEq]
      exact And.comm

theorem position_not_nan_of_numeric (c : Coord) (hc : c.isNumeric = true) :
    c.toGeoPoint.lon.isNaN = false ∧ c.toGeoPoint.lat.isNaN = false := by
  cases c with
  | nullish => simp [Coord.isNumeric] at hc
  | props lat lon =>
    cases lat <;> cases lon <;> simp [Coord.isNumeric] at hc
    exact ⟨hc.2, hc.1⟩

/-- Closing a list of coordinates whose first and last are the same coordinate, not `NaN`,
appends nothing. -/
theorem closeRing_of_closed (coordinates : List GeoPoint) (a : GeoPoint)
    (hfirst : coordinates.head? = some a) (hlast : coordinates.getLast? = some a)
    (hlon : a.lon.isNaN = false) (hlat : a.lat.isNaN = false) :
    closeRing coordinates = .ok (coordinates.map (fun coord => (coord.lon, coord.lat))) := by
  rw [closeRing_eq, hfirst, hlast]
  simp [JSNum.strictNe, JSNum.strictEq, hlon, hlat]

/-- Claim C11. For an array accepted by `validatePolygonCoordinates`, the ring that
`createTurfPolygon` hands to `turf.polygon` is the input as `[lon, lat]` positions in input
order, followed by one copy of the first position exactly when the last position differs from
the first; its first position equals its last, and closing the ring again returns the same
ring. -/
theorem createTurfPolygon_ring_closed (env : Env) (entries : List Coord)
    (hv : validatePolygonCoordinates (.array entries) = .ok true) :
    ∃ (first last : Position) (ring : List Position),
      ((entries.map Coord.toGeoPoint).map (fun coord => (coord.lon, coord.lat))).head? =
          some first ∧
        ((entries.map Coord.toGeoPoint).map (fun coord => (coord.lon, coord.lat))).getLast? =
          some last ∧
        closeRing (entries.map Coord.toGeoPoint) = .ok ring ∧
        createTurfPolygon env (entries.map Coord.toGeoPoint) = env.polygon [ring] ∧
        ring = (if last = first then
            (entries.map Coord.toGeoPoint).map (fun coord => (coord.lon, coord.lat))
          else (entries.map Coord.toGeoPoint).map (fun coord => (coord.lon, coord.lat)) ++
            [first]) ∧
        ring.head? = some first ∧ ring.getLast? = some first ∧
        closeRing (ring.map (fun position => { lat := position.2, lon := position.1 })) =
          .ok ring := by
  have hnum := validatePolygonCoordinates_ok _ _ hv
  obtain ⟨a, b, ha, hb, hring⟩ := closeRing_of_numeric entries hnum
  simp only [Argument.isNumericRing, Bool.and_eq_true, decide_eq_true_eq, List.all_eq_true]
    at hnum
  have hma : a ∈ entries := List.mem_of_mem_head? (by simp [ha])
  have hmb : b ∈ entries := List.mem_of_getLast?_eq_some hb
  have hna := position_not_nan_of_numeric a (hnum.2 a hma)
  have hiff := position_eq_of_numeric b a (hnum.2 b hmb) (hnum.2 a hma)
  have hhead : ((entries.map Coord.toGeoPoint).map (fun coord => (coord.lon, coord.lat))).head? =
      some (a.toGeoPoint.lon, a.toGeoPoint.lat) := by
    simp [List.head?_map, ha]
  have hlast : ((entries.map Coord.toGeoPoint).map
      (fun coord => (coord.lon, coord.lat))).getLast? =
      some (b.toGeoPoint.lon, b.toGeoPoint.lat) := by
    simp [List.getLast?_map, hb]
  have hne : (entries.map Coord.toGeoPoint).map (fun coord => (coord.lon, coord.lat)) ≠ [] := by
    intro hnil
    rw [hnil] at hhead
    cases hhead
  refine ⟨_, _, _, hhead, hlast, hring, by simp [createTurfPolygon, hring], ?_, ?_, ?_, ?_⟩
  · by_cases hab : a = b
    · subst hab
      simp
    · have hba : ¬ (b.toGeoPoint.lon, b.toGeoPoint.lat) = (a.toGeoPoint.lon, a.toGeoPoint.lat) :=
        fun h => hab (hiff.1 h).symm
      rw [if_neg hab, if_neg hba]
  · by_cases hab : a = b
    · rw [if_pos hab]
      exact hhead
    · rw [if_neg hab, List.head?_append_of_ne_nil _ hne]
      exact hhead
  · by_cases hab : a = b
    · rw [if_pos hab, hlast, hab]
    · rw [if_neg hab]
      simp
  · have hback : ∀ l : List Position,
        (l.map (fun position : Position =>
          ({ lat := position.2, lon := position.1 } : GeoPoint))).map
          (fun coord => (coord.lon, coord.lat)) = l := by
      intro l
      simp [List.map_map, Function.comp_def]
    have hclosed := closeRing_of_closed
      ((if a = b then (entries.map Coord.toGeoPoint).map (fun coord => (coord.lon, coord.lat))
          else (entries.map Coord.toGeoPoint).map (fun coord => (coord.lon, coord.lat)) ++
            [(a.toGeoPoint.lon, a.toGeoPoint.lat)]).map
        (fun position => { lat := position.2, lon := position.1 }))
      { lat := a.toGeoPoint.lat, lon := a.toGeoPoint.lon } ?_ ?_ hna.1 hna.2
    · rw [hclosed, hback]
    · by_cases hab : a = b
      · rw [if_pos hab, List.head?_map, hhead]
        rfl
      · rw [if_neg hab, List.head?_map, List.head?_append_of_ne_nil _ hne, hhead]
        rfl
    · by_cases hab : a = b
      · rw [if_pos hab, List.getLast?_map, hlast, hab]
        rfl
      · rw [if_neg hab, List.getLast?_map]
        simp

/-- C11 at `openTriangle`, whose ring gets a fourth position. -/
theorem createTurfPolygon_ring_closed_witness :
    validatePolygonCoordinates (.array openTriangle) = .ok true ∧
      ∃ (first last : Position) (ring : List Position),
        ((openTriangle.map Coord.toGeoPoint).map (fun coord => (coord.lon, coord.lat))).head? =
            some first ∧
          ((openTriangle.map Coord.toGeoPoint).map (fun coord => (coord.lon, coord.lat))).getLast? =
            some last ∧
          closeRing (openTriangle.map Coord.toGeoPoint) = .ok ring ∧
          createTurfPolygon rectEnv (openTriangle.map Coord.toGeoPoint) = rectEnv.polygon [ring] ∧
          ring = (if last = first then
              (openTriangle.map Coord.toGeoPoint).map (fun coord => (coord.lon, coord.lat))
            else (openTriangle.map Coord.toGeoPoint).map (fun coord => (coord.lon, coord.lat)) ++
              [first]) ∧
          ring.head? = some first ∧ ring.getLast? = some first ∧
          closeRing (ring.map (fun position => { lat := position.2, lon := position.1 })) =
            .ok ring :=
  ⟨by decide, createTurfPolygon_ring_closed rectEnv openTriangle (by decide)⟩

/-! ### The UTM zone -/

theorem getUTMZone_fin (lon : ℚ) :
    getUTMZone (.fin lon) = .fin ((⌊(lon + 180) / 6⌋ + 1 : ℤ) : ℚ) := by
  have h180 : (180 : JSNum) = JSNum.fin 180 := by
    show JSNum.fin ((180 : ℕ) : ℚ) = _
    norm_num
  have h6 : (6 : JSNum) = JSNum.fin 6 := by
    show JSNum.fin ((6 : ℕ) : ℚ) = _
    norm_num
  have h1 : (1 : JSNum) = JSNum.fin 1 := by
    show JSNum.fin ((1 : ℕ) : ℚ) = _
    norm_num
  unfold getUTMZone
  rw [h180, h6, h1, fin_add_fin, fin_div_fin _ _ (by norm_num)]
  simp only [JSNum.floor, fin_add_fin]
  push_cast
  rfl

theorem numberToString_int (env : Env) (z : ℤ) (hz : |z| < 10 ^ 21) :
    env.numberToString (.fin (z : ℚ)) = toString z := by
  have h : |(z : ℚ)| < 10 ^ 21 := by exact_mod_cast hz
  simp [Env.numberToString, h]

/-- The zone of a longitude in `[-180, 180)` lies between 1 and 60. -/
theorem zone_bounds (lon : ℚ) (h1 : -180 ≤ lon) (h2 : lon < 180) :
    1 ≤ ⌊(lon + 180) / 6⌋ + 1 ∧ ⌊(lon + 180) / 6⌋ + 1 ≤ 60 := by
  have ha : (0 : ℤ) ≤ ⌊(lon + 180) / 6⌋ := by
    apply Int.floor_nonneg.2
    apply div_nonneg <;> linarith
  have hb : ⌊(lon + 180) / 6⌋ < 60 := by
    rw [Int.floor_lt]
    rw [div_lt_iff₀ (by norm_num)]
    push_cast
    linarith
  omega

/-- What `getUTMEPSG` returns for a finite latitude and a longitude in `[-180, 180)`: the
digits `326` or `327` followed by the zone number as it prints, which is the number
`32600 + zone` or `32700 + zone` only from zone 10 on. -/
theorem getUTMEPSG_of_longitude (env : Env) (lat lon : ℚ) (h1 : -180 ≤ lon) (h2 : lon < 180) :
    getUTMEPSG env (.fin lat) (.fin lon) =
        (if 0 ≤ lat then "EPSG:326" else "EPSG:327") ++ toString (⌊(lon + 180) / 6⌋ + 1) ∧
      (10 ≤ ⌊(lon + 180) / 6⌋ + 1 →
        getUTMEPSG env (.fin lat) (.fin lon) =
          "EPSG:" ++ toString ((if 0 ≤ lat then 32600 else 32700) + (⌊(lon + 180) / 6⌋ + 1))) := by
  obtain ⟨hz1, hz60⟩ := zone_bounds lon h1 h2
  have hstr : getUTMEPSG env (.fin lat) (.fin lon) =
      (if 0 ≤ lat then "EPSG:326" else "EPSG:327") ++ toString (⌊(lon + 180) / 6⌋ + 1) := by
    have hge : (JSNum.fin lat).ge 0 = decide (0 ≤ lat) := by
      show JSNum.le (JSNum.fin ((0 : ℕ) : ℚ)) (JSNum.fin lat) = _
      simp [JSNum.le]
    simp only [getUTMEPSG, getUTMZone_fin, hge, decide_eq_true_eq]
    rw [numberToString_int env _ (by rw [abs_lt]; constructor <;> omega)]
    split <;> rfl
  refine ⟨hstr, fun h10 => ?_⟩
  rw [hstr]
  generalize ⌊(lon + 180) / 6⌋ + 1 = z at hz1 hz60 h10
  by_cases hlat : 0 ≤ lat
  · simp only [hlat, if_true]
    interval_cases z <;> decide
  · simp only [hlat, if_false]
    interval_cases z <;> decide

/-- Claim C12, the failing input. For latitude 45 and longitude -177, in zone 1, `getUTMEPSG`
returns `EPSG:3261`: the zone is appended to `326` without padding, which is not the
identifier `EPSG:32601` of the zone. -/
theorem getUTMEPSG_zone_one_unpadded (env : Env) :
    getUTMEPSG env (.fin 45) (.fin (-177)) = "EPSG:3261" ∧
      "EPSG:3261" ≠ "EPSG:" ++ toString (32600 + 1) := by
  have hz : ⌊((-177 : ℚ) + 180) / 6⌋ = 0 := by
    rw [Int.floor_eq_iff]
    norm_num
  have hstr := (getUTMEPSG_of_longitude env 45 (-177) (by norm_num) (by norm_num)).1
  rw [hz] at hstr
  refine ⟨?_, by decide⟩
  rw [hstr]
  norm_num
  decide

/-! ### Rows of the lattice and parallel output sequences -/

theorem tallRectangle_grid :
    generateHexGridWithBufferAndFilter rectEnv 10 (tallRectangle.map Coord.toGeoPoint) 3
      (.fin (1 / 10)) = some (.ok (tallRows, tallRemoved)) := by
  decide!

/-- Claim C13. Every row of the `rowPoints` that `generateHexGridWithBufferAndFilter` returns
holds at least one point: a lattice row without accepted point is not emitted. -/
theorem generateHexGrid_no_empty_row (env : Env) (fuel : Nat) (polygonCoords : List GeoPoint)
    (r threshold : JSNum) (rowPoints : List (List Position)) (removedPoints : List Position)
    (h : generateHexGridWithBufferAndFilter env fuel polygonCoords r threshold =
      some (.ok (rowPoints, removedPoints))) :
    ∀ row ∈ rowPoints, row ≠ [] ∧ 0 < row.length := by
  intro row hrow
  have hne := generateHexGrid_rows_nonempty env fuel polygonCoords r threshold rowPoints
    removedPoints h row hrow
  exact ⟨hne, List.length_pos.2 hne⟩

/-- C13 at `tallRectangle`, whose lattice has three rows. -/
theorem generateHexGrid_no_empty_row_witness :
    generateHexGridWithBufferAndFilter rectEnv 10 (tallRectangle.map Coord.toGeoPoint) 3
        (.fin (1 / 10)) = some (.ok (tallRows, tallRemoved)) ∧
      ∀ row ∈ tallRows, row ≠ [] ∧ 0 < row.length :=
  ⟨tallRectangle_grid,
   generateHexGrid_no_empty_row rectEnv 10 (tallRectangle.map Coord.toGeoPoint) 3 (.fin (1 / 10))
     tallRows tallRemoved tallRectangle_grid⟩

theorem cartesianOf_getElem? (env : Env) (absoluteWaypoints : List AbsoluteWaypoint) (i : Nat)
    (w : AbsoluteWaypoint) (hw : absoluteWaypoints[i]? = some w) :
    ∃ c, (cartesianOf env true absoluteWaypoints)[i]? = some c ∧ c.id = w.id ∧
      c.z = w.alt.orElse 50 := by
  cases absoluteWaypoints with
  | nil => simp at hw
  | cons first rest =>
    simp only [cartesianOf, if_true, applyTranslation, convertGeographicToCartesian,
      List.getElem?_map, hw, Option.map_some']
    exact ⟨_, rfl, rfl, rfl⟩

/-- Claim C16. When `calculateWaypoints` returns, every absolute waypoint has the altitude 3.5,
and when the cartesian output is requested the waypoint at each index of `cartesian` has the id
of the absolute waypoint at that index and, as `z`, its altitude 3.5. -/
theorem calculateWaypoints_parallel (env : Env) (fuel : Nat) (arg : Argument)
    (needCartesian : Bool) (res : CoverageResult)
    (h : calculateWaypoints env fuel arg needCartesian = some (.ok res)) :
    (∀ w ∈ res.absolute, w.alt = .fin (7 / 2)) ∧
      (needCartesian = true →
        res.cartesian.length = res.absolute.length ∧
        ∀ (i : Nat) (w : AbsoluteWaypoint), res.absolute[i]? = some w →
          ∃ c, res.cartesian[i]? = some c ∧ c.id = w.id ∧ c.z = w.alt ∧ c.z = .fin (7 / 2)) := by
  have halt := calculateWaypoints_alt env fuel arg needCartesian res h
  obtain ⟨-, -, -, -, -, hcart⟩ := calculateWaypoints_ok env fuel arg needCartesian res h
  refine ⟨?_, ?_⟩
  · intro w hw
    obtain ⟨i, hi⟩ := List.mem_iff_getElem?.1 hw
    exact halt i w hi
  · intro hn
    subst hn
    refine ⟨?_, ?_⟩
    · rw [hcart]
      simp [cartesianOf, applyTranslation_length, convertGeographicToCartesian_length]
    · intro i w hw
      obtain ⟨c, hc, hid, hz⟩ := cartesianOf_getElem? env res.absolute i w hw
      have ha := halt i w hw
      have hz' : c.z = w.alt := by
        rw [hz, ha]
        simp [JSNum.orElse, JSNum.truthy]
      exact ⟨c, by rw [hcart]; exact hc, hid, hz', by rw [hz', ha]⟩

/-- C16 at `tallRectangle` with the cartesian output requested. -/
theorem calculateWaypoints_parallel_witness :
    calculateWaypoints rectEnv 10 (.array tallRectangle) true =
        some (.ok { absolute := tallAbsolute,
                    cartesian := cartesianOf rectEnv true tallAbsolute }) ∧
      (∀ w ∈ tallAbsolute, w.alt = .fin (7 / 2)) ∧
      (cartesianOf rectEnv true tallAbsolute).length = tallAbsolute.length :=
  ⟨tallRectangle_run true,
   (calculateWaypoints_parallel rectEnv 10 (.array tallRectangle) true _
      (tallRectangle_run true)).1,
   ((calculateWaypoints_parallel rectEnv 10 (.array tallRectangle) true _
      (tallRectangle_run true)).2 rfl).1⟩

/-! ### The safety cap on the candidates -/

theorem wideRectangle_final :
    hexGridFinalState rectEnv 600 (wideRectangle.map Coord.toGeoPoint) 3 (.fin (1 / 10)) =
      some (.ok wideFinalState) := by
  decide!

theorem tallRectangle_final :
    hexGridFinalState rectEnv 10 (tallRectangle.map Coord.toGeoPoint) 3 (.fin (1 / 10)) =
      some (.ok tallFinalState) := by
  decide!

/-- Claim C14, counterexample. For `wideRectangle` the generator returns with a candidate
counter of 510, all candidates being in the first lattice row: candidates were still evaluated
after the counter had passed 500, the test being made only when the row was complete. -/
theorem wideRectangle_evaluates_past_cap :
    hexGridFinalState rectEnv 600 (wideRectangle.map Coord.toGeoPoint) 3 (.fin (1 / 10)) =
        some (.ok wideFinalState) ∧
      wideFinalState.row = 1 ∧ wideFinalState.totalPoints = 510 ∧
      501 < wideFinalState.totalPoints :=
  ⟨wideRectangle_final, rfl, rfl, by simp [wideFinalState]⟩

/-- One turn of the outer loop: after the row the counter is tested, and the loop is left when
it exceeds 500. -/
theorem rowLoop_step (env : Env) (utmEPSG : String) (polygon : Feature)
    (r threshold dx dy : JSNum) (minUTM maxUTM : Position) (fuel : Nat) (st : GridState)
    (inner : RowState) (hy : st.y.le (maxUTM.2 + r) = true)
    (hin : columnLoop env utmEPSG polygon r threshold dx maxUTM.1 st.y (fuel + 1)
      (rowStartX minUTM r dx st.row)
      { currentRow := [], removedPoints := st.removedPoints, totalPoints := st.totalPoints } =
        some (.ok inner)) :
    rowLoop env utmEPSG polygon r threshold dx dy minUTM maxUTM (fuel + 1) st =
      if inner.totalPoints > 500 then some (.ok (st.afterRow inner dy))
      else rowLoop env utmEPSG polygon r threshold dx dy minUTM maxUTM fuel
        (st.afterRow inner dy) := by
  rw [rowLoop]
  simp only [hy, if_true]
  unfold rowStartX at hin
  rw [hin]
  rfl

/-- Every row is started with a counter of at most 500: when the outer loop is left with a
larger counter, it is left right after the row during which the counter passed 500. -/
theorem rowLoop_cap (env : Env) (utmEPSG : String) (polygon : Feature)
    (r threshold dx dy : JSNum) (minUTM maxUTM : Position) (fuel : Nat) (st st' : GridState)
    (h0 : st.totalPoints ≤ 500)
    (h : rowLoop env utmEPSG polygon r threshold dx dy minUTM maxUTM fuel st = some (.ok st')) :
    st'.totalPoints ≤ 500 ∨
      ∃ (fuel' : Nat) (st0 : GridState) (inner : RowState),
        st0.totalPoints ≤ 500 ∧
        columnLoop env utmEPSG polygon r threshold dx maxUTM.1 st0.y fuel'
          (rowStartX minUTM r dx st0.row)
          { currentRow := [], removedPoints := st0.removedPoints,
            totalPoints := st0.totalPoints } = some (.ok inner) ∧
        500 < inner.totalPoints ∧ st' = st0.afterRow inner dy := by
  induction fuel generalizing st with
  | zero =>
    unfold rowLoop at h
    split at h
    · cases h
    · cases h
      exact Or.inl h0
  | succ fuel ih =>
    by_cases hy : st.y.le (maxUTM.2 + r) = true
    · cases hin : columnLoop env utmEPSG polygon r threshold dx maxUTM.1 st.y (fuel + 1)
          (rowStartX minUTM r dx st.row)
          { currentRow := [], removedPoints := st.removedPoints,
            totalPoints := st.totalPoints } with
      | none =>
        rw [rowLoop] at h
        simp only [hy, if_true] at h
        unfold rowStartX at hin
        rw [hin] at h
        cases h
      | some res =>
        cases res with
        | error e =>
          rw [rowLoop] at h
          simp only [hy, if_true] at h
          unfold rowStartX at hin
          rw [hin] at h
          cases h
        | ok inner =>
          rw [rowLoop_step env utmEPSG polygon r threshold dx dy minUTM maxUTM fuel st inner
            hy hin] at h
          by_cases hcap : inner.totalPoints > 500
          · rw [if_pos hcap] at h
            cases h
            exact Or.inr ⟨fuel + 1, st, inner, h0, hin, hcap, rfl⟩
          · rw [if_neg hcap] at h
            exact ih (st.afterRow inner dy) (by simp only [GridState.afterRow]; omega) h
    · rw [rowLoop] at h
      simp only [hy] at h
      cases h
      exact Or.inl h0

/-- Claim C14, as amended. The candidate counter is tested only when a lattice row is complete.
When `generateHexGridWithBufferAndFilter` leaves its outer loop with a counter above 500, the
last row was started with a counter of at most 500, its inner loop ran to its end with a
counter above 500, and the loop was left right after it with the rows accepted so far, that
row included; no row is started with a counter above 500. -/
theorem hexGrid_cap_tested_after_row (env : Env) (fuel : Nat) (polygonCoords : List GeoPoint)
    (r threshold : JSNum) (st' : GridState)
    (h : hexGridFinalState env fuel polygonCoords r threshold = some (.ok st')) :
    st'.totalPoints ≤ 500 ∨
      ∃ (utmEPSG : String) (polygon : Feature) (dx dy : JSNum) (minUTM maxUTM : Position)
        (fuel' : Nat) (st0 : GridState) (inner : RowState),
        st0.totalPoints ≤ 500 ∧
        columnLoop env utmEPSG polygon r threshold dx maxUTM.1 st0.y fuel'
          (rowStartX minUTM r dx st0.row)
          { currentRow := [], removedPoints := st0.removedPoints,
            totalPoints := st0.totalPoints } = some (.ok inner) ∧
        500 < inner.totalPoints ∧ st' = st0.afterRow inner dy := by
  unfold hexGridFinalState at h
  split at h
  · cases h
  · split at h
    · cases h
    · split at h
      · cases h
      · split at h
        · cases h
        · simp only at h
          split at h
          · cases h
          · split at h
            · cases h
            · rcases rowLoop_cap _ _ _ _ _ _ _ _ _ _ _ _ (Nat.zero_le 500) h with hle | hex
              · exact Or.inl hle
              · obtain ⟨fuel', st0, inner, h1, h2, h3, h4⟩ := hex
                exact Or.inr ⟨_, _, _, _, _, _, fuel', st0, inner, h1, h2, h3, h4⟩

/-- The amended C14 at `wideRectangle`, whose first row ends with a counter of 510. -/
theorem hexGrid_cap_tested_after_row_witness :
    hexGridFinalState rectEnv 600 (wideRectangle.map Coord.toGeoPoint) 3 (.fin (1 / 10)) =
        some (.ok wideFinalState) ∧
      (wideFinalState.totalPoints ≤ 500 ∨
        ∃ (utmEPSG : String) (polygon : Feature) (dx dy : JSNum) (minUTM maxUTM : Position)
          (fuel' : Nat) (st0 : GridState) (inner : RowState),
          st0.totalPoints ≤ 500 ∧
          columnLoop rectEnv utmEPSG polygon 3 (.fin (1 / 10)) dx maxUTM.1 st0.y fuel'
            (rowStartX minUTM 3 dx st0.row)
            { currentRow := [], removedPoints := st0.removedPoints,
              totalPoints := st0.totalPoints } = some (.ok inner) ∧
          500 < inner.totalPoints ∧ wideFinalState = st0.afterRow inner dy) :=
  ⟨wideRectangle_final,
   hexGrid_cap_tested_after_row rectEnv 600 (wideRectangle.map Coord.toGeoPoint) 3
     (.fin (1 / 10)) wideFinalState wideRectangle_final⟩

/-! ### The travel order of the optimizer -/

theorem jsnum_zero : (0 : JSNum) = JSNum.fin 0 := by
  show JSNum.fin ((0 : ℕ) : ℚ) = _
  norm_num

theorem lngLe_total (a b : Position) : lngLe a b ∨ lngLe b a := by
  obtain ⟨a1, a2⟩ := a
  obtain ⟨b1, b2⟩ := b
  cases a1 <;> cases b1 <;>
    simp [lngLe, JSNum.gt, jsnum_zero, JSNum.lt, HSub.hSub, Sub.sub, JSNum.sub, JSNum.add,
      JSNum.neg]
  rename_i x y
  by_cases h : x ≤ y
  · left
    linarith
  · right
    linarith

theorem lngLe_trans (a b c : Position) (hb : b.1.isNaN = false) (hab : lngLe a b)
    (hbc : lngLe b c) : lngLe a c := by
  obtain ⟨a1, a2⟩ := a
  obtain ⟨b1, b2⟩ := b
  obtain ⟨c1, c2⟩ := c
  cases a1 <;> cases b1 <;> cases c1 <;>
    simp [lngLe, JSNum.gt, jsnum_zero, JSNum.lt, HSub.hSub, Sub.sub, JSNum.sub, JSNum.add,
      JSNum.neg, JSNum.isNaN] at hb hab hbc ⊢
  linarith

theorem lngLe_iff_le (a b : Position) (ha : a.1.isNaN = false) (hb : b.1.isNaN = false) :
    lngLe a b ↔ a.1.le b.1 = true := by
  obtain ⟨a1, a2⟩ := a
  obtain ⟨b1, b2⟩ := b
  cases a1 <;> cases b1 <;>
    simp [lngLe, JSNum.gt, jsnum_zero, JSNum.lt, JSNum.le, HSub.hSub, Sub.sub, JSNum.sub,
      JSNum.add, JSNum.neg, JSNum.isNaN] at ha hb ⊢

theorem orderedInsert_pairwise (a : Position) (l : List Position)
    (hl : ∀ p ∈ l, p.1.isNaN = false) (hs : l.Pairwise lngLe) :
    (l.orderedInsert lngLe a).Pairwise lngLe := by
  induction l with
  | nil => simp
  | cons b l ih =>
    have hb : b.1.isNaN = false := hl b (List.mem_cons_self _ _)
    obtain ⟨hbl, hsl⟩ := List.pairwise_cons.1 hs
    by_cases h : lngLe a b
    · rw [List.orderedInsert, if_pos h]
      refine List.pairwise_cons.2 ⟨?_, hs⟩
      intro c hc
      rcases List.mem_cons.1 hc with rfl | hc
      · exact h
      · exact lngLe_trans a b c hb h (hbl c hc)
    · rw [List.orderedInsert, if_neg h]
      refine List.pairwise_cons.2 ⟨?_, ih (fun p hp => hl p (List.mem_cons_of_mem _ hp)) hsl⟩
      intro c hc
      rcases (List.mem_orderedInsert lngLe).1 hc with rfl | hc
      · exact (lngLe_total c b).resolve_left h
      · exact hbl c hc

/-- The sort of a row without `NaN` longitude is ascending in longitude, keeps every point and
is stable. -/
theorem sortByLng_ascending_stable (row : List Position) :
    (sortByLng row).Perm row ∧
      (∀ a b, lngLe a b → [a, b].Sublist row → [a, b].Sublist (sortByLng row)) ∧
      ((∀ p ∈ row, p.1.isNaN = false) →
        (sortByLng row).Pairwise (fun a b => a.1.le b.1 = true)) := by
  refine ⟨sortByLng_perm row, fun a b hab hsub => List.pair_sublist_insertionSort hab hsub, ?_⟩
  intro hrow
  have hsorted : (sortByLng row).Pairwise lngLe := by
    unfold sortByLng
    induction row with
    | nil => simp
    | cons a l ih =>
      have hl : ∀ p ∈ l, p.1.isNaN = false := fun p hp => hrow p (List.mem_cons_of_mem _ hp)
      rw [List.insertionSort]
      apply orderedInsert_pairwise
      · intro p hp
        exact hl p ((List.mem_insertionSort lngLe).1 hp)
      · exact ih hl
  have hmem : ∀ p ∈ sortByLng row, p.1.isNaN = false :=
    fun p hp => hrow p ((sortByLng_perm row).mem_iff.1 hp)
  refine hsorted.imp_of_mem ?_
  intro a b ha hb hab
  exact (lngLe_iff_le a b (hmem a ha) (hmem b hb)).1 hab

theorem processNormalRow_eq (st : PathState) (idx : Nat) (row : List Position) (h : row ≠ []) :
    processNormalRow st idx row =
      { optimizedPath := st.optimizedPath ++ (specMainOrder idx row).map some,
        skippedPoints := specDeferred row :: st.skippedPoints } := by
  have hlen : row.length ≠ 0 := fun hl => h (List.length_eq_zero.1 hl)
  unfold processNormalRow specMainOrder specDeferred
  simp only [hlen, if_false, List.head?_eq_getElem?]

theorem processNormalRows_eq (rows : List (List Position)) (st : PathState) (idx : Nat)
    (h : ∀ row ∈ rows, row ≠ []) :
    processNormalRows st idx rows =
      { optimizedPath := st.optimizedPath ++
          ((rows.mapIdx (fun i row => specMainOrder (idx + i) row)).flatten).map some,
        skippedPoints := (rows.map specDeferred).reverse ++ st.skippedPoints } := by
  induction rows generalizing st idx with
  | nil => simp [processNormalRows]
  | cons row rows ih =>
    rw [processNormalRows, processNormalRow_eq st idx row (h row (List.mem_cons_self _ _)),
      ih _ _ (fun r hr => h r (List.mem_cons_of_mem _ hr))]
    have hidx : (fun i row => specMainOrder (idx + 1 + i) row) =
        (fun i row => specMainOrder (idx + (i + 1)) row) := by
      funext i row
      congr 1
      omega
    simp only [List.mapIdx_cons, List.flatten_cons, List.map_append, List.map_cons,
      List.reverse_cons, List.append_assoc, List.singleton_append, Nat.add_zero, hidx]

theorem processNormalRows_zero (rows : List (List Position)) (h : ∀ row ∈ rows, row ≠ []) :
    processNormalRows { optimizedPath := [], skippedPoints := [] } 0 rows =
      { optimizedPath := ((rows.mapIdx specMainOrder).flatten).map some,
        skippedPoints := (rows.map specDeferred).reverse } := by
  rw [processNormalRows_eq rows _ 0 h]
  simp

theorem range_flatMap_zip (a b : List Position) :
    (List.range (min a.length b.length)).flatMap (fun i => [a[i]?, b[i]?]) =
      ((a.zip b).flatMap (fun pair => [pair.1, pair.2])).map some := by
  induction a generalizing b with
  | nil => simp
  | cons x a ih =>
    cases b with
    | nil => simp
    | cons y b =>
      simp only [List.length_cons, Nat.succ_min_succ, List.range_succ_eq_map, List.flatMap_cons,
        List.zip_cons_cons, List.map_append, List.map_cons, List.map_nil]
      rw [← ih b]
      simp [List.flatMap_map]

/-- The array `interleaved` is the segment of the specification. -/
theorem interleave_eq_specSegment (main1 main2 : List Position) :
    interleave main1 main2 = (specSegment main1 main2).map some := by
  have hpairs : (List.range (min main1.length main2.length)).flatMap
        (fun i => [main1[main1.length - 1 - i]?, main2[main2.length - 1 - i]?]) =
      ((main1.reverse.zip main2.reverse).flatMap (fun pair => [pair.1, pair.2])).map some := by
    rw [← range_flatMap_zip, List.length_reverse, List.length_reverse]
    apply List.flatMap_congr
    intro i hi
    have hi' := List.mem_range.1 hi
    rw [List.getElem?_reverse (by omega), List.getElem?_reverse (by omega)]
  unfold interleave specSegment
  simp only [hpairs, List.map_append]
  by_cases h12 : main1.length > main2.length
  · have hd : List.drop main1.length main2.reverse = [] :=
      List.drop_eq_nil_of_le (by rw [List.length_reverse]; omega)
    have hk : main1.length - (main1.length - main2.length) = main2.length := by omega
    simp only [h12, if_true, List.reverse_take, hk, hd, List.map_nil, List.append_nil]
  · by_cases h21 : main2.length > main1.length
    · have hd : List.drop main2.length main1.reverse = [] :=
        List.drop_eq_nil_of_le (by rw [List.length_reverse]; omega)
      have hk : main2.length - (main2.length - main1.length) = main1.length := by omega
      simp only [h12, h21, if_true, if_false, List.reverse_take, hk, hd, List.map_nil,
        List.append_nil]
    · have hd1 : List.drop main2.length main1.reverse = [] :=
        List.drop_eq_nil_of_le (by rw [List.length_reverse]; omega)
      have hd2 : List.drop main1.length main2.reverse = [] :=
        List.drop_eq_nil_of_le (by rw [List.length_reverse]; omega)
      simp only [h12, h21, if_false, hd1, hd2, List.map_nil, List.append_nil]

/-- Claim C18. For rows that are all non-empty, in even number or a single one, the optimizer
returns the path of the specification: for each row in order its points sorted by ascending
longitude without the first, ascending for an even row index and descending for an odd one,
then the removed first points of the rows from the last row back to the first. The sort keeps
every point and is stable, and for a row without `NaN` longitude it is ascending, so that the
removed point is the lowest. -/
theorem optimizePath_plain_order (rowPoints : List (List Position))
    (hrows : ∀ row ∈ rowPoints, row ≠ [])
    (hn : rowPoints.length % 2 = 0 ∨ rowPoints.length = 1) :
    optimizePathLayeredWithFinalInterleaved rowPoints = specPlainPath rowPoints ∧
      ∀ row ∈ rowPoints,
        (sortByLng row).Perm row ∧
        (∀ a b, lngLe a b → [a, b].Sublist row → [a, b].Sublist (sortByLng row)) ∧
        ((∀ p ∈ row, p.1.isNaN = false) →
          (sortByLng row).Pairwise (fun a b => a.1.le b.1 = true)) := by
  refine ⟨?_, fun row _ => sortByLng_ascending_stable row⟩
  have hplain : ¬ (rowPoints.length % 2 = 1 ∧ rowPoints.length ≥ 2) := by omega
  rw [optimizePath_plain rowPoints hplain, processNormalRows_zero rowPoints hrows]
  rfl

/-- C18 at the first two rows of `sampleRows`. -/
theorem optimizePath_plain_order_witness :
    (∀ row ∈ sampleRows.take 2, row ≠ []) ∧
      ((sampleRows.take 2).length % 2 = 0 ∨ (sampleRows.take 2).length = 1) ∧
      optimizePathLayeredWithFinalInterleaved (sampleRows.take 2) =
        specPlainPath (sampleRows.take 2) :=
  ⟨by decide, by decide,
   (optimizePath_plain_order (sampleRows.take 2) (by decide) (by decide)).1⟩

/-- Claim C19. For an odd number, at least 3, of rows that are all non-empty, the optimizer
returns the alternating order of the rows before the last two, then the interleaved segment of
the last two rows (`A`'s highest, `B`'s highest, `A`'s next highest, ... for as many pairs as
both have, then the unpaired points of the longer one in descending order, `A` being the row
before the last sorted ascending without its lowest point and `B` the last row sorted
ascending), then the deferred points of the row before the last and of the earlier rows, back
to the first. -/
theorem optimizePath_interleaved_order (rowPoints : List (List Position))
    (hrows : ∀ row ∈ rowPoints, row ≠ [])
    (hodd : rowPoints.length % 2 = 1) (h3 : 3 ≤ rowPoints.length) :
    ∃ normalRows row1 row2, rowPoints = normalRows ++ [row1, row2] ∧
      normalRows = rowPoints.take (rowPoints.length - 2) ∧
      optimizePathLayeredWithFinalInterleaved rowPoints =
        specInterleavedPath normalRows row1 row2 ∧
      ∀ row ∈ rowPoints,
        (sortByLng row).Perm row ∧
        (∀ a b, lngLe a b → [a, b].Sublist row → [a, b].Sublist (sortByLng row)) ∧
        ((∀ p ∈ row, p.1.isNaN = false) →
          (sortByLng row).Pairwise (fun a b => a.1.le b.1 = true)) := by
  obtain ⟨normalRows, row1, row2, hsplit⟩ := rows_split_last_two rowPoints ⟨hodd, by omega⟩
  refine ⟨normalRows, row1, row2, hsplit, ?_, ?_, fun row _ => sortByLng_ascending_stable row⟩
  · rw [hsplit]
    simp
  · subst hsplit
    have hl : (normalRows.length + 2) % 2 = 1 := by simpa using hodd
    have hnormal : ∀ row ∈ normalRows, row ≠ [] :=
      fun r hr => hrows r (List.mem_append_left _ hr)
    rw [optimizePath_interleaved normalRows row1 row2 hl, processNormalRows_zero normalRows hnormal,
      interleave_eq_specSegment]
    simp only [specInterleavedPath, specDeferred, List.map_append, List.map_cons, List.map_nil,
      List.reverse_append, List.reverse_cons, List.reverse_nil, List.nil_append,
      List.singleton_append, List.head?_eq_getElem?, List.append_assoc]

/-- C19 at `sampleRows`, three rows of lengths 4, 3 and 3. -/
theorem optimizePath_interleaved_order_witness :
    (∀ row ∈ sampleRows, row ≠ []) ∧ sampleRows.length % 2 = 1 ∧ 3 ≤ sampleRows.length ∧
      ∃ normalRows row1 row2, sampleRows = normalRows ++ [row1, row2] ∧
        normalRows = sampleRows.take (sampleRows.length - 2) ∧
        optimizePathLayeredWithFinalInterleaved sampleRows =
          specInterleavedPath normalRows row1 row2 ∧
        ∀ row ∈ sampleRows,
          (sortByLng row).Perm row ∧
          (∀ a b, lngLe a b → [a, b].Sublist row → [a, b].Sublist (sortByLng row)) ∧
          ((∀ p ∈ row, p.1.isNaN = false) →
            (sortByLng row).Pairwise (fun a b => a.1.le b.1 = true)) :=
  ⟨by decide, by decide, by decide,
   optimizePath_interleaved_order sampleRows (by decide) (by decide) (by decide)⟩

/-- Claim C15. For an odd number, at least 3, of rows that are all non-empty, the output of the
optimizer is `A ++ B ++ C`, where `A` holds the non-deferred points of the rows before the last
two (each row sorted by ascending longitude without its first point), `B` holds exactly the
points of the last two rows and `C` the deferred points of the earlier rows: every point of the
last two rows stands at an index from `A.length` on, after every non-deferred point of the
earlier rows. -/
theorem optimizePath_last_rows_after (rowPoints : List (List Position))
    (hrows : ∀ row ∈ rowPoints, row ≠ [])
    (hodd : rowPoints.length % 2 = 1) (h3 : 3 ≤ rowPoints.length) :
    ∃ (normalRows : List (List Position)) (row1 row2 : List Position)
      (A B C : List (Option Position)),
      rowPoints = normalRows ++ [row1, row2] ∧
      optimizePathLayeredWithFinalInterleaved rowPoints = A ++ B ++ C ∧
      A = ((normalRows.mapIdx specMainOrder).flatten).map some ∧
      B.Perm ((row1 ++ row2).map some) ∧
      C = (normalRows.map specDeferred).reverse ∧
      (∀ i, i < A.length →
        (optimizePathLayeredWithFinalInterleaved rowPoints)[i]? = A[i]?) ∧
      (∀ j, j < B.length →
        (optimizePathLayeredWithFinalInterleaved rowPoints)[A.length + j]? = B[j]?) := by
  obtain ⟨normalRows, row1, row2, hsplit⟩ := rows_split_last_two rowPoints ⟨hodd, by omega⟩
  subst hsplit
  have hl : (normalRows.length + 2) % 2 = 1 := by simpa using hodd
  have hnormal : ∀ row ∈ normalRows, row ≠ [] :=
    fun r hr => hrows r (List.mem_append_left _ hr)
  have h1 : row1 ≠ [] := hrows row1 (by simp)
  obtain ⟨skipped, mainPoints, hs, h0, hd⟩ := sortByLng_cons row1 h1
  have hout : optimizePathLayeredWithFinalInterleaved (normalRows ++ [row1, row2]) =
      ((normalRows.mapIdx specMainOrder).flatten).map some ++
        (interleave mainPoints (sortByLng row2) ++ [some skipped]) ++
        (normalRows.map specDeferred).reverse := by
    rw [optimizePath_interleaved normalRows row1 row2 hl,
      processNormalRows_zero normalRows hnormal, h0, hd]
    simp
  refine ⟨normalRows, row1, row2, _, _, _, rfl, hout, rfl, ?_, rfl, ?_, ?_⟩
  · have hr1 := (sortByLng_perm row1).map some
    have hr2 := (sortByLng_perm row2).map some
    have hi := interleave_perm mainPoints (sortByLng row2)
    rw [hs] at hr1
    rw [List.perm_iff_count] at hr1 hr2 hi ⊢
    intro a
    have e2 := hr1 a
    have e3 := hr2 a
    have e4 := hi a
    simp only [List.count_append, List.count_cons, List.map_cons, List.map_append,
      List.count_nil] at e2 e3 e4 ⊢
    omega
  · intro i hi
    rw [hout, List.append_assoc, List.getElem?_append_left hi]
  · intro j hj
    rw [hout, List.append_assoc, List.getElem?_append_right (Nat.le_add_right _ _),
      Nat.add_sub_cancel_left, List.getElem?_append_left hj]

/-- C15 at `sampleRows`, three rows of lengths 4, 3 and 3. -/
theorem optimizePath_last_rows_after_witness :
    (∀ row ∈ sampleRows, row ≠ []) ∧ sampleRows.length % 2 = 1 ∧ 3 ≤ sampleRows.length ∧
      ∃ (normalRows : List (List Position)) (row1 row2 : List Position)
        (A B C : List (Option Position)),
        sampleRows = normalRows ++ [row1, row2] ∧
        optimizePathLayeredWithFinalInterleaved sampleRows = A ++ B ++ C ∧
        A = ((normalRows.mapIdx specMainOrder).flatten).map some ∧
        B.Perm ((row1 ++ row2).map some) ∧
        C = (normalRows.map specDeferred).reverse ∧
        (∀ i, i < A.length →
          (optimizePathLayeredWithFinalInterleaved sampleRows)[i]? = A[i]?) ∧
        (∀ j, j < B.length →
          (optimizePathLayeredWithFinalInterleaved sampleRows)[A.length + j]? = B[j]?) :=
  ⟨by decide, by decide, by decide,
   optimizePath_last_rows_after sampleRows (by decide) (by decide) (by decide)⟩

/-! ### The coverage test of a candidate -/

/-- One turn of the inner loop. -/
theorem columnLoop_step (env : Env) (utmEPSG : String) (polygon : Feature)
    (r threshold dx maxX y : JSNum) (fuel : Nat) (x : JSNum) (st : RowState)
    (hx : x.le (maxX + r) = true) :
    columnLoop env utmEPSG polygon r threshold dx maxX y (fuel + 1) x st =
      match evaluateCandidate env utmEPSG polygon r threshold x y with
      | .error e => some (.error e)
      | .ok (pointWGS84, true) =>
        columnLoop env utmEPSG polygon r threshold dx maxX y fuel (x + dx)
          { st with currentRow := st.currentRow ++ [pointWGS84],
                    totalPoints := st.totalPoints + 1 }
      | .ok (pointWGS84, false) =>
        columnLoop env utmEPSG polygon r threshold dx maxX y fuel (x + dx)
          { st with removedPoints := st.removedPoints ++ [pointWGS84],
                    totalPoints := st.totalPoints + 1 } := by
  rw [columnLoop]
  simp only [hx, if_true]

/-! ### Every candidate is classified once -/

theorem columnLoop_count (env : Env) (utmEPSG : String) (polygon : Feature)
    (r threshold dx maxX y : JSNum) (fuel : Nat) (x : JSNum) (st st' : RowState)
    (h : columnLoop env utmEPSG polygon r threshold dx maxX y fuel x st = some (.ok st')) :
    st'.currentRow.length + st'.removedPoints.length + st.totalPoints =
      st.currentRow.length + st.removedPoints.length + st'.totalPoints := by
  induction fuel generalizing x st with
  | zero =>
    rw [columnLoop] at h
    split at h
    · cases h
    · cases h
      rfl
  | succ fuel ih =>
    by_cases hx : x.le (maxX + r) = true
    · rw [columnLoop_step env utmEPSG polygon r threshold dx maxX y fuel x st hx] at h
      split at h
      · cases h
      · have := ih _ _ h
        simp only [List.length_append, List.length_singleton] at this
        omega
      · have := ih _ _ h
        simp only [List.length_append, List.length_singleton] at this
        omega
    · rw [columnLoop] at h
      simp only [hx] at h
      cases h
      rfl

theorem rowLoop_count (env : Env) (utmEPSG : String) (polygon : Feature)
    (r threshold dx dy : JSNum) (minUTM maxUTM : Position) (fuel : Nat) (st st' : GridState)
    (h0 : (st.rowPoints.map List.length).sum + st.removedPoints.length = st.totalPoints)
    (h : rowLoop env utmEPSG polygon r threshold dx dy minUTM maxUTM fuel st = some (.ok st')) :
    (st'.rowPoints.map List.length).sum + st'.removedPoints.length = st'.totalPoints := by
  induction fuel generalizing st with
  | zero =>
    unfold rowLoop at h
    split at h
    · cases h
    · cases h
      exact h0
  | succ fuel ih =>
    by_cases hy : st.y.le (maxUTM.2 + r) = true
    · cases hin : columnLoop env utmEPSG polygon r threshold dx maxUTM.1 st.y (fuel + 1)
          (rowStartX minUTM r dx st.row)
          { currentRow := [], removedPoints := st.removedPoints,
            totalPoints := st.totalPoints } with
      | none =>
        rw [rowLoop] at h
        simp only [hy, if_true] at h
        unfold rowStartX at hin
        rw [hin] at h
        cases h
      | some res =>
        cases res with
        | error e =>
          rw [rowLoop] at h
          simp only [hy, if_true] at h
          unfold rowStartX at hin
          rw [hin] at h
          cases h
        | ok inner =>
          rw [rowLoop_step env utmEPSG polygon r threshold dx dy minUTM maxUTM fuel st inner
            hy hin] at h
          have hc := columnLoop_count _ _ _ _ _ _ _ _ _ _ _ _ hin
          simp only [List.length_nil] at hc
          have hafter : ((st.afterRow inner dy).rowPoints.map List.length).sum +
              (st.afterRow inner dy).removedPoints.length =
              (st.afterRow inner dy).totalPoints := by
            simp only [GridState.afterRow]
            split
            · simp only [List.map_append, List.sum_append, List.map_cons, List.map_nil,
                List.sum_cons, List.sum_nil]
              omega
            · rename_i hz
              have : inner.currentRow.length = 0 := by omega
              omega
          by_cases hcap : inner.totalPoints > 500
          · rw [if_pos hcap] at h
            cases h
            exact hafter
          · rw [if_neg hcap] at h
            exact ih _ hafter h
    · rw [rowLoop] at h
      simp only [hy] at h
      cases h
      exact h0

/-- Claim C25. Whenever `generateHexGridWithBufferAndFilter` returns, the lengths of the
returned rows and the length of `removedPoints` add up to the candidate counter `totalPoints`
of the loop: every evaluated candidate went to its row or to `removedPoints`, and to one of
them only. -/
theorem generateHexGrid_classifies_once (env : Env) (fuel : Nat) (polygonCoords : List GeoPoint)
    (r threshold : JSNum) (rowPoints : List (List Position)) (removedPoints : List Position)
    (h : generateHexGridWithBufferAndFilter env fuel polygonCoords r threshold =
      some (.ok (rowPoints, removedPoints))) :
    ∃ st, hexGridFinalState env fuel polygonCoords r threshold = some (.ok st) ∧
      st.rowPoints = rowPoints ∧ st.removedPoints = removedPoints ∧
      (rowPoints.map List.length).sum + removedPoints.length = st.totalPoints := by
  unfold generateHexGridWithBufferAndFilter at h
  split at h
  · cases h
  · cases h
  · rename_i st hst
    cases h
    refine ⟨st, hst, rfl, rfl, ?_⟩
    unfold hexGridFinalState at hst
    split at hst
    · cases hst
    · split at hst
      · cases hst
      · split at hst
        · cases hst
        · split at hst
          · cases hst
          · simp only at hst
            split at hst
            · cases hst
            · split at hst
              · cases hst
              · exact rowLoop_count _ _ _ _ _ _ _ _ _ _ _ _ (by simp) hst

/-- C25 at `tallRectangle`: 6 accepted and 12 removed candidates out of 18. -/
theorem generateHexGrid_classifies_once_witness :
    generateHexGridWithBufferAndFilter rectEnv 10 (tallRectangle.map Coord.toGeoPoint) 3
        (.fin (1 / 10)) = some (.ok (tallRows, tallRemoved)) ∧
      ∃ st, hexGridFinalState rectEnv 10 (tallRectangle.map Coord.toGeoPoint) 3
          (.fin (1 / 10)) = some (.ok st) ∧
        st.rowPoints = tallRows ∧ st.removedPoints = tallRemoved ∧
        (tallRows.map List.length).sum + tallRemoved.length = st.totalPoints :=
  ⟨tallRectangle_grid,
   generateHexGrid_classifies_once rectEnv 10 (tallRectangle.map Coord.toGeoPoint) 3
     (.fin (1 / 10)) tallRows tallRemoved tallRectangle_grid⟩

/-! ### The cartesian coordinates -/

theorem cartesianOf_getElem?_eq (env : Env) (ref : AbsoluteWaypoint)
    (rest : List AbsoluteWaypoint) (i : Nat) (w : AbsoluteWaypoint)
    (hw : (ref :: rest)[i]? = some w) :
    (cartesianOf env true (ref :: rest))[i]? =
      some { id := w.id,
             x := ((w.lng - ref.lng) * (JSNum.PI / 180) * 6371000 *
               env.mathCos (ref.lat * JSNum.PI / 180)).toFixed2 + 3,
             y := ((w.lat - ref.lat) * (JSNum.PI / 180) * 6371000).toFixed2 + 3,
             z := w.alt.orElse 50 } := by
  simp only [cartesianOf, if_true, applyTranslation, convertGeographicToCartesian,
    List.getElem?_map, hw, Option.map_some']

/-- In exact arithmetic, when `calculateWaypoints` returns with the cartesian output requested,
with `ref` the first absolute waypoint, the cartesian waypoint at the index of an absolute
waypoint `w` has `x` equal to `(w.lng - ref.lng) * (pi/180) * R * cos(ref.lat * pi/180)` rounded
to two decimals, plus 3, and `y` equal to `(w.lat - ref.lat) * (pi/180) * R` rounded to two
decimals, plus 3, for `R = 6371000`. -/
theorem calculateWaypoints_cartesian_rounded (env : Env) (fuel : Nat) (arg : Argument)
    (res : CoverageResult)
    (h : calculateWaypoints env fuel arg true = some (.ok res)) :
    ∃ ref, res.absolute[0]? = some ref ∧
      ∀ (i : Nat) (w : AbsoluteWaypoint), res.absolute[i]? = some w →
        ∃ c, res.cartesian[i]? = some c ∧
          c.x = ((w.lng - ref.lng) * (JSNum.PI / 180) * 6371000 *
            env.mathCos (ref.lat * JSNum.PI / 180)).toFixed2 + 3 ∧
          c.y = ((w.lat - ref.lat) * (JSNum.PI / 180) * 6371000).toFixed2 + 3 := by
  have hne := calculateWaypoints_absolute_ne_nil env fuel arg true res h
  obtain ⟨-, -, -, -, -, hcart⟩ := calculateWaypoints_ok env fuel arg true res h
  cases habs : res.absolute with
  | nil => exact absurd habs hne
  | cons ref rest =>
    refine ⟨ref, by simp, ?_⟩
    intro i w hw
    rw [hcart, habs]
    exact ⟨_, cartesianOf_getElem?_eq env ref rest i w hw, rfl, rfl⟩

/-! ### The order of the rows -/

theorem evaluateCandidate_proj4 (env : Env) (utmEPSG : String) (polygon : Feature)
    (r threshold x y : JSNum) (p : Position) (keep : Bool)
    (h : evaluateCandidate env utmEPSG polygon r threshold x y = .ok (p, keep)) :
    env.proj4 utmEPSG "WGS84" (x, y) = .ok p := by
  unfold evaluateCandidate at h
  split at h
  · cases h
  · rename_i p' hp
    split at h
    · cases h
    · split at h
      · cases h
      · cases h
        exact hp
      · split at h
        · split at h
          · cases h
            exact hp
          · cases h
        · cases h
          exact hp

theorem columnLoop_points (env : Env) (utmEPSG : String) (polygon : Feature)
    (r threshold dx maxX y : JSNum) (fuel : Nat) (x : JSNum) (st st' : RowState)
    (h : columnLoop env utmEPSG polygon r threshold dx maxX y fuel x st = some (.ok st')) :
    ∀ p ∈ st'.currentRow,
      p ∈ st.currentRow ∨ ∃ x', env.proj4 utmEPSG "WGS84" (x', y) = .ok p := by
  induction fuel generalizing x st with
  | zero =>
    rw [columnLoop] at h
    split at h
    · cases h
    · cases h
      exact fun p hp => Or.inl hp
  | succ fuel ih =>
    by_cases hx : x.le (maxX + r) = true
    · rw [columnLoop_step env utmEPSG polygon r threshold dx maxX y fuel x st hx] at h
      split at h
      · cases h
      · rename_i p0 hev
        intro p hp
        rcases ih _ _ h p hp with hmem | hex
        · rcases List.mem_append.1 hmem with hm | hm
          · exact Or.inl hm
          · simp only [List.mem_singleton] at hm
            subst hm
            exact Or.inr ⟨x, evaluateCandidate_proj4 _ _ _ _ _ _ _ _ _ hev⟩
        · exact Or.inr hex
      · intro p hp
        exact ih _ _ h p hp
    · rw [columnLoop] at h
      simp only [hx] at h
      cases h
      exact fun p hp => Or.inl hp

theorem rowLoop_northings (env : Env) (utmEPSG : String) (polygon : Feature)
    (r threshold dx : JSNum) (d : ℚ) (hd : 0 < d) (minUTM maxUTM : Position) (fuel : Nat)
    (st st' : GridState) (q : ℚ) (ys : List ℚ) (hy : st.y = .fin q)
    (hrows : RowsAtNorthings env utmEPSG st.rowPoints ys)
    (hsorted : ys.Pairwise (· < ·)) (hbelow : ∀ y' ∈ ys, y' < q)
    (h : rowLoop env utmEPSG polygon r threshold dx (.fin d) minUTM maxUTM fuel st =
      some (.ok st')) :
    ∃ ys', RowsAtNorthings env utmEPSG st'.rowPoints ys' ∧ ys'.Pairwise (· < ·) := by
  induction fuel generalizing st q ys with
  | zero =>
    unfold rowLoop at h
    split at h
    · cases h
    · cases h
      exact ⟨ys, hrows, hsorted⟩
  | succ fuel ih =>
    by_cases hle : st.y.le (maxUTM.2 + r) = true
    · cases hin : columnLoop env utmEPSG polygon r threshold dx maxUTM.1 st.y (fuel + 1)
          (rowStartX minUTM r dx st.row)
          { currentRow := [], removedPoints := st.removedPoints,
            totalPoints := st.totalPoints } with
      | none =>
        rw [rowLoop] at h
        simp only [hle, if_true] at h
        unfold rowStartX at hin
        rw [hin] at h
        cases h
      | some res =>
        cases res with
        | error e =>
          rw [rowLoop] at h
          simp only [hle, if_true] at h
          unfold rowStartX at hin
          rw [hin] at h
          cases h
        | ok inner =>
          rw [rowLoop_step env utmEPSG polygon r threshold dx (.fin d) minUTM maxUTM fuel st
            inner hle hin] at h
          have hpts := columnLoop_points _ _ _ _ _ _ _ _ _ _ _ _ hin
          have hafter : ∃ ys'', RowsAtNorthings env utmEPSG (st.afterRow inner (.fin d)).rowPoints
              ys'' ∧ ys''.Pairwise (· < ·) ∧ ∀ y' ∈ ys'', y' < q + d := by
            by_cases hpos : inner.currentRow.length > 0
            · refine ⟨ys ++ [q], ?_, ?_, ?_⟩
              · simp only [GridState.afterRow, hpos, if_true]
                refine List.rel_append hrows (List.Forall₂.cons ?_ List.Forall₂.nil)
                intro p hp
                rcases hpts p hp with hm | hex
                · simp at hm
                · rw [hy] at hex
                  exact hex
              · rw [List.pairwise_append]
                refine ⟨hsorted, List.pairwise_singleton _ _, ?_⟩
                intro a ha b hb
                simp only [List.mem_singleton] at hb
                subst hb
                exact hbelow a ha
              · intro y' hy'
                rcases List.mem_append.1 hy' with hm | hm
                · have := hbelow y' hm
                  linarith
                · simp only [List.mem_singleton] at hm
                  subst hm
                  linarith
            · refine ⟨ys, ?_, hsorted, ?_⟩
              · simp only [GridState.afterRow, hpos, if_false]
                exact hrows
              · intro y' hy'
                have := hbelow y' hy'
                linarith
          obtain ⟨ys'', h1, h2, h3⟩ := hafter
          by_cases hcap : inner.totalPoints > 500
          · rw [if_pos hcap] at h
            cases h
            exact ⟨ys'', h1, h2⟩
          · rw [if_neg hcap] at h
            refine ih (st.afterRow inner (.fin d)) (q + d) ys'' ?_ h1 h2 h3 h
            simp only [GridState.afterRow, hy, fin_add_fin]
    · rw [rowLoop] at h
      simp only [hle] at h
      cases h
      exact ⟨ys, hrows, hsorted⟩


/-- In exact arithmetic, when the pitch is positive and the projection maps a finite latitude
to a finite northing, the rows returned by `generateHexGridWithBufferAndFilter` were generated at
strictly increasing planar northings. -/
theorem generateHexGrid_rows_ascending (env : Env) (fuel : Nat) (polygonCoords : List GeoPoint)
    (ρ : ℚ) (threshold : JSNum) (rowPoints : List (List Position))
    (removedPoints : List Position) (hρ : 0 < ρ)
    (hfin : ∀ code p q, env.proj4 "WGS84" code p = .ok q → p.2.isFinite = true →
      q.2.isFinite = true)
    (h : generateHexGridWithBufferAndFilter env fuel polygonCoords (.fin ρ) threshold =
      some (.ok (rowPoints, removedPoints))) :
    ∃ utmEPSG ys, RowsAtNorthings env utmEPSG rowPoints ys ∧ ys.length = rowPoints.length ∧
      ys.Pairwise (· < ·) := by
  unfold generateHexGridWithBufferAndFilter at h
  split at h
  · cases h
  · cases h
  · rename_i st hst
    cases h
    unfold hexGridFinalState at hst
    split at hst
    · cases hst
    · split at hst
      · cases hst
      · rename_i bbox hbbox
        split at hst
        · cases hst
        · rename_i hvalid
          split at hst
          · cases hst
          · simp only at hst
            split at hst
            · cases hst
            · rename_i minUTM hmin
              split at hst
              · cases hst
              · have hb : bbox.2.1.isFinite = true := by
                  simp [bboxValid] at hvalid
                  exact hvalid.2.1.2
                have hm := hfin _ _ _ hmin hb
                obtain ⟨q, hq⟩ : ∃ q, minUTM.2 = JSNum.fin q := by
                  cases hmq : minUTM.2 with
                  | fin q => exact ⟨q, rfl⟩
                  | nan => rw [hmq] at hm; cases hm
                  | posInf => rw [hmq] at hm; cases hm
                  | negInf => rw [hmq] at hm; cases hm
                have hdy : JSNum.fin (3 / 2) * JSNum.fin ρ = JSNum.fin (3 / 2 * ρ) :=
                  fin_mul_fin _ _
                rw [hdy] at hst
                obtain ⟨ys, h1, h2⟩ := rowLoop_northings env _ _ _ _ _ (3 / 2 * ρ)
                  (by positivity) _ _ fuel _ st (q - ρ) [] (by simp only [hq, fin_sub_fin])
                  (by exact List.Forall₂.nil) List.Pairwise.nil (by simp) hst
                exact ⟨_, ys, h1, (List.Forall₂.length_eq h1).symm, h2⟩


/-! ### Termination of the lattice loops in exact arithmetic -/

theorem columnLoop_terminates (env : Env) (utmEPSG : String) (polygon : Feature)
    (r threshold maxX y : JSNum) (dxq b : ℚ) (hb : maxX + r = .fin b) :
    ∀ (n fuel : Nat) (xq : ℚ) (st : RowState), b - xq < n * dxq → n ≤ fuel →
      columnLoop env utmEPSG polygon r threshold (.fin dxq) maxX y fuel (.fin xq) st ≠
        none := by
  intro n
  induction n with
  | zero =>
    intro fuel xq st hlt _
    have hx : ¬ ((JSNum.fin xq).le (maxX + r) = true) := by
      rw [hb]
      simp only [JSNum.le, decide_eq_true_eq, not_le]
      simp only [Nat.cast_zero, zero_mul] at hlt
      linarith
    rw [columnLoop.eq_def]
    simp [hx]
  | succ n ih =>
    intro fuel xq st hlt hfuel
    by_cases hx : (JSNum.fin xq).le (maxX + r) = true
    · obtain ⟨f, rfl⟩ : ∃ f, fuel = f + 1 := ⟨fuel - 1, by omega⟩
      rw [columnLoop_step env utmEPSG polygon r threshold (.fin dxq) maxX y f (.fin xq) st hx]
      have hnext : b - (xq + dxq) < n * dxq := by
        push_cast at hlt
        linarith
      split
      · simp
      · rw [fin_add_fin]
        exact ih f (xq + dxq) _ hnext (by omega)
      · rw [fin_add_fin]
        exact ih f (xq + dxq) _ hnext (by omega)
    · rw [columnLoop.eq_def]
      simp [hx]

theorem rowLoop_terminates (env : Env) (utmEPSG : String) (polygon : Feature)
    (r threshold : JSNum) (minUTM maxUTM : Position) (dxq dyq bx by0 x0 x1 : ℚ)
    (hbx : maxUTM.1 + r = .fin bx) (hby : maxUTM.2 + r = .fin by0)
    (hx0 : rowStartX minUTM r (.fin dxq) 0 = .fin x0)
    (hx1 : rowStartX minUTM r (.fin dxq) 1 = .fin x1) (m : Nat) (hm0 : bx - x0 < m * dxq)
    (hm1 : bx - x1 < m * dxq) :
    ∀ (n fuel : Nat) (yq : ℚ) (st : GridState), st.y = .fin yq → by0 - yq < n * dyq →
      n + m ≤ fuel →
      rowLoop env utmEPSG polygon r threshold (.fin dxq) (.fin dyq) minUTM maxUTM fuel st ≠
        none := by
  intro n
  induction n with
  | zero =>
    intro fuel yq st hy hlt _
    have hle : ¬ (st.y.le (maxUTM.2 + r) = true) := by
      rw [hby, hy]
      simp only [JSNum.le, decide_eq_true_eq, not_le]
      simp only [Nat.cast_zero, zero_mul] at hlt
      linarith
    rw [rowLoop.eq_def]
    simp [hle]
  | succ n ih =>
    intro fuel yq st hy hlt hfuel
    by_cases hle : st.y.le (maxUTM.2 + r) = true
    · obtain ⟨f, rfl⟩ : ∃ f, fuel = f + 1 := ⟨fuel - 1, by omega⟩
      have hstart : ∃ xq, rowStartX minUTM r (.fin dxq) st.row = .fin xq ∧ bx - xq < m * dxq := by
        by_cases hodd : st.row % 2 = 1
        · refine ⟨x1, ?_, hm1⟩
          rw [← hx1]
          simp [rowStartX, hodd]
        · refine ⟨x0, ?_, hm0⟩
          rw [← hx0]
          simp [rowStartX, hodd]
      obtain ⟨xq, hxq, hxlt⟩ := hstart
      cases hin : columnLoop env utmEPSG polygon r threshold (.fin dxq) maxUTM.1 st.y (f + 1)
          (rowStartX minUTM r (.fin dxq) st.row)
          { currentRow := [], removedPoints := st.removedPoints,
            totalPoints := st.totalPoints } with
      | none =>
        rw [hxq] at hin
        exact absurd hin (columnLoop_terminates env utmEPSG polygon r threshold maxUTM.1 st.y
          dxq bx hbx m (f + 1) xq _ hxlt (by omega))
      | some res =>
        cases res with
        | error e =>
          rw [rowLoop]
          simp only [hle, if_true]
          unfold rowStartX at hin
          rw [hin]
          simp
        | ok inner =>
          rw [rowLoop_step env utmEPSG polygon r threshold (.fin dxq) (.fin dyq) minUTM maxUTM f
            st inner hle hin]
          by_cases hcap : inner.totalPoints > 500
          · rw [if_pos hcap]
            simp
          · rw [if_neg hcap]
            refine ih f (yq + dyq) (st.afterRow inner (.fin dyq)) ?_ ?_ (by omega)
            · simp only [GridState.afterRow, hy, fin_add_fin]
            · push_cast at hlt
              linarith
    · rw [rowLoop.eq_def]
      simp [hle]


theorem isFinite_iff (x : JSNum) : x.isFinite = true ↔ ∃ q, x = .fin q := by
  cases x <;> simp [JSNum.isFinite]

theorem mathSqrt_three (env : Env) : env.mathSqrt 3 = .fin (env.sqrt 3) := by
  show env.mathSqrt (JSNum.fin ((3 : ℕ) : ℚ)) = _
  simp [Env.mathSqrt]

theorem hexGridFinalState_terminates (env : Env) (polygonCoords : List GeoPoint) (ρ : ℚ)
    (threshold : JSNum) (hρ : 0 < ρ) (hsqrt : 0 < env.sqrt 3)
    (hfin : ∀ code p q, env.proj4 "WGS84" code p = .ok q → p.1.isFinite = true →
      p.2.isFinite = true → q.1.isFinite = true ∧ q.2.isFinite = true) :
    ∃ N, ∀ fuel, N ≤ fuel →
      hexGridFinalState env fuel polygonCoords (.fin ρ) threshold ≠ none := by
  cases h1 : createTurfPolygon env polygonCoords with
  | error e => exact ⟨0, fun fuel _ => by simp [hexGridFinalState, h1]⟩
  | ok polygon =>
    cases h2 : env.bbox polygon with
    | error e => exact ⟨0, fun fuel _ => by simp [hexGridFinalState, h1, h2]⟩
    | ok bbox =>
      by_cases h3 : bboxValid bbox = true
      swap
      · exact ⟨0, fun fuel _ => by simp [hexGridFinalState, h1, h2, h3]⟩
      cases h4 : env.centroid polygon with
      | error e => exact ⟨0, fun fuel _ => by simp [hexGridFinalState, h1, h2, h3, h4]⟩
      | ok centerCoords =>
        cases h5 : env.proj4 "WGS84" (getUTMEPSG env centerCoords.2 centerCoords.1)
            (bbox.1, bbox.2.1) with
        | error e => exact ⟨0, fun fuel _ => by simp [hexGridFinalState, h1, h2, h3, h4, h5]⟩
        | ok minUTM =>
          cases h6 : env.proj4 "WGS84" (getUTMEPSG env centerCoords.2 centerCoords.1)
              (bbox.2.2.1, bbox.2.2.2) with
          | error e =>
            exact ⟨0, fun fuel _ => by simp [hexGridFinalState, h1, h2, h3, h4, h5, h6]⟩
          | ok maxUTM =>
            have hv : bbox.1.isFinite = true ∧ bbox.2.1.isFinite = true ∧
                bbox.2.2.1.isFinite = true ∧ bbox.2.2.2.isFinite = true := by
              simp [bboxValid] at h3
              exact ⟨h3.1.2, h3.2.1.2, h3.2.2.1.2, h3.2.2.2.2⟩
            obtain ⟨hmin1, hmin2⟩ := hfin _ _ _ h5 hv.1 hv.2.1
            obtain ⟨hmax1, hmax2⟩ := hfin _ _ _ h6 hv.2.2.1 hv.2.2.2
            obtain ⟨a, ha⟩ := (isFinite_iff _).1 hmin1
            obtain ⟨c, hc⟩ := (isFinite_iff _).1 hmin2
            obtain ⟨a', ha'⟩ := (isFinite_iff _).1 hmax1
            obtain ⟨c', hc'⟩ := (isFinite_iff _).1 hmax2
            have hdx : 0 < env.sqrt 3 * ρ := mul_pos hsqrt hρ
            have hdy : 0 < 3 / 2 * ρ := by positivity
            have hx0 : rowStartX minUTM (.fin ρ) (.fin (env.sqrt 3 * ρ)) 0 =
                .fin (a - ρ + 0) := by
              simp only [rowStartX, ha, Nat.zero_mod, zero_ne_one, if_false, jsnum_zero,
                fin_sub_fin, fin_add_fin]
            have hx1 : rowStartX minUTM (.fin ρ) (.fin (env.sqrt 3 * ρ)) 1 =
                .fin (a - ρ + env.sqrt 3 * ρ / 2) := by
              have h2 : (2 : JSNum) = JSNum.fin 2 := by
                show JSNum.fin ((2 : ℕ) : ℚ) = _
                norm_num
              simp only [rowStartX, ha, Nat.one_mod, if_true, h2, fin_sub_fin, fin_add_fin]
              rw [fin_div_fin _ _ (by norm_num), fin_add_fin]
            obtain ⟨m0, hm0⟩ := exists_nat_gt ((a' + ρ - (a - ρ + 0)) / (env.sqrt 3 * ρ))
            obtain ⟨m1, hm1⟩ := exists_nat_gt
              ((a' + ρ - (a - ρ + env.sqrt 3 * ρ / 2)) / (env.sqrt 3 * ρ))
            obtain ⟨n, hn⟩ := exists_nat_gt ((c' + ρ - (c - ρ)) / (3 / 2 * ρ))
            rw [div_lt_iff₀ hdx] at hm0 hm1
            rw [div_lt_iff₀ hdy] at hn
            refine ⟨n + max m0 m1, fun fuel hfuel => ?_⟩
            have hrow := rowLoop_terminates env (getUTMEPSG env centerCoords.2 centerCoords.1)
              polygon (.fin ρ) threshold minUTM maxUTM (env.sqrt 3 * ρ) (3 / 2 * ρ) (a' + ρ)
              (c' + ρ) (a - ρ + 0) (a - ρ + env.sqrt 3 * ρ / 2)
              (by rw [ha', fin_add_fin]) (by rw [hc', fin_add_fin]) hx0 hx1 (max m0 m1)
              (lt_of_lt_of_le hm0 (by gcongr; exact le_max_left _ _))
              (lt_of_lt_of_le hm1 (by gcongr; exact le_max_right _ _))
              n fuel (c - ρ)
              { rowPoints := [], removedPoints := [], totalPoints := 0,
                y := minUTM.2 - .fin ρ, row := 0 }
              (by simp only [hc, fin_sub_fin]) hn hfuel
            simp only [hexGridFinalState, h1, h2, h3, h4, h5, h6, mathSqrt_three, fin_mul_fin,
              Bool.not_true, Bool.false_eq_true, if_false]
            exact hrow


/-! ### The lattice loops with rounded arithmetic -/

theorem rounded_id (x : JSNum) : x.rounded id = x := by
  cases x <;> rfl

/-- Without rounding `getUTMEPSG` with rounded arithmetic is `getUTMEPSG`. -/
theorem getUTMEPSGRounded_id (env : Env) (latitude longitude : JSNum) :
    getUTMEPSGRounded id env latitude longitude = getUTMEPSG env latitude longitude := by
  simp only [getUTMEPSGRounded, getUTMZoneRounded, getUTMEPSG, getUTMZone, rounded_id]

/-- Without rounding the overlap test with rounded arithmetic is the overlap test. -/
theorem coversEnoughRounded_id (env : Env) (polygon : Feature) (r threshold : JSNum)
    (point : Position) :
    coversEnoughRounded id env polygon r threshold point =
      coversEnough env polygon r threshold point := by
  simp only [coversEnoughRounded, coversEnough, rounded_id]

/-- Without rounding the loop body with rounded arithmetic is the loop body. -/
theorem evaluateCandidateRounded_id (env : Env) (utmEPSG : String) (polygon : Feature)
    (r threshold x y : JSNum) :
    evaluateCandidateRounded id env utmEPSG polygon r threshold x y =
      evaluateCandidate env utmEPSG polygon r threshold x y := by
  simp only [evaluateCandidateRounded, evaluateCandidate, coversEnoughRounded_id]

/-- Without rounding the inner loop with rounded arithmetic is the inner loop. -/
theorem columnLoopRounded_id (env : Env) (utmEPSG : String) (polygon : Feature)
    (r threshold dx maxX y : JSNum) (fuel : Nat) (x : JSNum) (st : RowState) :
    columnLoopRounded id env utmEPSG polygon r threshold dx maxX y fuel x st =
      columnLoop env utmEPSG polygon r threshold dx maxX y fuel x st := by
  induction fuel generalizing x st with
  | zero =>
    rw [columnLoopRounded, columnLoop]
    simp only [rounded_id]
  | succ fuel ih =>
    rw [columnLoopRounded, columnLoop]
    simp only [rounded_id, ih, evaluateCandidateRounded_id]

/-- Without rounding the outer loop with rounded arithmetic is the outer loop. -/
theorem rowLoopRounded_id (env : Env) (utmEPSG : String) (polygon : Feature)
    (r threshold dx dy : JSNum) (minUTM maxUTM : Position) (fuel : Nat) (st : GridState) :
    rowLoopRounded id env utmEPSG polygon r threshold dx dy minUTM maxUTM fuel st =
      rowLoop env utmEPSG polygon r threshold dx dy minUTM maxUTM fuel st := by
  induction fuel generalizing st with
  | zero =>
    rw [rowLoopRounded, rowLoop]
    simp only [rounded_id]
  | succ fuel ih =>
    rw [rowLoopRounded, rowLoop]
    simp only [rounded_id, rowStartXRounded, columnLoopRounded_id, ih]

/-- Without rounding the generator with rounded arithmetic is the generator. -/
theorem hexGridFinalStateRounded_id (env : Env) (fuel : Nat) (polygonCoords : List GeoPoint)
    (r threshold : JSNum) :
    hexGridFinalStateRounded id env fuel polygonCoords r threshold =
      hexGridFinalState env fuel polygonCoords r threshold := by
  unfold hexGridFinalStateRounded hexGridFinalState
  simp only [rounded_id, rowLoopRounded_id, getUTMEPSGRounded_id]

/-- When the addition `x + dx` gives `x` back, the inner loop started at `x` within the bound
does not return, whatever the number of iterations allowed. -/
theorem columnLoopRounded_absorbed (rnd : ℚ → ℚ) (env : Env) (utmEPSG : String)
    (polygon : Feature) (r threshold dx maxX y x : JSNum)
    (hx : x.le ((maxX + r).rounded rnd) = true) (habs : (x + dx).rounded rnd = x)
    (hev : ∃ p keep,
      evaluateCandidateRounded rnd env utmEPSG polygon r threshold x y = .ok (p, keep))
    (fuel : Nat) (st : RowState) :
    columnLoopRounded rnd env utmEPSG polygon r threshold dx maxX y fuel x st = none := by
  induction fuel generalizing st with
  | zero =>
    rw [columnLoopRounded]
    simp only [hx, if_true]
  | succ fuel ih =>
    obtain ⟨p, keep, hp⟩ := hev
    rw [columnLoopRounded]
    simp only [hx, if_true, hp, habs]
    cases keep
    · exact ih _
    · exact ih _

/-- When the first abscissa of the first row absorbs the step `dx`, the generator with rounded
arithmetic does not return. -/
theorem hexGridFinalStateRounded_absorbed (rnd : ℚ → ℚ) (env : Env)
    (polygonCoords : List GeoPoint) (r threshold : JSNum) (polygon : Feature)
    (bbox : JSNum × JSNum × JSNum × JSNum) (centerCoords minUTM maxUTM : Position)
    (h1 : createTurfPolygon env polygonCoords = .ok polygon) (h2 : env.bbox polygon = .ok bbox)
    (h3 : bboxValid bbox = true) (h4 : env.centroid polygon = .ok centerCoords)
    (h5 : env.proj4 "WGS84" (getUTMEPSGRounded rnd env centerCoords.2 centerCoords.1)
      (bbox.1, bbox.2.1) = .ok minUTM)
    (h6 : env.proj4 "WGS84" (getUTMEPSGRounded rnd env centerCoords.2 centerCoords.1)
      (bbox.2.2.1, bbox.2.2.2) = .ok maxUTM)
    (hy : ((minUTM.2 - r).rounded rnd).le ((maxUTM.2 + r).rounded rnd) = true)
    (hx : (rowStartXRounded rnd minUTM r ((env.mathSqrt 3 * r).rounded rnd) 0).le
      ((maxUTM.1 + r).rounded rnd) = true)
    (habs : (rowStartXRounded rnd minUTM r ((env.mathSqrt 3 * r).rounded rnd) 0 +
      (env.mathSqrt 3 * r).rounded rnd).rounded rnd =
        rowStartXRounded rnd minUTM r ((env.mathSqrt 3 * r).rounded rnd) 0)
    (hev : ∃ p keep, evaluateCandidateRounded rnd env
      (getUTMEPSGRounded rnd env centerCoords.2 centerCoords.1) polygon r threshold
      (rowStartXRounded rnd minUTM r ((env.mathSqrt 3 * r).rounded rnd) 0)
      ((minUTM.2 - r).rounded rnd) = .ok (p, keep))
    (fuel : Nat) :
    hexGridFinalStateRounded rnd env fuel polygonCoords r threshold = none := by
  simp only [hexGridFinalStateRounded, h1, h2, h3, h4, h5, h6, Bool.not_true,
    Bool.false_eq_true, if_false]
  cases fuel with
  | zero =>
    rw [rowLoopRounded]
    simp only [hy, if_true]
  | succ fuel =>
    rw [rowLoopRounded]
    simp only [hy, if_true]
    rw [columnLoopRounded_absorbed rnd env _ polygon r threshold _ maxUTM.1 _ _ hx habs hev]

/-- Claim C24, counterexample. In binary64 arithmetic, for `remoteRectangle` and the pitch
`2^-60`, the inner loop starts at `x = 16 - r = 16`, the step `dx` is below half the spacing of
binary64 numbers at 16, so that `x + dx` is 16 again, the bound `maxUTM[0] + r` is 26, and the
generator does not return, whatever the number of loop iterations allowed. -/
theorem tinyPitch_column_loop_runs_forever :
    (JSNum.fin 16 - tinyPitch).rounded roundBinary64 = .fin 16 ∧
      (JSNum.fin 16 + (rectEnv.mathSqrt 3 * tinyPitch).rounded roundBinary64).rounded
        roundBinary64 = .fin 16 ∧
      (JSNum.fin 26 + tinyPitch).rounded roundBinary64 = .fin 26 ∧
      ∀ fuel, hexGridFinalStateRounded roundBinary64 rectEnv fuel
        (remoteRectangle.map Coord.toGeoPoint) tinyPitch (.fin (1 / 10)) = none :=
  ⟨by decide!, by decide!, by decide!, fun fuel =>
    hexGridFinalStateRounded_absorbed roundBinary64 rectEnv
      (remoteRectangle.map Coord.toGeoPoint) tinyPitch (.fin (1 / 10)) remotePolygon
      (.fin 16, .fin 16, .fin 26, .fin 30) (.fin 16, .fin 16) (.fin 16, .fin 16)
      (.fin 26, .fin 30) (by decide!) (by decide!) (by decide!) (by decide!) (by decide!)
      (by decide!) (by decide!) (by decide!) (by decide!)
      ⟨(.fin 16, .fin 16), true, by decide!⟩ fuel⟩

/-- Claim C24. In exact arithmetic, for every pitch `r > 0`, a positive `Math.sqrt(3)` and a
projection that maps finite coordinates to finite coordinates, the function
`generateHexGridWithBufferAndFilter` terminates: there is a number of loop iterations within
which the inner and the outer loop have both ended, so that with this many iterations or more
allowed the function returns (or throws). The same holds for the generator with rounded
arithmetic when nothing is rounded. -/
theorem generateHexGrid_terminates_exact (env : Env) (polygonCoords : List GeoPoint) (ρ : ℚ)
    (threshold : JSNum) (hρ : 0 < ρ) (hsqrt : 0 < env.sqrt 3)
    (hfin : ∀ code p q, env.proj4 "WGS84" code p = .ok q → p.1.isFinite = true →
      p.2.isFinite = true → q.1.isFinite = true ∧ q.2.isFinite = true) :
    ∃ N, ∀ fuel, N ≤ fuel →
      (∃ res, generateHexGridWithBufferAndFilter env fuel polygonCoords (.fin ρ) threshold =
        some res) ∧
      ∃ res, hexGridFinalStateRounded id env fuel polygonCoords (.fin ρ) threshold =
        some res := by
  obtain ⟨N, hN⟩ := hexGridFinalState_terminates env polygonCoords ρ threshold hρ hsqrt hfin
  refine ⟨N, fun fuel hfuel => ?_⟩
  have h := hN fuel hfuel
  rw [hexGridFinalStateRounded_id]
  cases hst : hexGridFinalState env fuel polygonCoords (.fin ρ) threshold with
  | none => exact absurd hst h
  | some res =>
    refine ⟨?_, res, rfl⟩
    unfold generateHexGridWithBufferAndFilter
    rw [hst]
    cases res with
    | error e => exact ⟨_, rfl⟩
    | ok st => exact ⟨_, rfl⟩

/-- C24 at `tallRectangle` and the pitch 3. -/
theorem generateHexGrid_terminates_exact_witness :
    (0 : ℚ) < 3 ∧ 0 < rectEnv.sqrt 3 ∧
      generateHexGridWithBufferAndFilter rectEnv 10 (tallRectangle.map Coord.toGeoPoint) (.fin 3)
        (.fin (1 / 10)) = some (.ok (tallRows, tallRemoved)) ∧
      ∃ N, ∀ fuel, N ≤ fuel →
        (∃ res, generateHexGridWithBufferAndFilter rectEnv fuel
          (tallRectangle.map Coord.toGeoPoint) (.fin 3) (.fin (1 / 10)) = some res) ∧
        ∃ res, hexGridFinalStateRounded id rectEnv fuel (tallRectangle.map Coord.toGeoPoint)
          (.fin 3) (.fin (1 / 10)) = some res :=
  ⟨by norm_num, by decide!, by decide!,
   generateHexGrid_terminates_exact rectEnv (tallRectangle.map Coord.toGeoPoint) 3
     (.fin (1 / 10)) (by norm_num) (by decide!)
     (fun _ p q hpq hp1 hp2 => by
       simp only [rectEnv, Except.ok.injEq] at hpq
       rw [← hpq]
       exact ⟨hp1, hp2⟩)⟩


/-! ### The candidates of the lattice -/

theorem specCount_stop (start step bound : ℚ) (h : ¬ start ≤ bound) :
    specCount start step bound = 0 := by
  simp [specCount, h]

theorem specCount_step (start step bound : ℚ) (hstep : 0 < step) (h : start ≤ bound) :
    specCount start step bound = specCount (start + step) step bound + 1 := by
  unfold specCount
  rw [if_pos h]
  by_cases h' : start + step ≤ bound
  · rw [if_pos h']
    have heq : (bound - start) / step = (bound - (start + step)) / step + 1 := by
      field_simp
      ring
    have hnn : 0 ≤ ⌊(bound - (start + step)) / step⌋ :=
      Int.floor_nonneg.2 (div_nonneg (by linarith) hstep.le)
    rw [heq, Int.floor_add_one, Int.toNat_add hnn (by norm_num)]
    rfl
  · rw [if_neg h']
    have hfl : ⌊(bound - start) / step⌋ = 0 := by
      rw [Int.floor_eq_iff]
      constructor
      · simp only [Int.cast_zero]
        exact div_nonneg (by linarith) hstep.le
      · simp only [Int.cast_zero, zero_add]
        rw [div_lt_one hstep]
        linarith
    rw [hfl]
    rfl

theorem specRange_step (n : Nat) (start step y : ℚ) :
    (List.range (n + 1)).map (fun (j : Nat) => (start + (j : ℚ) * step, y)) =
      (start, y) :: (List.range n).map (fun (j : Nat) => (start + step + (j : ℚ) * step, y)) := by
  rw [List.range_succ_eq_map]
  simp only [List.map_cons, List.map_map, Nat.cast_zero, zero_mul, add_zero]
  congr 1
  apply List.map_congr_left
  intro j _
  simp only [Function.comp, Nat.cast_succ, Prod.mk.injEq, and_true]
  ring

/-- The inner loop, when it ends, has run its body on the abscissas `x + j * dx` for
`j = 0, 1, ...` while the abscissa is at most the bound. -/
theorem columnLoop_eq_evaluateRow (env : Env) (utmEPSG : String) (polygon : Feature)
    (r threshold maxX : JSNum) (dxq b yq : ℚ) (hdx : 0 < dxq) (hb : maxX + r = .fin b)
    (fuel : Nat) (xq : ℚ) (st : RowState) (res : Except JSError RowState)
    (h : columnLoop env utmEPSG polygon r threshold (.fin dxq) maxX (.fin yq) fuel (.fin xq)
      st = some res) :
    res = evaluateRow env utmEPSG polygon r threshold
      ((List.range (specCount xq dxq b)).map (fun (j : Nat) => (xq + (j : ℚ) * dxq, yq))) st := by
  induction fuel generalizing xq st with
  | zero =>
    by_cases hx : (JSNum.fin xq).le (maxX + r) = true
    · rw [columnLoop.eq_def] at h
      simp only [hx, if_true] at h
      cases h
    · rw [columnLoop.eq_def] at h
      simp only [hx] at h
      cases h
      rw [hb] at hx
      simp only [JSNum.le, decide_eq_true_eq] at hx
      rw [specCount_stop _ _ _ hx]
      rfl
  | succ fuel ih =>
    by_cases hx : (JSNum.fin xq).le (maxX + r) = true
    · rw [columnLoop_step env utmEPSG polygon r threshold (.fin dxq) maxX (.fin yq) fuel
        (.fin xq) st hx] at h
      have hle : xq ≤ b := by
        rw [hb] at hx
        simpa only [JSNum.le, decide_eq_true_eq] using hx
      rw [specCount_step _ _ _ hdx hle, specRange_step, evaluateRow]
      split at h
      · rename_i e he
        cases h
        simp only [he]
      · rename_i p he
        simp only [he]
        rw [fin_add_fin] at h
        exact ih _ _ h
      · rename_i p he
        simp only [he]
        rw [fin_add_fin] at h
        exact ih _ _ h
    · rw [columnLoop.eq_def] at h
      simp only [hx] at h
      cases h
      rw [hb] at hx
      simp only [JSNum.le, decide_eq_true_eq] at hx
      rw [specCount_stop _ _ _ hx]
      rfl


theorem rowStartX_fin (minX ρ dxq : ℚ) (my : JSNum) (k : Nat) :
    rowStartX (.fin minX, my) (.fin ρ) (.fin dxq) k = .fin (minX - ρ + specOffset dxq k) := by
  have h2 : (2 : JSNum) = JSNum.fin 2 := by
    show JSNum.fin ((2 : ℕ) : ℚ) = _
    norm_num
  by_cases hk : k % 2 = 1
  · simp only [rowStartX, specOffset, hk, if_true, h2, fin_sub_fin]
    rw [fin_div_fin _ _ (by norm_num), fin_add_fin]
  · simp only [rowStartX, specOffset, hk, if_false, jsnum_zero, fin_sub_fin, fin_add_fin]

/-- The outer loop, when it ends, has run its body on the lattice rows of northings
`y + i * dy` for `i = 0, 1, ...` while the northing is at most the bound, each row on the
candidates of the specification, up to the row after which the counter is above 500. -/
theorem rowLoop_eq_evaluateLattice (env : Env) (utmEPSG : String) (polygon : Feature)
    (threshold my : JSNum) (ρ dxq dyq minX maxX maxY : ℚ) (hdx : 0 < dxq) (hdy : 0 < dyq)
    (fuel : Nat) (st : GridState) (yq : ℚ) (hy : st.y = .fin yq)
    (res : Except JSError GridState)
    (h : rowLoop env utmEPSG polygon (.fin ρ) threshold (.fin dxq) (.fin dyq) (.fin minX, my)
      (.fin maxX, .fin maxY) fuel st = some res) :
    res.map GridState.summary = evaluateLattice env utmEPSG polygon (.fin ρ) threshold
      ((List.range (specCount yq dyq (maxY + ρ))).map
        (fun (i : Nat) => specRowCandidates minX maxX ρ dxq (yq + (i : ℚ) * dyq) (st.row + i)))
      st.summary := by
  induction fuel generalizing st yq with
  | zero =>
    by_cases hle : st.y.le ((JSNum.fin maxX, JSNum.fin maxY).2 + JSNum.fin ρ) = true
    · rw [rowLoop.eq_def] at h
      simp only [hle, if_true] at h
      cases h
    · rw [rowLoop.eq_def] at h
      simp only [hle] at h
      cases h
      rw [hy, fin_add_fin] at hle
      simp only [JSNum.le, decide_eq_true_eq] at hle
      rw [specCount_stop _ _ _ hle]
      rfl
  | succ fuel ih =>
    by_cases hle : st.y.le ((JSNum.fin maxX, JSNum.fin maxY).2 + JSNum.fin ρ) = true
    · have hle' : yq ≤ maxY + ρ := by
        rw [hy, fin_add_fin] at hle
        simpa only [JSNum.le, decide_eq_true_eq] using hle
      rw [specCount_step _ _ _ hdy hle', List.range_succ_eq_map]
      simp only [List.map_cons, List.map_map, Nat.cast_zero, zero_mul, add_zero]
      rw [evaluateLattice]
      cases hin : columnLoop env utmEPSG polygon (.fin ρ) threshold (.fin dxq)
          (JSNum.fin maxX, JSNum.fin maxY).1 st.y (fuel + 1)
          (rowStartX (.fin minX, my) (.fin ρ) (.fin dxq) st.row)
          { currentRow := [], removedPoints := st.removedPoints,
            totalPoints := st.totalPoints } with
      | none =>
        rw [rowLoop] at h
        simp only [hle, if_true] at h
        unfold rowStartX at hin
        rw [hin] at h
        cases h
      | some inner =>
        have hrow := hin
        rw [hy, rowStartX_fin] at hrow
        have hcol := columnLoop_eq_evaluateRow env utmEPSG polygon (.fin ρ) threshold
          (.fin maxX) dxq (maxX + ρ) yq hdx (fin_add_fin _ _) (fuel + 1) _ _ inner hrow
        have hcand : evaluateRow env utmEPSG polygon (.fin ρ) threshold
            (specRowCandidates minX maxX ρ dxq yq st.row)
            { currentRow := [], removedPoints := st.summary.2.1,
              totalPoints := st.summary.2.2 } = inner := by
          rw [hcol]
          rfl
        rw [hcand]
        cases inner with
        | error e =>
          rw [rowLoop] at h
          simp only [hle, if_true] at h
          unfold rowStartX at hin
          rw [hin] at h
          cases h
          rfl
        | ok inner =>
          rw [rowLoop_step env utmEPSG polygon (.fin ρ) threshold (.fin dxq) (.fin dyq)
            (.fin minX, my) (.fin maxX, .fin maxY) fuel st inner hle hin] at h
          simp only
          by_cases hcap : inner.totalPoints > 500
          · rw [if_pos hcap] at h
            rw [if_pos hcap]
            cases h
            rfl
          · rw [if_neg hcap] at h
            rw [if_neg hcap]
            have hnext := ih (st.afterRow inner (.fin dyq)) (yq + dyq)
              (by simp only [GridState.afterRow, hy, fin_add_fin]) h
            rw [hnext]
            congr 1
            apply List.map_congr_left
            intro i _
            simp only [Function.comp, GridState.afterRow, Nat.cast_succ]
            congr 1
            · ring
            · omega
    · rw [rowLoop.eq_def] at h
      simp only [hle] at h
      cases h
      rw [hy, fin_add_fin] at hle
      simp only [JSNum.le, decide_eq_true_eq] at hle
      rw [specCount_stop _ _ _ hle]
      rfl


/-- In exact arithmetic, for a pitch `r > 0`, a positive `Math.sqrt(3)` and a projected
bounding box `(minX, minY)-(maxX, maxY)` of finite numbers, a result of
`generateHexGridWithBufferAndFilter` is the result of running the loop body on the lattice of
the closed form, row by row up to the row after which the counter is above 500: the row `k`
holds the planar points `(minX - r + o_k + j * dx, minY - r + k * dy)` for `j = 0, 1, ...` while
the abscissa is at most `maxX + r`, for `k = 0, 1, ...` while the northing is at most
`maxY + r`. -/
theorem generateHexGrid_candidates_are_lattice (env : Env) (fuel : Nat)
    (polygonCoords : List GeoPoint) (ρ : ℚ) (threshold : JSNum)
    (rowPoints : List (List Position)) (removedPoints : List Position) (hρ : 0 < ρ)
    (hsqrt : 0 < env.sqrt 3)
    (hfin : ∀ code p q, env.proj4 "WGS84" code p = .ok q → p.1.isFinite = true →
      p.2.isFinite = true → q.1.isFinite = true ∧ q.2.isFinite = true)
    (h : generateHexGridWithBufferAndFilter env fuel polygonCoords (.fin ρ) threshold =
      some (.ok (rowPoints, removedPoints))) :
    ∃ polygon bbox utmEPSG minX minY maxX maxY totalPoints,
      createTurfPolygon env polygonCoords = .ok polygon ∧ env.bbox polygon = .ok bbox ∧
      env.proj4 "WGS84" utmEPSG (bbox.1, bbox.2.1) = .ok (.fin minX, .fin minY) ∧
      env.proj4 "WGS84" utmEPSG (bbox.2.2.1, bbox.2.2.2) = .ok (.fin maxX, .fin maxY) ∧
      evaluateLattice env utmEPSG polygon (.fin ρ) threshold
        (specLattice minX minY maxX maxY ρ (env.sqrt 3 * ρ) (3 / 2 * ρ)) ([], [], 0) =
          .ok (rowPoints, removedPoints, totalPoints) := by
  unfold generateHexGridWithBufferAndFilter at h
  split at h
  · cases h
  · cases h
  · rename_i st hst
    cases h
    unfold hexGridFinalState at hst
    split at hst
    · cases hst
    · rename_i polygon h1
      split at hst
      · cases hst
      · rename_i bbox h2
        split at hst
        · cases hst
        · rename_i h3
          split at hst
          · cases hst
          · rename_i centerCoords h4
            simp only at hst
            split at hst
            · cases hst
            · rename_i minUTM h5
              split at hst
              · cases hst
              · rename_i maxUTM h6
                have hv : bbox.1.isFinite = true ∧ bbox.2.1.isFinite = true ∧
                    bbox.2.2.1.isFinite = true ∧ bbox.2.2.2.isFinite = true := by
                  simp [bboxValid] at h3
                  exact ⟨h3.1.2, h3.2.1.2, h3.2.2.1.2, h3.2.2.2.2⟩
                obtain ⟨hmin1, hmin2⟩ := hfin _ _ _ h5 hv.1 hv.2.1
                obtain ⟨hmax1, hmax2⟩ := hfin _ _ _ h6 hv.2.2.1 hv.2.2.2
                obtain ⟨minX, hminX⟩ := (isFinite_iff _).1 hmin1
                obtain ⟨minY, hminY⟩ := (isFinite_iff _).1 hmin2
                obtain ⟨maxX, hmaxX⟩ := (isFinite_iff _).1 hmax1
                obtain ⟨maxY, hmaxY⟩ := (isFinite_iff _).1 hmax2
                have hmin : minUTM = (.fin minX, .fin minY) := Prod.ext hminX hminY
                have hmax : maxUTM = (.fin maxX, .fin maxY) := Prod.ext hmaxX hmaxY
                subst hmin hmax
                rw [mathSqrt_three, fin_mul_fin, fin_mul_fin] at hst
                have hrun := rowLoop_eq_evaluateLattice env _ polygon threshold (.fin minY) ρ
                  (env.sqrt 3 * ρ) (3 / 2 * ρ) minX maxX maxY (mul_pos hsqrt hρ)
                  (by positivity) fuel _ (minY - ρ) (by simp only [fin_sub_fin]) _ hst
                refine ⟨polygon, bbox, _, minX, minY, maxX, maxY, st.totalPoints, h1, h2, h5,
                  h6, ?_⟩
                simp only [Nat.zero_add] at hrun
                exact hrun.symm


/-! ### The arrays as mutable objects -/

theorem heap_update_alloc (h : Heap) (obj : ArrayObject) (f : ArrayObject → ArrayObject) :
    Heap.update (h ++ [obj]) h.length f = h ++ [f obj] := by
  simp [Heap.update]

theorem heap_get_append_left (h extra : Heap) (addr : Nat) (ha : addr < h.length) :
    (h ++ extra)[addr]? = h[addr]? :=
  List.getElem?_append_left ha

theorem positions_append_left (h extra : Heap) (addr : Nat) (ha : addr < h.length) :
    Heap.positions (h ++ extra) addr = Heap.positions h addr := by
  simp only [Heap.positions, heap_get_append_left h extra addr ha]

theorem geoPoints_append_left (h extra : Heap) (addr : Nat) (ha : addr < h.length) :
    Heap.geoPoints (h ++ extra) addr = Heap.geoPoints h addr := by
  simp only [Heap.geoPoints, heap_get_append_left h extra addr ha]

theorem refs_append_left (h extra : Heap) (addr : Nat) (ha : addr < h.length) :
    Heap.refs (h ++ extra) addr = Heap.refs h addr := by
  simp only [Heap.refs, heap_get_append_left h extra addr ha]

theorem positions_alloc (h : Heap) (entries : List Position) :
    Heap.positions (h ++ [.positions entries]) h.length = entries := by
  simp [Heap.positions]

theorem geoPoints_alloc (h : Heap) (entries : List GeoPoint) :
    Heap.geoPoints (h ++ [.geoPoints entries]) h.length = entries := by
  simp [Heap.geoPoints]

theorem refs_alloc (h : Heap) (entries : List Nat) :
    Heap.refs (h ++ [.refs entries]) h.length = entries := by
  simp [Heap.refs]

theorem copySorted_eq (h : Heap) (row : Nat) :
    copySorted h row = (h ++ [.positions (sortByLng (h.positions row))], h.length) := by
  simp only [copySorted, Heap.alloc, heap_update_alloc, ArrayObject.sort]

theorem copyReversed_eq (h : Heap) (points : Nat) (n : Option Nat) :
    copyReversed h points n =
      (h ++ [.positions (match n with
        | some n => (h.positions points).take n
        | none => h.positions points).reverse], h.length) := by
  simp only [copyReversed, Heap.alloc, heap_update_alloc, ArrayObject.reverse]



theorem createTurfPolygonHeap_spec (env : Env) (h : Heap) (coordinates : Nat) :
    ∃ extra, createTurfPolygonHeap env h coordinates =
      (h ++ extra, createTurfPolygon env (h.geoPoints coordinates)) := by
  simp only [createTurfPolygonHeap, Heap.alloc, positions_alloc, createTurfPolygon, closeRing]
  split
  · rename_i firstCoord lastCoord hfirst hlast
    by_cases hc : (firstCoord.1.strictNe lastCoord.1 || firstCoord.2.strictNe lastCoord.2) = true
    · refine ⟨[.positions ((h.geoPoints coordinates).map (fun coord => (coord.lon, coord.lat)) ++
        [(firstCoord.1, firstCoord.2)])], ?_⟩
      simp only [hc, if_true, heap_update_alloc, ArrayObject.push, positions_alloc]
    · refine ⟨[.positions ((h.geoPoints coordinates).map (fun coord => (coord.lon, coord.lat)))],
        ?_⟩
      simp only [hc, Bool.false_eq_true, if_false, positions_alloc]
  · exact ⟨_, rfl⟩

theorem map_positions_append (h extra : Heap) (addrs : List Nat)
    (haddrs : ∀ a ∈ addrs, a < h.length) :
    addrs.map (Heap.positions (h ++ extra)) = addrs.map (Heap.positions h) := by
  apply List.map_congr_left
  intro a ha
  exact positions_append_left h extra a (haddrs a ha)

/-- The callback of `normalRows.forEach` on the heap allocates and leaves the objects it found
as they were, and it updates the path as `processNormalRow` does on the entries of the row. -/
theorem processNormalRowHeap_spec (h : Heap) (st : PathState) (idx row : Nat) :
    ∃ extra, processNormalRowHeap h st idx row =
      (h ++ extra, processNormalRow st idx (h.positions row)) := by
  unfold processNormalRowHeap processNormalRow
  by_cases hlen : (h.positions row).length = 0
  · exact ⟨[], by simp only [hlen, if_true, List.append_nil]⟩
  · simp only [hlen, if_false, copySorted_eq, Heap.alloc, positions_alloc]
    by_cases hidx : idx % 2 = 0
    · refine ⟨[.positions (sortByLng (h.positions row)),
        .positions ((sortByLng (h.positions row)).drop 1)], ?_⟩
      simp only [hidx, if_true, positions_alloc]
      simp only [List.append_assoc, List.singleton_append]
    · refine ⟨[.positions (sortByLng (h.positions row)),
        .positions ((sortByLng (h.positions row)).drop 1),
        .positions ((sortByLng (h.positions row)).drop 1).reverse], ?_⟩
      simp only [hidx, if_false, copyReversed_eq, positions_alloc]
      simp only [List.append_assoc, List.singleton_append]
      rfl

/-- The loop `normalRows.forEach(...)` on the heap allocates and leaves the objects it found as
they were; when the rows are objects of the heap, it updates the path as `processNormalRows`
does on the entries of the rows. -/
theorem processNormalRowsHeap_spec (rows : List Nat) (h : Heap) (st : PathState) (idx : Nat) :
    ∃ extra, (processNormalRowsHeap h st idx rows).1 = h ++ extra ∧
      ((∀ a ∈ rows, a < h.length) →
        (processNormalRowsHeap h st idx rows).2 =
          processNormalRows st idx (rows.map h.positions)) := by
  induction rows generalizing h st idx with
  | nil => exact ⟨[], by simp [processNormalRowsHeap], fun _ => rfl⟩
  | cons row rows ih =>
    obtain ⟨extra1, h1⟩ := processNormalRowHeap_spec h st idx row
    obtain ⟨extra2, h2, h3⟩ := ih (h ++ extra1) (processNormalRow st idx (h.positions row))
      (idx + 1)
    refine ⟨extra1 ++ extra2, ?_, ?_⟩
    · simp only [processNormalRowsHeap, h1, h2, List.append_assoc]
    · intro hrows
      simp only [processNormalRowsHeap, h1, List.map_cons, processNormalRows]
      rw [h3 (fun a ha => by
        have := hrows a (List.mem_cons_of_mem _ ha)
        simp only [List.length_append]
        omega)]
      rw [map_positions_append h extra1 rows (fun a ha => hrows a (List.mem_cons_of_mem _ ha))]

/-- The array `interleaved` on the heap: the heap only grows, and the array is the one
`interleave` builds from the entries. -/
theorem interleaveHeap_spec (h : Heap) (main1 main2 : Nat) :
    ∃ extra, interleaveHeap h main1 main2 =
      (h ++ extra, interleave (h.positions main1) (h.positions main2)) := by
  unfold interleaveHeap interleave
  simp only [copyReversed_eq, positions_alloc]
  split
  · exact ⟨_, rfl⟩
  · split
    · exact ⟨_, rfl⟩
    · exact ⟨[], by simp⟩

theorem getD_mem_of_lt (rows : List Nat) (i : Nat) (hi : i < rows.length) :
    rows.getD i 0 ∈ rows := by
  rw [List.getD_eq_getElem _ _ hi]
  exact List.getElem_mem hi

theorem getD_map_positions (h : Heap) (rows : List Nat) (i : Nat) (hi : i < rows.length) :
    (rows.map h.positions).getD i [] = h.positions (rows.getD i 0) := by
  rw [List.getD_eq_getElem _ _ (by simpa using hi), List.getD_eq_getElem _ _ hi]
  simp


theorem positions_alloc_append (h extra : Heap) (entries : List Position) :
    Heap.positions (h ++ [.positions entries] ++ extra) h.length = entries := by
  rw [positions_append_left _ _ _ (by simp), positions_alloc]

theorem createTurfPolygonHeap_frame (env : Env) (h : Heap) (coordinates : Nat) :
    h <+: (createTurfPolygonHeap env h coordinates).1 := by
  obtain ⟨extra, hx⟩ := createTurfPolygonHeap_spec env h coordinates
  rw [hx]
  exact ⟨_, rfl⟩

theorem createTurfPolygonHeap_value (env : Env) (h : Heap) (coordinates : Nat) :
    (createTurfPolygonHeap env h coordinates).2 =
      createTurfPolygon env (h.geoPoints coordinates) := by
  obtain ⟨extra, hx⟩ := createTurfPolygonHeap_spec env h coordinates
  rw [hx]

theorem processNormalRowsHeap_frame (rows : List Nat) (h : Heap) (st : PathState) (idx : Nat) :
    h <+: (processNormalRowsHeap h st idx rows).1 := by
  obtain ⟨extra, hx, _⟩ := processNormalRowsHeap_spec rows h st idx
  rw [hx]
  exact ⟨_, rfl⟩

theorem processNormalRowsHeap_value (rows : List Nat) (h : Heap) (st : PathState) (idx : Nat)
    (hrows : ∀ a ∈ rows, a < h.length) :
    (processNormalRowsHeap h st idx rows).2 =
      processNormalRows st idx (rows.map h.positions) := by
  obtain ⟨extra, _, hx⟩ := processNormalRowsHeap_spec rows h st idx
  exact hx hrows

theorem interleaveHeap_frame (h : Heap) (main1 main2 : Nat) :
    h <+: (interleaveHeap h main1 main2).1 := by
  obtain ⟨extra, hx⟩ := interleaveHeap_spec h main1 main2
  rw [hx]
  exact ⟨_, rfl⟩

theorem interleaveHeap_value (h : Heap) (main1 main2 : Nat) :
    (interleaveHeap h main1 main2).2 = interleave (h.positions main1) (h.positions main2) := by
  obtain ⟨extra, hx⟩ := interleaveHeap_spec h main1 main2
  rw [hx]

/-- The block of the last two rows on the heap allocates and leaves the objects it found as
they were. -/
theorem interleaveRowsHeap_frame (h : Heap) (st : PathState) (rowA rowB : Nat) :
    h <+: (interleaveRowsHeap h st rowA rowB).1 := by
  simp only [interleaveRowsHeap, copySorted_eq, Heap.alloc]
  refine List.IsPrefix.trans ?_ (interleaveHeap_frame _ _ _)
  simp only [List.append_assoc]
  exact ⟨_, rfl⟩

/-- When the second row is an object of the heap, the block of the last two rows on the heap
updates the path as the block does on the entries of the two rows. -/
theorem interleaveRowsHeap_value (h : Heap) (st : PathState) (rowA rowB : Nat)
    (hB : rowB < h.length) :
    (interleaveRowsHeap h st rowA rowB).2 =
      { optimizedPath := st.optimizedPath ++
          interleave ((sortByLng (h.positions rowA)).drop 1) (sortByLng (h.positions rowB)),
        skippedPoints := (sortByLng (h.positions rowA))[0]? :: st.skippedPoints } := by
  simp only [interleaveRowsHeap, copySorted_eq, Heap.alloc, positions_alloc_append,
    interleaveHeap_value, positions_alloc, positions_append_left h _ rowB hB]

/-- The function `optimizePathLayeredWithFinalInterleaved` on the heap allocates and leaves the
objects it found as they were: the array of rows and every row are as before. -/
theorem optimizePathHeap_frame (h : Heap) (rowPoints : Nat) :
    h <+: (optimizePathHeap h rowPoints).1 := by
  unfold optimizePathHeap
  dsimp only
  cases hI : (decide ((h.refs rowPoints).length % 2 = 1) &&
      decide ((h.refs rowPoints).length ≥ 2))
  · simp only [Bool.false_eq_true, if_false]
    exact processNormalRowsHeap_frame _ _ _ _
  · simp only [if_true, Heap.alloc]
    refine List.IsPrefix.trans ?_ (interleaveRowsHeap_frame _ _ _ _)
    exact List.IsPrefix.trans ⟨_, rfl⟩ (processNormalRowsHeap_frame _ _ _ _)

/-- When the rows are objects of the heap, the function
`optimizePathLayeredWithFinalInterleaved` on the heap returns what the function returns on the
entries of the rows. -/
theorem optimizePathHeap_value (h : Heap) (rowPoints : Nat)
    (hrows : ∀ a ∈ h.refs rowPoints, a < h.length) :
    (optimizePathHeap h rowPoints).2 =
      optimizePathLayeredWithFinalInterleaved ((h.refs rowPoints).map h.positions) := by
  unfold optimizePathHeap optimizePathLayeredWithFinalInterleaved
  dsimp only
  simp only [List.length_map]
  cases hI : (decide ((h.refs rowPoints).length % 2 = 1) &&
      decide ((h.refs rowPoints).length ≥ 2))
  · simp only [Bool.false_eq_true, if_false]
    rw [processNormalRowsHeap_value _ _ _ _ hrows]
  · have hlen : 3 ≤ (h.refs rowPoints).length := by
      simp only [ge_iff_le, Bool.and_eq_true, decide_eq_true_eq] at hI
      omega
    have hA := getD_mem_of_lt (h.refs rowPoints) ((h.refs rowPoints).length - 2) (by omega)
    have hB := getD_mem_of_lt (h.refs rowPoints) ((h.refs rowPoints).length - 1) (by omega)
    have htake : ∀ a ∈ (h.refs rowPoints).take ((h.refs rowPoints).length - 2),
        a < (h ++ [ArrayObject.refs
          ((h.refs rowPoints).take ((h.refs rowPoints).length - 2))]).length := by
      intro a ha
      have := hrows a (List.mem_of_mem_take ha)
      simp only [List.length_append, List.length_singleton]
      omega
    have hpre := processNormalRowsHeap_frame
      ((h.refs rowPoints).take ((h.refs rowPoints).length - 2))
      (h ++ [ArrayObject.refs ((h.refs rowPoints).take ((h.refs rowPoints).length - 2))])
      { optimizedPath := [], skippedPoints := [] } 0
    obtain ⟨extra, hextra⟩ := hpre
    have hread : ∀ a, a < h.length →
        Heap.positions (processNormalRowsHeap
          (h ++ [ArrayObject.refs ((h.refs rowPoints).take ((h.refs rowPoints).length - 2))])
          { optimizedPath := [], skippedPoints := [] } 0
          ((h.refs rowPoints).take ((h.refs rowPoints).length - 2))).1 a = h.positions a := by
      intro a ha
      rw [← hextra, List.append_assoc, positions_append_left h _ a ha]
    simp only [if_true, Heap.alloc, refs_alloc]
    rw [interleaveRowsHeap_value _ _ _ _ (by
      rw [← hextra]
      have := hrows _ hB
      simp only [List.length_append]
      omega)]
    rw [processNormalRowsHeap_value _ _ _ _ htake, hread _ (hrows _ hA), hread _ (hrows _ hB),
      map_positions_append h _ _ (fun a ha => hrows a (List.mem_of_mem_take ha)),
      getD_map_positions h _ _ (by omega), getD_map_positions h _ _ (by omega), List.map_take]

theorem hexGridFinalState_eq_fromPolygon (env : Env) (fuel : Nat) (polygonCoords : List GeoPoint)
    (r threshold : JSNum) :
    hexGridFinalState env fuel polygonCoords r threshold =
      match createTurfPolygon env polygonCoords with
      | .error e => some (.error e)
      | .ok polygon => hexGridFromPolygon env fuel polygon r threshold := by
  unfold hexGridFinalState hexGridFromPolygon
  rfl

theorem allocRows_spec (rows : List (List Position)) (h : Heap) :
    (allocRows h rows).1 = h ++ rows.map ArrayObject.positions ∧
      (∀ a ∈ (allocRows h rows).2, a < (allocRows h rows).1.length) ∧
      (allocRows h rows).2.map (Heap.positions (allocRows h rows).1) = rows := by
  induction rows generalizing h with
  | nil => simp [allocRows]
  | cons row rest ih =>
    obtain ⟨h1, h2, h3⟩ := ih (h ++ [.positions row])
    simp only [allocRows, Heap.alloc]
    refine ⟨?_, ?_, ?_⟩
    · rw [h1]
      simp
    · intro a ha
      rcases List.mem_cons.1 ha with rfl | ha
      · rw [h1]
        simp
      · exact h2 a ha
    · simp only [List.map_cons, h3]
      rw [h1, positions_alloc_append]

theorem refs_alloc_append (h extra : Heap) (entries : List Nat) :
    Heap.refs (h ++ [.refs entries] ++ extra) h.length = entries := by
  rw [refs_append_left _ _ _ (by simp), refs_alloc]

/-- The function `generateHexGridWithBufferAndFilter` on the heap allocates and leaves the
objects it found as they were. -/
theorem generateHexGridHeap_frame (env : Env) (fuel : Nat) (h : Heap) (polygonCoords : Nat)
    (r threshold : JSNum) (h' : Heap) (res : Except JSError (Nat × Nat))
    (hrun : generateHexGridHeap env fuel h polygonCoords r threshold = some (h', res)) :
    h <+: h' := by
  have hp := createTurfPolygonHeap_frame env h polygonCoords
  cases hc : createTurfPolygonHeap env h polygonCoords with
  | mk h1 pres =>
    rw [hc] at hp
    cases pres with
    | error e =>
      simp only [generateHexGridHeap, hc, Option.some.injEq, Prod.mk.injEq] at hrun
      rw [← hrun.1]
      exact hp
    | ok polygon =>
      simp only [generateHexGridHeap, hc] at hrun
      cases hg : hexGridFromPolygon env fuel polygon r threshold with
      | none =>
        rw [hg] at hrun
        cases hrun
      | some gres =>
        rw [hg] at hrun
        cases gres with
        | error e =>
          simp only [Option.some.injEq, Prod.mk.injEq] at hrun
          rw [← hrun.1]
          exact hp
        | ok st =>
          simp only [Heap.alloc, Option.some.injEq, Prod.mk.injEq] at hrun
          rw [← hrun.1, (allocRows_spec st.rowPoints h1).1]
          refine List.IsPrefix.trans hp ?_
          simp only [List.append_assoc]
          exact ⟨_, rfl⟩

/-- The function `generateHexGridWithBufferAndFilter` on the heap returns what the function
returns on the entries of its argument, the rows being objects of the heap after the call. -/
theorem generateHexGridHeap_value (env : Env) (fuel : Nat) (h : Heap) (polygonCoords : Nat)
    (r threshold : JSNum) :
    match generateHexGridHeap env fuel h polygonCoords r threshold with
    | none =>
      generateHexGridWithBufferAndFilter env fuel (h.geoPoints polygonCoords) r threshold = none
    | some (_, .error e) =>
      generateHexGridWithBufferAndFilter env fuel (h.geoPoints polygonCoords) r threshold =
        some (.error e)
    | some (h', .ok (rowPoints, removedPoints)) =>
      generateHexGridWithBufferAndFilter env fuel (h.geoPoints polygonCoords) r threshold =
          some (.ok ((h'.refs rowPoints).map h'.positions, h'.positions removedPoints)) ∧
        ∀ a ∈ h'.refs rowPoints, a < h'.length := by
  have hv := createTurfPolygonHeap_value env h polygonCoords
  unfold generateHexGridWithBufferAndFilter
  rw [hexGridFinalState_eq_fromPolygon]
  cases hc : createTurfPolygonHeap env h polygonCoords with
  | mk h1 pres =>
    rw [hc] at hv
    simp only at hv
    rw [← hv]
    cases pres with
    | error e => simp only [generateHexGridHeap, hc]
    | ok polygon =>
      simp only [generateHexGridHeap, hc]
      cases hg : hexGridFromPolygon env fuel polygon r threshold with
      | none => simp only
      | some gres =>
        cases gres with
        | error e => simp only
        | ok st =>
          obtain ⟨h1eq, h2, h3⟩ := allocRows_spec st.rowPoints h1
          simp only [Heap.alloc, refs_alloc_append, positions_alloc]
          refine ⟨?_, ?_⟩
          · rw [List.append_assoc, map_positions_append _ _ _ h2, h3]
          · intro a ha
            have := h2 a ha
            simp only [List.length_append]
            omega

/-- The function `calculateWaypoints` on the heap allocates and leaves the objects it found as
they were, whether it returns or throws. -/
theorem calculateWaypointsHeap_frame (env : Env) (fuel : Nat) (h : Heap)
    (polygonCoordinates : HeapArgument) (needCartesian : Bool) (h' : Heap)
    (res : Except JSError CoverageResult)
    (hrun : calculateWaypointsHeap env fuel h polygonCoordinates needCartesian =
      some (h', res)) :
    h <+: h' := by
  unfold calculateWaypointsHeap at hrun
  cases hval : validatePolygonCoordinates (polygonCoordinates.load h) with
  | error e =>
    simp only [hval, Option.some.injEq, Prod.mk.injEq] at hrun
    rw [← hrun.1]
  | ok b =>
    simp only [hval, Heap.alloc] at hrun
    have hp := createTurfPolygonHeap_frame env
      (h ++ [.geoPoints ((polygonCoordinates.load h).entries.map Coord.toGeoPoint)]) h.length
    have h01 : h <+: h ++ [ArrayObject.geoPoints
        ((polygonCoordinates.load h).entries.map Coord.toGeoPoint)] := ⟨_, rfl⟩
    cases hc : createTurfPolygonHeap env
        (h ++ [.geoPoints ((polygonCoordinates.load h).entries.map Coord.toGeoPoint)])
        h.length with
    | mk h2 pres =>
      rw [hc] at hp hrun
      have h02 : h <+: h2 := h01.trans hp
      cases pres with
      | error e =>
        simp only [Option.some.injEq, Prod.mk.injEq] at hrun
        rw [← hrun.1]
        exact h02
      | ok polygon =>
        simp only at hrun
        cases hvp : validatePolygon polygon with
        | error e =>
          simp only [hvp, Option.some.injEq, Prod.mk.injEq] at hrun
          rw [← hrun.1]
          exact h02
        | ok b2 =>
          simp only [hvp] at hrun
          cases hg : generateHexGridHeap env fuel h2 h.length 3 (.fin (1 / 10)) with
          | none =>
            rw [hg] at hrun
            cases hrun
          | some gres =>
            obtain ⟨h3, gr⟩ := gres
            have h23 := generateHexGridHeap_frame env fuel h2 h.length 3 (.fin (1 / 10)) h3 gr hg
            rw [hg] at hrun
            cases gr with
            | error e =>
              simp only [Option.some.injEq, Prod.mk.injEq] at hrun
              rw [← hrun.1]
              exact h02.trans h23
            | ok pair =>
              obtain ⟨rowPoints, removedPoints⟩ := pair
              simp only at hrun
              split at hrun
              · simp only [Option.some.injEq, Prod.mk.injEq] at hrun
                rw [← hrun.1]
                exact h02.trans h23
              · have h34 := optimizePathHeap_frame h3 rowPoints
                split at hrun
                · simp only [Option.some.injEq, Prod.mk.injEq] at hrun
                  rw [← hrun.1]
                  exact (h02.trans h23).trans h34
                · simp only [Option.some.injEq, Prod.mk.injEq] at hrun
                  rw [← hrun.1]
                  exact (h02.trans h23).trans h34

theorem geoPoints_of_frame (h h' : Heap) (entries : List GeoPoint)
    (hp : h ++ [ArrayObject.geoPoints entries] <+: h') :
    Heap.geoPoints h' h.length = entries := by
  obtain ⟨extra, rfl⟩ := hp
  rw [geoPoints_append_left _ _ _ (by simp), geoPoints_alloc]

/-- The function `calculateWaypoints` on the heap returns or throws what `calculateWaypoints`
does on the entries of its argument. -/
theorem calculateWaypointsHeap_value (env : Env) (fuel : Nat) (h : Heap)
    (polygonCoordinates : HeapArgument) (needCartesian : Bool) :
    (calculateWaypointsHeap env fuel h polygonCoordinates needCartesian).map Prod.snd =
      calculateWaypoints env fuel (polygonCoordinates.load h) needCartesian := by
  unfold calculateWaypointsHeap calculateWaypoints
  cases hval : validatePolygonCoordinates (polygonCoordinates.load h) with
  | error e => rfl
  | ok b =>
    simp only [Heap.alloc]
    have hp := createTurfPolygonHeap_frame env
      (h ++ [.geoPoints ((polygonCoordinates.load h).entries.map Coord.toGeoPoint)]) h.length
    have hv := createTurfPolygonHeap_value env
      (h ++ [.geoPoints ((polygonCoordinates.load h).entries.map Coord.toGeoPoint)]) h.length
    rw [geoPoints_alloc] at hv
    cases hc : createTurfPolygonHeap env
        (h ++ [.geoPoints ((polygonCoordinates.load h).entries.map Coord.toGeoPoint)])
        h.length with
    | mk h2 pres =>
      rw [hc] at hp hv
      simp only at hp hv
      rw [← hv]
      cases pres with
      | error e => rfl
      | ok polygon =>
        simp only
        cases hvp : validatePolygon polygon with
        | error e => rfl
        | ok b2 =>
          simp only
          have hgv := generateHexGridHeap_value env fuel h2 h.length 3 (.fin (1 / 10))
          rw [geoPoints_of_frame h h2 _ hp] at hgv
          cases hg : generateHexGridHeap env fuel h2 h.length 3 (.fin (1 / 10)) with
          | none =>
            rw [hg] at hgv
            simp only at hgv
            rw [hgv]
            rfl
          | some gres =>
            obtain ⟨h3, gr⟩ := gres
            have h23 := generateHexGridHeap_frame env fuel h2 h.length 3 (.fin (1 / 10)) h3 gr hg
            rw [hg] at hgv
            cases gr with
            | error e =>
              simp only at hgv
              rw [hgv]
              rfl
            | ok pair =>
              obtain ⟨rowPoints, removedPoints⟩ := pair
              simp only at hgv
              obtain ⟨hpure, hrows⟩ := hgv
              rw [hpure]
              simp only [List.length_map, geoPoints_of_frame h h3 _ (hp.trans h23)]
              by_cases hzero : (h3.refs rowPoints).length = 0
              · simp only [hzero, if_true, Option.map_some']
              · simp only [hzero, if_false]
                rw [← optimizePathHeap_value h3 rowPoints hrows]
                cases habs : absoluteFromPath 0 (optimizePathHeap h3 rowPoints).2 with
                | error e => rfl
                | ok ws => rfl

/-- Claim C17. A call of `calculateWaypoints` on the heap, whether it returns or throws, leaves
every array object that existed before the call as it was, so that the input array has the
length and the entries it had (the closing position is pushed onto the array that
`coordinates.map` allocated), and it returns or throws what `calculateWaypoints` does on the
entries. Likewise `optimizePathLayeredWithFinalInterleaved` on the heap leaves every array
object that existed before as it was, the array of rows and every row among them (`sort` and
`reverse` work on copies), and for rows that are objects of the heap it returns what the
function returns on their entries. -/
theorem calculateWaypoints_never_mutates_input (env : Env) (fuel : Nat) (h : Heap)
    (polygonCoordinates : HeapArgument) (needCartesian : Bool) (rowPoints : Nat) (h' : Heap)
    (res : Except JSError CoverageResult)
    (hrun : calculateWaypointsHeap env fuel h polygonCoordinates needCartesian =
      some (h', res)) :
    (∀ addr, addr < h.length → h'[addr]? = h[addr]? ∧ h'.coords addr = h.coords addr) ∧
      calculateWaypoints env fuel (polygonCoordinates.load h) needCartesian = some res ∧
      (∀ addr, addr < h.length →
        (optimizePathHeap h rowPoints).1[addr]? = h[addr]? ∧
          (optimizePathHeap h rowPoints).1.positions addr = h.positions addr) ∧
      ((∀ addr ∈ h.refs rowPoints, addr < h.length) →
        (optimizePathHeap h rowPoints).2 =
          optimizePathLayeredWithFinalInterleaved ((h.refs rowPoints).map h.positions)) := by
  refine ⟨?_, ?_, ?_, optimizePathHeap_value h rowPoints⟩
  · obtain ⟨extra, hx⟩ := calculateWaypointsHeap_frame env fuel h polygonCoordinates
      needCartesian h' res hrun
    intro addr haddr
    have hget : h'[addr]? = h[addr]? := by
      rw [← hx]
      exact heap_get_append_left h extra addr haddr
    exact ⟨hget, by simp only [Heap.coords, hget]⟩
  · have hv := calculateWaypointsHeap_value env fuel h polygonCoordinates needCartesian
    rw [hrun] at hv
    exact hv.symm
  · obtain ⟨extra, hx⟩ := optimizePathHeap_frame h rowPoints
    intro addr haddr
    have hget : (optimizePathHeap h rowPoints).1[addr]? = h[addr]? := by
      rw [← hx]
      exact heap_get_append_left h extra addr haddr
    exact ⟨hget, by simp only [Heap.positions, hget]⟩

/-- C17 at `sampleHeap`: the call on `tallRectangle` returns, the heap after it is the heap
before it followed by fifteen new arrays. -/
theorem calculateWaypoints_never_mutates_input_witness :
    calculateWaypointsHeap rectEnv 10 sampleHeap (.arrayAt 0) true =
        some (sampleHeapAfter, .ok { absolute := tallAbsolute,
                                     cartesian := cartesianOf rectEnv true tallAbsolute }) ∧
      (∀ addr, addr < sampleHeap.length →
        sampleHeapAfter[addr]? = sampleHeap[addr]? ∧
          sampleHeapAfter.coords addr = sampleHeap.coords addr) ∧
      calculateWaypoints rectEnv 10 ((HeapArgument.arrayAt 0).load sampleHeap) true =
        some (.ok { absolute := tallAbsolute,
                    cartesian := cartesianOf rectEnv true tallAbsolute }) ∧
      (∀ addr, addr < sampleHeap.length →
        (optimizePathHeap sampleHeap 4).1[addr]? = sampleHeap[addr]? ∧
          (optimizePathHeap sampleHeap 4).1.positions addr = sampleHeap.positions addr) ∧
      ((∀ addr ∈ sampleHeap.refs 4, addr < sampleHeap.length) →
        (optimizePathHeap sampleHeap 4).2 =
          optimizePathLayeredWithFinalInterleaved
            ((sampleHeap.refs 4).map sampleHeap.positions)) :=
  ⟨by decide!,
   calculateWaypoints_never_mutates_input rectEnv 10 sampleHeap (.arrayAt 0) true 4
     sampleHeapAfter _ (by decide!)⟩


/-! ### The coverage test of a candidate with rounded arithmetic -/

/-- With positive areas, the overlap test keeps a point exactly when the ratio of the
specification is computed and is at least the threshold. -/
theorem coversEnoughRounded_true_iff (rnd : ℚ → ℚ) (env : Env) (polygon : Feature)
    (r threshold : JSNum) (point : Position) (hareas : env.AreasPositive) :
    coversEnoughRounded rnd env polygon r threshold point = .ok true ↔
      ∃ ratio, specOverlapRatio rnd env polygon r point = some ratio ∧
        ratio.ge threshold = true := by
  unfold coversEnoughRounded specOverlapRatio
  cases hb : env.buffer point r with
  | error e => simp
  | ok circle =>
    cases circle with
    | none => simp
    | some circleBuf =>
      cases hcg : circleBuf.geometry with
      | none => simp [hcg]
      | some circleGeometry =>
        cases hpg : polygon.geometry with
        | none => simp [hcg, hpg]
        | some polygonGeometry =>
          simp only [hcg, hpg]
          by_cases hdeg : circleGeometry.coordinates = [] ∨ polygonGeometry.coordinates = []
          · have hdeg' : (decide (circleGeometry.coordinates.length = 0) ||
                decide (polygonGeometry.coordinates.length = 0)) = true := by
              simpa [List.length_eq_zero] using hdeg
            simp only [hdeg, hdeg', if_true]
            simp
          · have hdeg' : (decide (circleGeometry.coordinates.length = 0) ||
                decide (polygonGeometry.coordinates.length = 0)) = false := by
              simpa [List.length_eq_zero] using hdeg
            simp only [hdeg, hdeg', if_false, Bool.false_eq_true]
            cases hi : env.intersect circleBuf polygon with
            | error e => simp
            | ok inter =>
              cases inter with
              | none => simp
              | some intersection =>
                cases hig : intersection.geometry with
                | none => simp [hig]
                | some geometry =>
                  cases hia : env.area intersection with
                  | error e => simp [hig, hia]
                  | ok intersectionArea =>
                    cases hca : env.area circleBuf with
                    | error e => simp [hig, hia, hca]
                    | ok circleArea =>
                      have h1 := hareas.2 _ _ _ _ hi hia
                      have h2 := hareas.1 _ _ _ _ hb hca
                      simp [hig, hia, hca, h1, h2]

/-- When the library throws `Error` objects only, so does the overlap test. -/
theorem coversEnoughRounded_error (rnd : ℚ → ℚ) (env : Env) (polygon : Feature)
    (r threshold : JSNum) (point : Position) (herrors : env.ThrowsErrorObjects) (e : JSError)
    (h : coversEnoughRounded rnd env polygon r threshold point = .error e) :
    e.hasMessage = true := by
  unfold coversEnoughRounded at h
  cases hb : env.buffer point r with
  | error e' =>
    simp only [hb, Except.error.injEq] at h
    exact h ▸ herrors.1 _ _ _ hb
  | ok circle =>
    cases circle with
    | none => simp [hb] at h
    | some circleBuf =>
      simp only [hb] at h
      split at h
      · split at h
        · cases h
        · cases hi : env.intersect circleBuf polygon with
          | error e' =>
            simp only [hi, Except.error.injEq] at h
            exact h ▸ herrors.2.1 _ _ _ hi
          | ok inter =>
            cases inter with
            | none => simp [hi] at h
            | some intersection =>
              simp only [hi] at h
              split at h
              · cases h
              · cases hia : env.area intersection with
                | error e' =>
                  simp only [hia, Except.error.injEq] at h
                  exact h ▸ herrors.2.2 _ _ hia
                | ok intersectionArea =>
                  simp only [hia] at h
                  cases hca : env.area circleBuf with
                  | error e' =>
                    simp only [hca, Except.error.injEq] at h
                    exact h ▸ herrors.2.2 _ _ hca
                  | ok circleArea => simp [hca] at h
      · cases h

/-- Claim C20. When the geometry library returns buffers and intersections of positive area and
throws `Error` objects, for every threshold and every rounding of the arithmetic: a candidate
whose evaluation completes is placed in its row if and only if it is inside the polygon or the
ratio `intersectionArea / circleArea` of its buffer with the polygon is computed and is at least
the threshold; for a candidate outside the polygon the evaluation does not throw, whatever
`buffer`, `intersect` and `area` return or throw, and a failure to compute the ratio rejects the
candidate; and after a rejected candidate the inner loop goes on with the next abscissa. -/
theorem candidate_kept_iff_ratio (rnd : ℚ → ℚ) (env : Env) (utmEPSG : String)
    (polygon : Feature) (r threshold x y : JSNum) (hareas : env.AreasPositive)
    (herrors : env.ThrowsErrorObjects) :
    (∀ (p : Position) (keep : Bool),
        evaluateCandidateRounded rnd env utmEPSG polygon r threshold x y = .ok (p, keep) →
        (keep = true ↔
          (env.booleanPointInPolygon p polygon = .ok true ∨
            ∃ ratio, specOverlapRatio rnd env polygon r p = some ratio ∧
              ratio.ge threshold = true)) ∧
        keep = specKeeps rnd env polygon r threshold p) ∧
      (∀ p : Position, env.proj4 utmEPSG "WGS84" (x, y) = .ok p → env.pointThrows p = false →
        env.booleanPointInPolygon p polygon = .ok false →
        evaluateCandidateRounded rnd env utmEPSG polygon r threshold x y =
            .ok (p, specKeeps rnd env polygon r threshold p) ∧
          (specOverlapRatio rnd env polygon r p = none →
            evaluateCandidateRounded rnd env utmEPSG polygon r threshold x y =
              .ok (p, false))) ∧
      (∀ (p : Position) (dx maxX : JSNum) (fuel : Nat) (st : RowState),
        x.le ((maxX + r).rounded rnd) = true →
        evaluateCandidateRounded rnd env utmEPSG polygon r threshold x y = .ok (p, false) →
        columnLoopRounded rnd env utmEPSG polygon r threshold dx maxX y (fuel + 1) x st =
          columnLoopRounded rnd env utmEPSG polygon r threshold dx maxX y fuel
            ((x + dx).rounded rnd)
            { st with removedPoints := st.removedPoints ++ [p],
                      totalPoints := st.totalPoints + 1 }) := by
  have hkeeps : ∀ p : Position, env.booleanPointInPolygon p polygon = .ok false →
      specKeeps rnd env polygon r threshold p =
        decide (coversEnoughRounded rnd env polygon r threshold p = .ok true) := by
    intro p hin
    have hiff := coversEnoughRounded_true_iff rnd env polygon r threshold p hareas
    unfold specKeeps
    simp only [hin, Except.ok.injEq, Bool.false_eq_true, decide_False, Bool.false_or]
    by_cases hc : coversEnoughRounded rnd env polygon r threshold p = .ok true
    · obtain ⟨ratio, h1, h2⟩ := hiff.1 hc
      simp [hc, h1, h2]
    · simp only [hc, decide_False]
      cases hs : specOverlapRatio rnd env polygon r p with
      | none => rfl
      | some ratio =>
        simp only
        cases hge : ratio.ge threshold with
        | false => rfl
        | true => exact absurd (hiff.2 ⟨ratio, hs, hge⟩) hc
  have hsecond : ∀ p : Position, env.proj4 utmEPSG "WGS84" (x, y) = .ok p →
      env.pointThrows p = false → env.booleanPointInPolygon p polygon = .ok false →
      evaluateCandidateRounded rnd env utmEPSG polygon r threshold x y =
        .ok (p, specKeeps rnd env polygon r threshold p) := by
    intro p hp hpt hin
    rw [hkeeps p hin]
    unfold evaluateCandidateRounded
    simp only [hp, hpt, hin, Bool.false_eq_true, if_false]
    cases hc : coversEnoughRounded rnd env polygon r threshold p with
    | error e =>
      simp [coversEnoughRounded_error rnd env polygon r threshold p herrors e hc]
    | ok keep => cases keep <;> simp
  refine ⟨?_, ?_, ?_⟩
  · intro p keep h
    cases hp : env.proj4 utmEPSG "WGS84" (x, y) with
    | error e => simp [evaluateCandidateRounded, hp] at h
    | ok p' =>
      cases hpt : env.pointThrows p' with
      | true => simp [evaluateCandidateRounded, hp, hpt] at h
      | false =>
        cases hin : env.booleanPointInPolygon p' polygon with
        | error e => simp [evaluateCandidateRounded, hp, hpt, hin] at h
        | ok inside =>
          cases inside with
          | true =>
            simp only [evaluateCandidateRounded, hp, hpt, hin, Bool.false_eq_true, if_false,
              Except.ok.injEq, Prod.mk.injEq] at h
            obtain ⟨rfl, rfl⟩ := h
            simp [hin, specKeeps]
          | false =>
            rw [hsecond p' hp hpt hin] at h
            simp only [Except.ok.injEq, Prod.mk.injEq] at h
            obtain ⟨rfl, rfl⟩ := h
            refine ⟨?_, rfl⟩
            rw [hkeeps p' hin]
            simp [hin, coversEnoughRounded_true_iff rnd env polygon r threshold p' hareas]
  · intro p hp hpt hin
    refine ⟨hsecond p hp hpt hin, fun hnone => ?_⟩
    rw [hsecond p hp hpt hin]
    simp [specKeeps, hin, hnone]
  · intro p dx maxX fuel st hx h
    rw [columnLoopRounded]
    simp only [hx, if_true, h]

theorem overlapEnv_areas : overlapEnv.AreasPositive := by
  constructor
  · intro point r circleBuf area _ harea
    simp only [overlapEnv, Except.ok.injEq] at harea
    rw [← harea]
    split <;> decide!
  · intro circleBuf polygon intersection area _ harea
    simp only [overlapEnv, Except.ok.injEq] at harea
    rw [← harea]
    split <;> decide!

theorem overlapEnv_errors : overlapEnv.ThrowsErrorObjects := by
  refine ⟨?_, ?_, ?_⟩
  · intro point r e h
    simp [overlapEnv] at h
  · intro circleBuf polygon e h
    simp only [overlapEnv] at h
    split at h
    · cases h
      rfl
    · cases h
  · intro feature e h
    simp [overlapEnv] at h

/-- C20 at two candidates outside `closedSquarePolygon` under `overlapEnv`, in binary64
arithmetic: at `(-3, 3/2)` the ratio is `9 / 36 >= 0.1` and the candidate is kept; at `(-3, -3)`
`intersect` throws and the candidate is removed. -/
theorem candidate_kept_iff_ratio_witness :
    specOverlapRatio roundBinary64 overlapEnv closedSquarePolygon 3 (.fin (-3), .fin (3 / 2)) =
        some (.fin (1 / 4)) ∧
      specOverlapRatio roundBinary64 overlapEnv closedSquarePolygon 3 (.fin (-3), .fin (-3)) =
        none ∧
      evaluateCandidateRounded roundBinary64 overlapEnv "EPSG:32631" closedSquarePolygon 3
        ((JSNum.fin (1 / 10)).rounded roundBinary64) (.fin (-3)) (.fin (3 / 2)) =
          .ok ((.fin (-3), .fin (3 / 2)), true) ∧
      evaluateCandidateRounded roundBinary64 overlapEnv "EPSG:32631" closedSquarePolygon 3
        ((JSNum.fin (1 / 10)).rounded roundBinary64) (.fin (-3)) (.fin (-3)) =
          .ok ((.fin (-3), .fin (-3)), false) :=
  ⟨by decide!, by decide!,
   by
    rw [((candidate_kept_iff_ratio roundBinary64 overlapEnv "EPSG:32631" closedSquarePolygon 3
      ((JSNum.fin (1 / 10)).rounded roundBinary64) (.fin (-3)) (.fin (3 / 2)) overlapEnv_areas
      overlapEnv_errors).2.1 (.fin (-3), .fin (3 / 2)) (by decide!) (by decide!)
      (by decide!)).1]
    decide!,
   ((candidate_kept_iff_ratio roundBinary64 overlapEnv "EPSG:32631" closedSquarePolygon 3
      ((JSNum.fin (1 / 10)).rounded roundBinary64) (.fin (-3)) (.fin (-3)) overlapEnv_areas
      overlapEnv_errors).2.1 (.fin (-3), .fin (-3)) (by decide!) (by decide!)
      (by decide!)).2 (by decide!)⟩


/-! ### Validation of an array with holes -/

/-- On a dense array the function on arrays with holes is `validatePolygonCoordinates`. -/
theorem validatePolygonCoordinatesSparse_dense (arg : Argument) :
    validatePolygonCoordinatesSparse arg.toSparse = validatePolygonCoordinates arg := by
  cases arg with
  | notArray => rfl
  | array entries =>
    have hfrom : ∀ (cs : List Coord) (index : Nat),
        checkSlotsFrom index (cs.map Slot.element) = checkCoordinatesFrom index cs := by
      intro cs
      induction cs with
      | nil => intro index; rfl
      | cons c cs ih =>
        intro index
        simp only [List.map_cons, checkSlotsFrom, checkCoordinatesFrom, ih]
    simp only [Argument.toSparse, validatePolygonCoordinatesSparse, validatePolygonCoordinates,
      List.length_map, hfrom]

theorem checkSlotsFrom_all (slots : List Slot) (index : Nat)
    (h : slots.all Slot.isHoleOrNumeric = true) : checkSlotsFrom index slots = .ok () := by
  induction slots generalizing index with
  | nil => rfl
  | cons slot slots ih =>
    simp only [List.all_cons, Bool.and_eq_true] at h
    cases slot with
    | hole => simp [checkSlotsFrom, ih (index + 1) h.2]
    | element c =>
      have hc : c.isNumeric = true := h.1
      simp [checkSlotsFrom, checkCoordinate_eq, hc, ih (index + 1) h.2]

theorem checkSlotsFrom_not_all (slots : List Slot) (index : Nat)
    (h : slots.all Slot.isHoleOrNumeric = false) :
    ∃ e, checkSlotsFrom index slots = .error e := by
  induction slots generalizing index with
  | nil => simp at h
  | cons slot slots ih =>
    by_cases hs : slot.isHoleOrNumeric = true
    · have hrest : slots.all Slot.isHoleOrNumeric = false := by
        simpa [List.all_cons, hs] using h
      obtain ⟨e, he⟩ := ih (index + 1) hrest
      cases slot with
      | hole => exact ⟨e, by simp [checkSlotsFrom, he]⟩
      | element c =>
        have hc : c.isNumeric = true := hs
        exact ⟨e, by simp [checkSlotsFrom, checkCoordinate_eq, hc, he]⟩
    · cases slot with
      | hole => exact absurd rfl hs
      | element c =>
        have hc : ¬ c.isNumeric = true := hs
        cases c with
        | nullish => exact ⟨.typeError, by simp [checkSlotsFrom, checkCoordinate]⟩
        | props lat lon =>
          exact ⟨.invalidCoordinateAt index, by
            simp [checkSlotsFrom, checkCoordinate_eq, hc]⟩

/-- Claim C8, counterexample. `validatePolygonCoordinates` returns `true` on `new Array(3)`,
an array of length 3 without any entry, and on a ring with a hole: `forEach` skips the holes. -/
theorem validatePolygonCoordinates_accepts_holes :
    validatePolygonCoordinatesSparse emptySlots = .ok true ∧
      emptySlots.isNumericRing = false ∧
      validatePolygonCoordinatesSparse holedRing = .ok true ∧
      holedRing.isNumericRing = false := by
  decide

/-- Claim C8, as amended. `validatePolygonCoordinates` returns `true` exactly on the arrays of
length at least 3 whose elements, at the indices that are not holes, all have `lat` and `lon` of
number type and not `NaN`, and throws on every other argument: either it returns `true` and the
argument is such an array, or the argument is not and the call throws. On a dense array this is
the condition of the claim. -/
theorem validatePolygonCoordinates_true_iff_numeric_where_defined (arg : SparseArgument) :
    ((validatePolygonCoordinatesSparse arg = .ok true ∧ arg.isNumericWhereDefined = true) ∨
      (arg.isNumericWhereDefined = false ∧
        ∃ e, validatePolygonCoordinatesSparse arg = .error e)) ∧
      ∀ dense : Argument,
        dense.toSparse.isNumericWhereDefined = dense.isNumericRing ∧
        dense.toSparse.isNumericRing = dense.isNumericRing ∧
        validatePolygonCoordinatesSparse dense.toSparse = validatePolygonCoordinates dense := by
  constructor
  · cases arg with
    | notArray => exact Or.inr ⟨rfl, _, rfl⟩
    | array slots =>
      by_cases hlen : slots.length < 3
      · refine Or.inr ⟨?_, .tooFewCoordinates slots.length, ?_⟩
        · have h3 : ¬ 3 ≤ slots.length := by omega
          simp [SparseArgument.isNumericWhereDefined, h3]
        · simp [validatePolygonCoordinatesSparse, hlen]
      · have h3 : 3 ≤ slots.length := by omega
        cases hall : slots.all Slot.isHoleOrNumeric with
        | true =>
          refine Or.inl ⟨?_, ?_⟩
          · simp [validatePolygonCoordinatesSparse, hlen, checkSlotsFrom_all slots 0 hall]
          · simp [SparseArgument.isNumericWhereDefined, h3, hall]
        | false =>
          obtain ⟨e, he⟩ := checkSlotsFrom_not_all slots 0 hall
          refine Or.inr ⟨?_, e, ?_⟩
          · simp [SparseArgument.isNumericWhereDefined, hall]
          · simp [validatePolygonCoordinatesSparse, hlen, he]
  · intro dense
    refine ⟨?_, ?_, validatePolygonCoordinatesSparse_dense dense⟩
    · cases dense with
      | notArray => rfl
      | array entries =>
        simp only [Argument.toSparse, SparseArgument.isNumericWhereDefined,
          Argument.isNumericRing, List.length_map]
        congr 1
        induction entries with
        | nil => rfl
        | cons c cs ih => simp only [List.map_cons, List.all_cons, ih, Slot.isHoleOrNumeric]
    · cases dense with
      | notArray => rfl
      | array entries =>
        simp only [Argument.toSparse, SparseArgument.isNumericRing,
          Argument.isNumericRing, List.length_map]
        congr 1
        induction entries with
        | nil => rfl
        | cons c cs ih => simp only [List.map_cons, List.all_cons, ih, Slot.isNumeric]



/-! ### Properties of the rounding to binary64 -/

theorem roundHalfEven_int (n : ℤ) : roundHalfEven (n : ℚ) = n := by
  simp [roundHalfEven]

theorem floor_le_roundHalfEven (m : ℚ) : ((⌊m⌋ : ℤ) : ℚ) ≤ roundHalfEven m := by
  unfold roundHalfEven
  simp only
  split_ifs <;> linarith

theorem roundHalfEven_le_floor_add_one (m : ℚ) : roundHalfEven m ≤ ((⌊m⌋ : ℤ) : ℚ) + 1 := by
  unfold roundHalfEven
  simp only
  split_ifs <;> linarith

theorem roundHalfEven_mono (a b : ℚ) (h : a ≤ b) : roundHalfEven a ≤ roundHalfEven b := by
  have hfl : ⌊a⌋ ≤ ⌊b⌋ := Int.floor_mono h
  rcases lt_or_eq_of_le hfl with hlt | heq
  · have h1 : ((⌊a⌋ : ℤ) : ℚ) + 1 ≤ ((⌊b⌋ : ℤ) : ℚ) := by exact_mod_cast hlt
    linarith [roundHalfEven_le_floor_add_one a, floor_le_roundHalfEven b]
  · unfold roundHalfEven
    simp only
    rw [heq]
    have hfrac : a - ((⌊b⌋ : ℤ) : ℚ) ≤ b - ((⌊b⌋ : ℤ) : ℚ) := by linarith
    split_ifs <;> linarith

theorem roundHalfEven_le_int (m : ℚ) (n : ℤ) (h : m ≤ n) : roundHalfEven m ≤ n := by
  have := roundHalfEven_mono m n h
  rwa [roundHalfEven_int] at this

theorem int_le_roundHalfEven (m : ℚ) (n : ℤ) (h : (n : ℚ) ≤ m) : (n : ℚ) ≤ roundHalfEven m := by
  have := roundHalfEven_mono n m h
  rwa [roundHalfEven_int] at this

theorem roundHalfEven_is_int (m : ℚ) : ∃ n : ℤ, roundHalfEven m = n := by
  unfold roundHalfEven
  simp only
  split_ifs
  · exact ⟨⌊m⌋, rfl⟩
  · exact ⟨⌊m⌋ + 1, by push_cast; rfl⟩
  · exact ⟨⌊m⌋, rfl⟩
  · exact ⟨⌊m⌋ + 1, by push_cast; rfl⟩

theorem two_zpow_is_int (j : ℤ) (hj : 0 ≤ j) : ∃ n : ℤ, ((2 : ℚ) ^ j) = n := by
  obtain ⟨k, rfl⟩ := Int.eq_ofNat_of_zero_le hj
  exact ⟨2 ^ k, by push_cast; rw [zpow_natCast]⟩

/-- Rounding does not cross a power of two from below. -/
theorem roundPositive_le_pow (fuel : Nat) (m : ℚ) (j : ℤ) (h : m ≤ (2 : ℚ) ^ j) :
    roundPositive fuel m ≤ (2 : ℚ) ^ j := by
  induction fuel generalizing m j with
  | zero => exact h
  | succ fuel ih =>
    rw [roundPositive]
    split_ifs with h1 h2
    · have h2j : (2 : ℚ) ^ (j + 1) = 2 ^ j * 2 := zpow_add_one₀ (by norm_num) j
      have := ih (2 * m) (j + 1) (by rw [h2j]; linarith)
      rw [h2j] at this
      linarith
    · have h2j : (2 : ℚ) ^ (j - 1 + 1) = 2 ^ (j - 1) * 2 := zpow_add_one₀ (by norm_num) (j - 1)
      rw [sub_add_cancel] at h2j
      have := ih (m / 2) (j - 1) (by rw [h2j] at h; linarith)
      rw [h2j]
      linarith
    · have h52 : (2 : ℚ) ^ (52 : ℤ) ≤ 2 ^ j := by
        have : (2 : ℚ) ^ (52 : ℤ) = 2 ^ 52 := by norm_num
        rw [this]
        linarith
      have hj : (52 : ℤ) ≤ j := (zpow_le_zpow_iff_right₀ (by norm_num : (1 : ℚ) < 2)).1 h52
      obtain ⟨n, hn⟩ := two_zpow_is_int j (by omega)
      rw [hn] at h ⊢
      exact roundHalfEven_le_int m n h

/-- Rounding does not cross a power of two from above. -/
theorem pow_le_roundPositive (fuel : Nat) (m : ℚ) (j : ℤ) (h : (2 : ℚ) ^ j ≤ m) :
    (2 : ℚ) ^ j ≤ roundPositive fuel m := by
  induction fuel generalizing m j with
  | zero => exact h
  | succ fuel ih =>
    rw [roundPositive]
    split_ifs with h1 h2
    · have h2j : (2 : ℚ) ^ (j + 1) = 2 ^ j * 2 := zpow_add_one₀ (by norm_num) j
      have := ih (2 * m) (j + 1) (by rw [h2j]; linarith)
      rw [h2j] at this
      linarith
    · have h2j : (2 : ℚ) ^ (j - 1 + 1) = 2 ^ (j - 1) * 2 := zpow_add_one₀ (by norm_num) (j - 1)
      rw [sub_add_cancel] at h2j
      have := ih (m / 2) (j - 1) (by rw [h2j] at h; linarith)
      rw [h2j]
      linarith
    · have hm : ((2 ^ 52 : ℤ) : ℚ) ≤ m := by
        push_cast
        linarith
      have hr := int_le_roundHalfEven m (2 ^ 52) hm
      rcases le_or_lt j 52 with hj | hj
      · have : (2 : ℚ) ^ j ≤ 2 ^ (52 : ℤ) := zpow_le_zpow_right₀ (by norm_num) hj
        have h52 : (2 : ℚ) ^ (52 : ℤ) = ((2 ^ 52 : ℤ) : ℚ) := by norm_num
        rw [h52] at this
        linarith
      · obtain ⟨n, hn⟩ := two_zpow_is_int j (by omega)
        rw [hn] at h ⊢
        exact int_le_roundHalfEven m n h

theorem roundPositive_le_nat_pow (fuel : Nat) (m : ℚ) (k : Nat) (h : m ≤ (2 : ℚ) ^ k) :
    roundPositive fuel m ≤ (2 : ℚ) ^ k := by
  have := roundPositive_le_pow fuel m k (by rw [zpow_natCast]; exact h)
  rwa [zpow_natCast] at this

theorem nat_pow_le_roundPositive (fuel : Nat) (m : ℚ) (k : Nat) (h : (2 : ℚ) ^ k ≤ m) :
    (2 : ℚ) ^ k ≤ roundPositive fuel m := by
  have := pow_le_roundPositive fuel m k (by rw [zpow_natCast]; exact h)
  rwa [zpow_natCast] at this

theorem roundPositive_mono (fuel : Nat) (a b : ℚ) (h : a ≤ b) :
    roundPositive fuel a ≤ roundPositive fuel b := by
  induction fuel generalizing a b with
  | zero => exact h
  | succ fuel ih =>
    rw [roundPositive, roundPositive]
    have hp : (2 : ℚ) ^ 53 = 2 * 2 ^ 52 := by norm_num
    by_cases ha1 : a < 2 ^ 52
    · have hra : roundPositive fuel (2 * a) / 2 ≤ 2 ^ 52 := by
        have := roundPositive_le_nat_pow fuel (2 * a) 53 (by linarith)
        linarith
      by_cases hb1 : b < 2 ^ 52
      · simp only [ha1, hb1, if_true]
        have := ih (2 * a) (2 * b) (by linarith)
        linarith
      · by_cases hb2 : (2 : ℚ) ^ 53 ≤ b
        · simp only [ha1, hb1, hb2, if_true, if_false]
          have := nat_pow_le_roundPositive fuel (b / 2) 52 (by linarith)
          linarith
        · simp only [ha1, hb1, hb2, if_true, if_false]
          have hm : ((2 ^ 52 : ℤ) : ℚ) ≤ b := by
            push_cast
            linarith
          have := int_le_roundHalfEven b (2 ^ 52) hm
          push_cast at this
          linarith
    · by_cases ha2 : (2 : ℚ) ^ 53 ≤ a
      · have hb1 : ¬ b < 2 ^ 52 := by linarith
        have hb2 : (2 : ℚ) ^ 53 ≤ b := by linarith
        simp only [ha1, ha2, hb1, hb2, if_true, if_false]
        have := ih (a / 2) (b / 2) (by linarith)
        linarith
      · have hb1 : ¬ b < 2 ^ 52 := by linarith
        by_cases hb2 : (2 : ℚ) ^ 53 ≤ b
        · simp only [ha1, ha2, hb1, hb2, if_true, if_false]
          have hm : a ≤ ((2 ^ 53 : ℤ) : ℚ) := by
            push_cast
            linarith
          have h1 := roundHalfEven_le_int a (2 ^ 53) hm
          push_cast at h1
          have h2 := nat_pow_le_roundPositive fuel (b / 2) 52 (by linarith)
          linarith
        · simp only [ha1, ha2, hb1, hb2, if_false]
          exact roundHalfEven_mono a b h

theorem roundPositive_two_pow (fuel : Nat) : roundPositive fuel (2 ^ 52) = 2 ^ 52 := by
  cases fuel with
  | zero => rfl
  | succ fuel =>
    rw [roundPositive]
    have h1 : ¬ ((2 : ℚ) ^ 52 < 2 ^ 52) := lt_irrefl _
    have h2 : ¬ ((2 : ℚ) ^ 53 ≤ 2 ^ 52) := by norm_num
    simp only [h1, h2, if_false]
    have := roundHalfEven_int (2 ^ 52)
    push_cast at this
    exact this

theorem roundPositive_idem (fuel : Nat) (m : ℚ) :
    roundPositive fuel (roundPositive fuel m) = roundPositive fuel m := by
  induction fuel generalizing m with
  | zero => rfl
  | succ fuel ih =>
    have hp : (2 : ℚ) ^ 53 = 2 * 2 ^ 52 := by norm_num
    by_cases h1 : m < 2 ^ 52
    · have hm : roundPositive (fuel + 1) m = roundPositive fuel (2 * m) / 2 := by
        rw [roundPositive]
        simp only [h1, if_true]
      have hle : roundPositive fuel (2 * m) / 2 ≤ 2 ^ 52 := by
        have := roundPositive_le_nat_pow fuel (2 * m) 53 (by linarith)
        linarith
      rw [hm]
      rcases lt_or_eq_of_le hle with hlt | heq
      · rw [roundPositive]
        simp only [hlt, if_true]
        rw [mul_div_cancel₀ _ (by norm_num : (2 : ℚ) ≠ 0), ih]
      · rw [heq, roundPositive]
        have h1' : ¬ ((2 : ℚ) ^ 52 < 2 ^ 52) := lt_irrefl _
        have h2' : ¬ ((2 : ℚ) ^ 53 ≤ 2 ^ 52) := by norm_num
        simp only [h1', h2', if_false]
        have := roundHalfEven_int (2 ^ 52)
        push_cast at this
        exact this
    · by_cases h2 : (2 : ℚ) ^ 53 ≤ m
      · have hm : roundPositive (fuel + 1) m = roundPositive fuel (m / 2) * 2 := by
          rw [roundPositive]
          simp only [h1, h2, if_true, if_false]
        have hge : (2 : ℚ) ^ 53 ≤ roundPositive fuel (m / 2) * 2 := by
          have := nat_pow_le_roundPositive fuel (m / 2) 52 (by linarith)
          linarith
        have hnlt : ¬ (roundPositive fuel (m / 2) * 2 < 2 ^ 52) := by linarith
        rw [hm, roundPositive]
        simp only [hnlt, hge, if_true, if_false]
        rw [mul_div_assoc, div_self (by norm_num : (2 : ℚ) ≠ 0), mul_one, ih]
      · have hm : roundPositive (fuel + 1) m = roundHalfEven m := by
          rw [roundPositive]
          simp only [h1, h2, if_false]
        obtain ⟨n, hn⟩ := roundHalfEven_is_int m
        have hlo : ((2 ^ 52 : ℤ) : ℚ) ≤ roundHalfEven m :=
          int_le_roundHalfEven m (2 ^ 52) (by push_cast; linarith)
        have hhi : roundHalfEven m ≤ ((2 ^ 53 : ℤ) : ℚ) :=
          roundHalfEven_le_int m (2 ^ 53) (by push_cast; linarith)
        push_cast at hlo hhi
        rw [hm]
        have hnlt : ¬ (roundHalfEven m < 2 ^ 52) := by linarith
        rcases lt_or_eq_of_le hhi with hlt | heq
        · have hnge : ¬ ((2 : ℚ) ^ 53 ≤ roundHalfEven m) := by linarith
          rw [roundPositive]
          simp only [hnlt, hnge, if_false]
          rw [hn, roundHalfEven_int]
        · rw [heq, roundPositive]
          have b1 : ¬ ((9007199254740992 : ℚ) < 2 ^ 52) := by norm_num
          have b2 : (2 : ℚ) ^ 53 ≤ 9007199254740992 := by norm_num
          simp only [b1, b2, if_true, if_false]
          have : (9007199254740992 : ℚ) / 2 = 2 ^ 52 := by norm_num
          rw [this, roundPositive_two_pow]
          norm_num

theorem roundPositive_pos (fuel : Nat) (m : ℚ) (h : 0 < m) : 0 < roundPositive fuel m := by
  obtain ⟨k, hk⟩ : ∃ k : ℕ, (1 / m) < (2 : ℚ) ^ k := by
    obtain ⟨k, hk⟩ := pow_unbounded_of_one_lt (1 / m) (by norm_num : (1 : ℚ) < 2)
    exact ⟨k, hk⟩
  have hpos : (0 : ℚ) < 2 ^ (-(k : ℤ)) := zpow_pos (by norm_num) _
  have hle : (2 : ℚ) ^ (-(k : ℤ)) ≤ m := by
    rw [zpow_neg, zpow_natCast]
    have h2k : (0 : ℚ) < 2 ^ k := by positivity
    rw [inv_eq_one_div, div_le_iff₀ h2k]
    rw [div_lt_iff₀ h] at hk
    linarith
  exact lt_of_lt_of_le hpos (pow_le_roundPositive fuel m _ hle)

theorem roundBinary64_zero : roundBinary64 0 = 0 := by
  simp [roundBinary64]

theorem roundBinary64_pos (q : ℚ) (h : 0 < q) : 0 < roundBinary64 q := by
  unfold roundBinary64
  rw [if_neg (ne_of_gt h), if_neg (not_lt.2 h.le)]
  exact roundPositive_pos _ _ h

theorem roundBinary64_neg (q : ℚ) (h : q < 0) : roundBinary64 q < 0 := by
  unfold roundBinary64
  rw [if_neg (ne_of_lt h), if_pos h]
  have := roundPositive_pos 2200 (-q) (by linarith)
  linarith

theorem roundBinary64_mono (a b : ℚ) (h : a ≤ b) : roundBinary64 a ≤ roundBinary64 b := by
  rcases lt_trichotomy a 0 with ha | ha | ha
  · rcases lt_trichotomy b 0 with hb | hb | hb
    · unfold roundBinary64
      rw [if_neg (ne_of_lt ha), if_pos ha, if_neg (ne_of_lt hb), if_pos hb]
      have := roundPositive_mono 2200 (-b) (-a) (by linarith)
      linarith
    · rw [hb, roundBinary64_zero]
      exact (roundBinary64_neg a ha).le
    · have h1 := roundBinary64_neg a ha
      have h2 := roundBinary64_pos b hb
      linarith
  · rw [ha] at h ⊢
    rcases lt_or_eq_of_le h with hb | hb
    · rw [roundBinary64_zero]
      exact (roundBinary64_pos b hb).le
    · rw [← hb]
  · have hb : 0 < b := by linarith
    unfold roundBinary64
    rw [if_neg (ne_of_gt ha), if_neg (not_lt.2 ha.le), if_neg (ne_of_gt hb),
      if_neg (not_lt.2 hb.le)]
    exact roundPositive_mono 2200 a b h

theorem roundBinary64_idem (q : ℚ) : roundBinary64 (roundBinary64 q) = roundBinary64 q := by
  rcases lt_trichotomy q 0 with hq | hq | hq
  · have hr := roundBinary64_neg q hq
    have hval : roundBinary64 q = -roundPositive 2200 (-q) := by
      unfold roundBinary64
      rw [if_neg (ne_of_lt hq), if_pos hq]
    rw [hval] at hr ⊢
    unfold roundBinary64
    rw [if_neg (ne_of_lt hr), if_pos hr, neg_neg, roundPositive_idem]
  · rw [hq, roundBinary64_zero, roundBinary64_zero]
  · have hr := roundBinary64_pos q hq
    have hval : roundBinary64 q = roundPositive 2200 q := by
      unfold roundBinary64
      rw [if_neg (ne_of_gt hq), if_neg (not_lt.2 hq.le)]
    rw [hval] at hr ⊢
    unfold roundBinary64
    rw [if_neg (ne_of_gt hr), if_neg (not_lt.2 hr.le), roundPositive_idem]

/-- The rounding to binary64 fixes zero, keeps the order and fixes the binary64 numbers. -/
theorem roundBinary64_monotoneRounding : MonotoneRounding roundBinary64 :=
  ⟨roundBinary64_zero, roundBinary64_mono, roundBinary64_idem⟩

theorem id_monotoneRounding : MonotoneRounding id :=
  ⟨rfl, fun _ _ h => h, fun _ => rfl⟩



/-! ### The order of the rows with rounded arithmetic -/

theorem evaluateCandidateRounded_proj4 (rnd : ℚ → ℚ) (env : Env) (utmEPSG : String)
    (polygon : Feature) (r threshold x y : JSNum) (p : Position) (keep : Bool)
    (h : evaluateCandidateRounded rnd env utmEPSG polygon r threshold x y = .ok (p, keep)) :
    env.proj4 utmEPSG "WGS84" (x, y) = .ok p := by
  unfold evaluateCandidateRounded at h
  split at h
  · cases h
  · rename_i p' hp
    split at h
    · cases h
    · split at h
      · cases h
      · cases h
        exact hp
      · split at h
        · split at h
          · cases h
            exact hp
          · cases h
        · cases h
          exact hp

theorem columnLoopRounded_points (rnd : ℚ → ℚ) (env : Env) (utmEPSG : String)
    (polygon : Feature) (r threshold dx maxX y : JSNum) (fuel : Nat) (x : JSNum)
    (st st' : RowState)
    (h : columnLoopRounded rnd env utmEPSG polygon r threshold dx maxX y fuel x st =
      some (.ok st')) :
    ∀ p ∈ st'.currentRow,
      p ∈ st.currentRow ∨ ∃ x', env.proj4 utmEPSG "WGS84" (x', y) = .ok p := by
  induction fuel generalizing x st with
  | zero =>
    rw [columnLoopRounded] at h
    split at h
    · cases h
    · cases h
      exact fun p hp => Or.inl hp
  | succ fuel ih =>
    rw [columnLoopRounded] at h
    split at h
    · split at h
      · cases h
      · rename_i p0 hev
        intro p hp
        rcases ih _ _ h p hp with hmem | hex
        · rcases List.mem_append.1 hmem with hm | hm
          · exact Or.inl hm
          · simp only [List.mem_singleton] at hm
            subst hm
            exact Or.inr ⟨x, evaluateCandidateRounded_proj4 _ _ _ _ _ _ _ _ _ _ hev⟩
        · exact Or.inr hex
      · intro p hp
        exact ih _ _ h p hp
    · cases h
      exact fun p hp => Or.inl hp

theorem rowLoopRounded_northings (rnd : ℚ → ℚ) (hrnd : MonotoneRounding rnd) (env : Env)
    (utmEPSG : String) (polygon : Feature)
    (r threshold dx : JSNum) (d : ℚ) (hd : 0 ≤ d) (minUTM maxUTM : Position) (fuel : Nat)
    (st st' : GridState) (q : ℚ) (ys : List ℚ) (hy : st.y = .fin q) (hq : rnd q = q)
    (hrows : RowsAtNorthings env utmEPSG st.rowPoints ys)
    (hsorted : ys.Pairwise (NorthingsGrow rnd d)) (hbelow : ∀ y' ∈ ys, NorthingsGrow rnd d y' q)
    (h : rowLoopRounded rnd env utmEPSG polygon r threshold dx (.fin d) minUTM maxUTM fuel st =
      some (.ok st')) :
    ∃ ys', RowsAtNorthings env utmEPSG st'.rowPoints ys' ∧
      ys'.Pairwise (NorthingsGrow rnd d) := by
  induction fuel generalizing st q ys with
  | zero =>
    rw [rowLoopRounded] at h
    split at h
    · cases h
    · cases h
      exact ⟨ys, hrows, hsorted⟩
  | succ fuel ih =>
    rw [rowLoopRounded] at h
    split at h
    · split at h
      · cases h
      · cases h
      · rename_i inner hin
        have hpts := columnLoopRounded_points _ _ _ _ _ _ _ _ _ _ _ _ _ hin
        have hstep : q ≤ rnd (q + d) := by
          have := hrnd.2.1 q (q + d) (by linarith)
          rw [hq] at this
          exact this
        have hafter : ∃ ys'', RowsAtNorthings env utmEPSG
            (if inner.currentRow.length > 0 then st.rowPoints ++ [inner.currentRow]
              else st.rowPoints) ys'' ∧
            ys''.Pairwise (NorthingsGrow rnd d) ∧
            ∀ y' ∈ ys'', NorthingsGrow rnd d y' (rnd (q + d)) := by
          have hold : ∀ y' ∈ ys, NorthingsGrow rnd d y' (rnd (q + d)) := by
            intro y' hy'
            obtain ⟨h1, h2⟩ := hbelow y' hy'
            exact ⟨le_trans h1 hstep, fun h3 => lt_of_lt_of_le (h2 h3) hstep⟩
          by_cases hpos : inner.currentRow.length > 0
          · refine ⟨ys ++ [q], ?_, ?_, ?_⟩
            · rw [if_pos hpos]
              refine List.rel_append hrows (List.Forall₂.cons ?_ List.Forall₂.nil)
              intro p hp
              rcases hpts p hp with hm | hex
              · simp at hm
              · rw [hy] at hex
                exact hex
            · rw [List.pairwise_append]
              refine ⟨hsorted, List.pairwise_singleton _ _, ?_⟩
              intro a ha b hb
              simp only [List.mem_singleton] at hb
              subst hb
              exact hbelow a ha
            · intro y' hy'
              rcases List.mem_append.1 hy' with hm | hm
              · exact hold y' hm
              · simp only [List.mem_singleton] at hm
                subst hm
                exact ⟨hstep, fun h3 => h3⟩
          · refine ⟨ys, ?_, hsorted, hold⟩
            rw [if_neg hpos]
            exact hrows
        obtain ⟨ys'', h1, h2, h3⟩ := hafter
        simp only at h
        split at h
        · cases h
          exact ⟨ys'', h1, h2⟩
        · refine ih _ (rnd (q + d)) ys'' ?_ (hrnd.2.2 _) h1 h2 h3 h
          simp only [hy, fin_add_fin, JSNum.rounded]
    · cases h
      exact ⟨ys, hrows, hsorted⟩


/-- Claim C23, counterexample. In binary64 arithmetic, for `tallRectangle` the three returned
rows were generated at the planar northings 3/2, 6 and 21/2, in this order: the later row lies
further north, its planar y being the larger one. -/
theorem tallRectangle_rows_go_north :
    generateHexGridRounded roundBinary64 binary64Env 10 (tallRectangle.map Coord.toGeoPoint) 3
        ((JSNum.fin (1 / 10)).rounded roundBinary64) = some (.ok (tallRows64, tallRemoved64)) ∧
      ∀ utmEPSG ys, RowsAtNorthings binary64Env utmEPSG tallRows64 ys →
        ys = [3 / 2, 6, 21 / 2] ∧ ¬ ys.Pairwise (· > ·) := by
  refine ⟨by decide!, ?_⟩
  intro utmEPSG ys h
  have hys : ys = [3 / 2, 6, 21 / 2] := by
    unfold RowsAtNorthings tallRows64 at h
    rcases List.forall₂_cons_left_iff.1 h with ⟨a, ys1, ha, h1, rfl⟩
    rcases List.forall₂_cons_left_iff.1 h1 with ⟨b, ys2, hb, h2, rfl⟩
    rcases List.forall₂_cons_left_iff.1 h2 with ⟨c, ys3, hc, h3, rfl⟩
    cases h3
    obtain ⟨x, hx⟩ := ha _ (List.mem_cons_self _ _)
    obtain ⟨x', hx'⟩ := hb _ (List.mem_cons_self _ _)
    obtain ⟨x'', hx''⟩ := hc _ (List.mem_cons_self _ _)
    simp only [binary64Env, rectEnv, Except.ok.injEq, Prod.mk.injEq, JSNum.fin.injEq] at hx hx' hx''
    rw [hx.2, hx'.2, hx''.2]
  subst hys
  norm_num

/-- Claim C23, as amended. With an arithmetic rounded by a monotone rounding function (binary64
rounding to nearest is one, and so is exact arithmetic), a positive pitch and a projection that
maps a finite latitude to a finite northing, the rows returned by
`generateHexGridWithBufferAndFilter` were generated at planar northings that never decrease:
every row has a northing of which all its points are the inverse projections, the northing of a
later row is not smaller than the northing of an earlier row, and it is larger when the
addition `y + dy` at the earlier northing is not absorbed by the rounding. When no addition
`y + dy` at the northing of a returned row is absorbed, the northings are strictly
increasing. -/
theorem generateHexGridRounded_rows_ascending (rnd : ℚ → ℚ) (env : Env) (fuel : Nat)
    (polygonCoords : List GeoPoint) (ρ : ℚ) (threshold : JSNum)
    (rowPoints : List (List Position)) (removedPoints : List Position)
    (hrnd : MonotoneRounding rnd) (hρ : 0 < ρ)
    (hfin : ∀ code p q, env.proj4 "WGS84" code p = .ok q → p.2.isFinite = true →
      q.2.isFinite = true)
    (h : generateHexGridRounded rnd env fuel polygonCoords (.fin ρ) threshold =
      some (.ok (rowPoints, removedPoints))) :
    ∃ utmEPSG ys, RowsAtNorthings env utmEPSG rowPoints ys ∧ ys.length = rowPoints.length ∧
      ys.Pairwise (fun a b => a ≤ b ∧ (a < rnd (a + rnd (3 / 2 * ρ)) → a < b)) ∧
      ((∀ a ∈ ys, a < rnd (a + rnd (3 / 2 * ρ))) → ys.Pairwise (· < ·)) := by
  unfold generateHexGridRounded at h
  split at h
  · cases h
  · cases h
  · rename_i st hst
    cases h
    unfold hexGridFinalStateRounded at hst
    split at hst
    · cases hst
    · split at hst
      · cases hst
      · rename_i bbox hbbox
        split at hst
        · cases hst
        · rename_i hvalid
          split at hst
          · cases hst
          · simp only at hst
            split at hst
            · cases hst
            · rename_i minUTM hmin
              split at hst
              · cases hst
              · have hb : bbox.2.1.isFinite = true := by
                  simp [bboxValid] at hvalid
                  exact hvalid.2.1.2
                have hm := hfin _ _ _ hmin hb
                obtain ⟨q, hq⟩ : ∃ q, minUTM.2 = JSNum.fin q := by
                  cases hmq : minUTM.2 with
                  | fin q => exact ⟨q, rfl⟩
                  | nan => rw [hmq] at hm; cases hm
                  | posInf => rw [hmq] at hm; cases hm
                  | negInf => rw [hmq] at hm; cases hm
                have hdy : (JSNum.fin (3 / 2) * JSNum.fin ρ).rounded rnd =
                    JSNum.fin (rnd (3 / 2 * ρ)) := by
                  rw [fin_mul_fin]
                  rfl
                have hd : 0 ≤ rnd (3 / 2 * ρ) := by
                  have := hrnd.2.1 0 (3 / 2 * ρ) (by positivity)
                  rw [hrnd.1] at this
                  exact this
                rw [hdy] at hst
                obtain ⟨ys, h1, h2⟩ := rowLoopRounded_northings rnd hrnd env _ _ _ _ _
                  (rnd (3 / 2 * ρ)) hd _ _ fuel _ st (rnd (q - ρ)) []
                  (by simp only [hq, fin_sub_fin, JSNum.rounded]) (hrnd.2.2 _)
                  (by exact List.Forall₂.nil) List.Pairwise.nil (by simp) hst
                refine ⟨_, ys, h1, (List.Forall₂.length_eq h1).symm, h2, fun hall => ?_⟩
                exact List.Pairwise.imp_of_mem (fun ha _ hab => hab.2 (hall _ ha)) h2

/-- C23 at `tallRectangle` in binary64 arithmetic: three rows at the northings 3/2, 6 and
21/2, none of which absorbs the step 9/2. -/
theorem generateHexGridRounded_rows_ascending_witness :
    MonotoneRounding roundBinary64 ∧ (0 : ℚ) < 3 ∧
      generateHexGridRounded roundBinary64 binary64Env 10 (tallRectangle.map Coord.toGeoPoint)
        (.fin 3) ((JSNum.fin (1 / 10)).rounded roundBinary64) =
          some (.ok (tallRows64, tallRemoved64)) ∧
      ∃ utmEPSG ys, RowsAtNorthings binary64Env utmEPSG tallRows64 ys ∧
        ys.length = tallRows64.length ∧
        ys.Pairwise (fun a b => a ≤ b ∧
          (a < roundBinary64 (a + roundBinary64 (3 / 2 * 3)) → a < b)) ∧
        ((∀ a ∈ ys, a < roundBinary64 (a + roundBinary64 (3 / 2 * 3))) →
          ys.Pairwise (· < ·)) :=
  ⟨roundBinary64_monotoneRounding, by norm_num, by decide!,
   generateHexGridRounded_rows_ascending roundBinary64 binary64Env 10
     (tallRectangle.map Coord.toGeoPoint) 3 ((JSNum.fin (1 / 10)).rounded roundBinary64)
     tallRows64 tallRemoved64 roundBinary64_monotoneRounding (by norm_num)
     (fun _ p q hpq hp => by
       simp only [binary64Env, rectEnv, Except.ok.injEq] at hpq
       rw [← hpq]
       exact hp)
     (by decide!)⟩


/-! ### The cartesian coordinates with rounded arithmetic -/

theorem cartesianOfRounded_getElem?_eq (rnd : ℚ → ℚ) (env : Env) (ref : AbsoluteWaypoint)
    (rest : List AbsoluteWaypoint) (i : Nat) (w : AbsoluteWaypoint)
    (hw : (ref :: rest)[i]? = some w) :
    (cartesianOfRounded rnd env true (ref :: rest))[i]? =
      some { id := w.id,
             x := ((((((w.lng - ref.lng).rounded rnd * (JSNum.PI / 180).rounded rnd).rounded rnd *
               6371000).rounded rnd *
                 env.mathCos (((ref.lat * JSNum.PI).rounded rnd / 180).rounded rnd)).rounded
                   rnd).toFixed2Rounded rnd + 3).rounded rnd,
             y := (((((w.lat - ref.lat).rounded rnd * (JSNum.PI / 180).rounded rnd).rounded rnd *
               6371000).rounded rnd).toFixed2Rounded rnd + 3).rounded rnd,
             z := w.alt.orElse 50 } := by
  simp only [cartesianOfRounded, if_true, applyTranslationRounded,
    convertGeographicToCartesianRounded, List.getElem?_map, hw, Option.map_some']

theorem calculateWaypointsRounded_cartesian_eq (rnd : ℚ → ℚ) (env : Env) (fuel : Nat)
    (arg : Argument) (needCartesian : Bool) (res : CoverageResult)
    (h : calculateWaypointsRounded rnd env fuel arg needCartesian = some (.ok res)) :
    res.cartesian = cartesianOfRounded rnd env needCartesian res.absolute := by
  unfold calculateWaypointsRounded at h
  split at h
  · cases h
  · simp only at h
    split at h
    · cases h
    · split at h
      · cases h
      · split at h
        · cases h
        · cases h
        · split at h
          · cases h
            rfl
          · split at h
            · cases h
            · cases h
              rfl

theorem dyadicSquare_run :
    calculateWaypointsRounded roundBinary64 binary64Env 10 (.array dyadicSquare) true =
      some (.ok { absolute := dyadicAbsolute, cartesian := dyadicCartesian }) := by
  decide!

/-- Claim C22, counterexample. In binary64 arithmetic, for `dyadicSquare` the second cartesian
waypoint has the abscissa `3.85`, which is not the value of the formula, neither evaluated
exactly nor with every operation rounded to binary64 (about `3.848`): the code rounds the
product to two decimals before the translation. -/
theorem dyadicSquare_cartesian_is_rounded :
    calculateWaypointsRounded roundBinary64 binary64Env 10 (.array dyadicSquare) true =
        some (.ok { absolute := dyadicAbsolute, cartesian := dyadicCartesian }) ∧
      (dyadicCartesian[1]?).map (fun c => c.x) =
        some (.fin (8669429282688205 / 2251799813685248)) ∧
      (dyadicAbsolute[1]?).bind (fun w =>
          (dyadicAbsolute[0]?).map (specCartesianX binary64Env w)) ≠
        some (.fin (8669429282688205 / 2251799813685248)) ∧
      (dyadicAbsolute[1]?).bind (fun w =>
          (dyadicAbsolute[0]?).map (specCartesianXRounded roundBinary64 binary64Env w)) ≠
        some (.fin (8669429282688205 / 2251799813685248)) :=
  ⟨dyadicSquare_run, by decide!, by decide!, by decide!⟩

/-- Claim C22, as amended. With rounded arithmetic (binary64 rounding or none), when
`calculateWaypoints` returns with the cartesian output requested, `cartesian` has one waypoint
for each waypoint of `absolute`, and with `ref` the first absolute waypoint, the cartesian
waypoint at the index of an absolute waypoint `w` has `x` equal to the product
`(w.lng - ref.lng) * (pi/180) * R * cos(ref.lat * pi/180)`, evaluated from left to right with
every operation rounded, then rounded to two decimals by `parseFloat(v.toFixed(2))`, plus 3,
the sum being rounded too; and `y` equal to `(w.lat - ref.lat) * (pi/180) * R` treated in the
same way, for `R = 6371000`. -/
theorem calculateWaypointsRounded_cartesian (rnd : ℚ → ℚ) (env : Env) (fuel : Nat)
    (arg : Argument) (res : CoverageResult)
    (h : calculateWaypointsRounded rnd env fuel arg true = some (.ok res)) :
    res.cartesian.length = res.absolute.length ∧
      ∀ (i : Nat) (w : AbsoluteWaypoint), res.absolute[i]? = some w →
        ∃ ref c, res.absolute[0]? = some ref ∧ res.cartesian[i]? = some c ∧
          c.x = ((((((w.lng - ref.lng).rounded rnd * (JSNum.PI / 180).rounded rnd).rounded rnd *
            6371000).rounded rnd *
              env.mathCos (((ref.lat * JSNum.PI).rounded rnd / 180).rounded rnd)).rounded
                rnd).toFixed2Rounded rnd + 3).rounded rnd ∧
          c.y = (((((w.lat - ref.lat).rounded rnd * (JSNum.PI / 180).rounded rnd).rounded rnd *
            6371000).rounded rnd).toFixed2Rounded rnd + 3).rounded rnd := by
  have hcart := calculateWaypointsRounded_cartesian_eq rnd env fuel arg true res h
  refine ⟨?_, ?_⟩
  · rw [hcart]
    simp only [cartesianOfRounded, if_true, applyTranslationRounded, List.length_map]
    cases res.absolute with
    | nil => rfl
    | cons ref rest => simp [convertGeographicToCartesianRounded]
  · intro i w hw
    cases habs : res.absolute with
    | nil =>
      rw [habs] at hw
      simp at hw
    | cons ref rest =>
      rw [habs] at hw
      have hc := cartesianOfRounded_getElem?_eq rnd env ref rest i w hw
      rw [← habs, ← hcart] at hc
      exact ⟨ref, _, by simp, hc, rfl, rfl⟩

/-- The amended C22 at `dyadicSquare` in binary64 arithmetic. -/
theorem calculateWaypointsRounded_cartesian_witness :
    calculateWaypointsRounded roundBinary64 binary64Env 10 (.array dyadicSquare) true =
        some (.ok { absolute := dyadicAbsolute, cartesian := dyadicCartesian }) ∧
      dyadicCartesian.length = dyadicAbsolute.length ∧
      ∀ (i : Nat) (w : AbsoluteWaypoint), dyadicAbsolute[i]? = some w →
        ∃ ref c, dyadicAbsolute[0]? = some ref ∧ dyadicCartesian[i]? = some c ∧
          c.x = ((((((w.lng - ref.lng).rounded roundBinary64 *
            (JSNum.PI / 180).rounded roundBinary64).rounded roundBinary64 *
              6371000).rounded roundBinary64 *
                binary64Env.mathCos (((ref.lat * JSNum.PI).rounded roundBinary64 /
                  180).rounded roundBinary64)).rounded roundBinary64).toFixed2Rounded
                    roundBinary64 + 3).rounded roundBinary64 ∧
          c.y = (((((w.lat - ref.lat).rounded roundBinary64 *
            (JSNum.PI / 180).rounded roundBinary64).rounded roundBinary64 *
              6371000).rounded roundBinary64).toFixed2Rounded roundBinary64 +
                3).rounded roundBinary64 :=
  ⟨dyadicSquare_run,
   calculateWaypointsRounded_cartesian roundBinary64 binary64Env 10 (.array dyadicSquare) _
     dyadicSquare_run⟩


/-! ### The candidates of the lattice with rounded arithmetic -/

theorem columnLoopRounded_eq_evaluateRow (rnd : ℚ → ℚ) (env : Env) (utmEPSG : String)
    (polygon : Feature) (threshold : JSNum) (ρ dxq maxX yq : ℚ) (fuel : Nat) (xq : ℚ)
    (st st' : RowState)
    (h : columnLoopRounded rnd env utmEPSG polygon (.fin ρ) threshold (.fin dxq) (.fin maxX)
      (.fin yq) fuel (.fin xq) st = some (.ok st')) :
    ∃ xs, AccumulatedRun rnd dxq (rnd (maxX + ρ)) xq xs ∧
      evaluateRowRounded rnd env utmEPSG polygon (.fin ρ) threshold
        (xs.map (fun a => (a, yq))) st = .ok st' := by
  induction fuel generalizing xq st with
  | zero =>
    rw [columnLoopRounded] at h
    split at h
    · cases h
    · rename_i hx
      cases h
      refine ⟨[], ?_, rfl⟩
      simpa only [AccumulatedRun, fin_add_fin, JSNum.rounded, JSNum.le, decide_eq_true_eq]
        using hx
  | succ fuel ih =>
    rw [columnLoopRounded] at h
    split at h
    · rename_i hx
      have hle : xq ≤ rnd (maxX + ρ) := by
        simpa only [fin_add_fin, JSNum.rounded, JSNum.le, decide_eq_true_eq] using hx
      split at h
      · cases h
      · rename_i p he
        obtain ⟨xs, h1, h2⟩ := ih _ _ h
        refine ⟨xq :: xs, ⟨rfl, hle, h1⟩, ?_⟩
        simp only [List.map_cons, evaluateRowRounded, he]
        exact h2
      · rename_i p he
        obtain ⟨xs, h1, h2⟩ := ih _ _ h
        refine ⟨xq :: xs, ⟨rfl, hle, h1⟩, ?_⟩
        simp only [List.map_cons, evaluateRowRounded, he]
        exact h2
    · rename_i hx
      cases h
      refine ⟨[], ?_, rfl⟩
      simpa only [AccumulatedRun, fin_add_fin, JSNum.rounded, JSNum.le, decide_eq_true_eq]
        using hx

theorem rowStartXRounded_fin (rnd : ℚ → ℚ) (minX ρ dxq : ℚ) (my : JSNum) (k : Nat) :
    rowStartXRounded rnd (.fin minX, my) (.fin ρ) (.fin dxq) k =
      .fin (rnd (rnd (minX - ρ) + offsetRounded rnd dxq k)) := by
  have h2 : (2 : JSNum) = JSNum.fin 2 := by
    show JSNum.fin ((2 : ℕ) : ℚ) = _
    norm_num
  by_cases hk : k % 2 = 1
  · simp only [rowStartXRounded, offsetRounded, hk, if_true, h2, fin_sub_fin]
    rw [fin_div_fin _ _ (by norm_num)]
    rfl
  · simp only [rowStartXRounded, offsetRounded, hk, if_false, jsnum_zero, fin_sub_fin]
    rfl

/-- The outer loop with rounded arithmetic, when it ends, has run its body on lattice rows
reached by repeated addition, up to the row after which the counter is above 500 or up to the
first northing above the bound. -/
theorem rowLoopRounded_eq_evaluateLattice (rnd : ℚ → ℚ) (env : Env) (utmEPSG : String)
    (polygon : Feature) (threshold my : JSNum) (ρ dxq dyq minX maxX maxY : ℚ) (fuel : Nat)
    (st st' : GridState) (yq : ℚ) (hy : st.y = .fin yq)
    (h : rowLoopRounded rnd env utmEPSG polygon (.fin ρ) threshold (.fin dxq) (.fin dyq)
      (.fin minX, my) (.fin maxX, .fin maxY) fuel st = some (.ok st')) :
    ∃ lattice, AccumulatedLattice rnd minX maxX maxY ρ dxq dyq st.row yq lattice ∧
      evaluateLatticeRounded rnd env utmEPSG polygon (.fin ρ) threshold lattice st.summary =
        .ok st'.summary ∧
      (500 < st'.totalPoints ∨
        ¬ northingAfter rnd dyq lattice.length yq ≤ rnd (maxY + ρ)) := by
  induction fuel generalizing st yq with
  | zero =>
    rw [rowLoopRounded] at h
    split at h
    · cases h
    · rename_i hle
      cases h
      refine ⟨[], trivial, rfl, Or.inr ?_⟩
      simpa only [northingAfter, List.length_nil, hy, fin_add_fin, JSNum.rounded, JSNum.le,
        decide_eq_true_eq] using hle
  | succ fuel ih =>
    rw [rowLoopRounded] at h
    split at h
    · rename_i hle
      have hle' : yq ≤ rnd (maxY + ρ) := by
        simpa only [hy, fin_add_fin, JSNum.rounded, JSNum.le, decide_eq_true_eq] using hle
      split at h
      · cases h
      · cases h
      · rename_i inner hin
        rw [hy, rowStartXRounded_fin] at hin
        obtain ⟨xs, hxs, hrow⟩ := columnLoopRounded_eq_evaluateRow rnd env utmEPSG polygon
          threshold ρ dxq maxX yq (fuel + 1) _ _ inner hin
        have hacc : AccumulatedLattice rnd minX maxX maxY ρ dxq dyq st.row yq
            [xs.map (fun a => (a, yq))] := by
          refine ⟨hle', ?_, ?_, trivial⟩
          · intro p hp
            obtain ⟨a, -, rfl⟩ := List.mem_map.1 hp
            rfl
          · have hmap : (xs.map (fun a => (a, yq))).map Prod.fst = xs := by
              rw [List.map_map]
              exact List.map_id _
            rw [hmap]
            exact hxs
        simp only at h
        split at h
        · rename_i hcap
          cases h
          refine ⟨[xs.map (fun a => (a, yq))], hacc, ?_, Or.inl hcap⟩
          simp only [evaluateLatticeRounded, GridState.summary, hrow]
          rw [if_pos hcap]
        · rename_i hcap
          obtain ⟨rest, h1, h2, h3⟩ := ih _ (rnd (yq + dyq))
            (by simp only [hy, fin_add_fin, JSNum.rounded]) h
          refine ⟨xs.map (fun a => (a, yq)) :: rest, ⟨hacc.1, hacc.2.1, hacc.2.2.1, h1⟩, ?_,
            ?_⟩
          · simp only [evaluateLatticeRounded, GridState.summary, hrow]
            rw [if_neg hcap]
            exact h2
          · simpa only [List.length_cons, northingAfter] using h3
    · rename_i hle
      cases h
      refine ⟨[], trivial, rfl, Or.inr ?_⟩
      simpa only [northingAfter, List.length_nil, hy, fin_add_fin, JSNum.rounded, JSNum.le,
        decide_eq_true_eq] using hle

theorem skewRectangle_grid :
    generateHexGridRounded roundBinary64 binary64Env 10 (skewRectangle.map Coord.toGeoPoint) 3
      ((JSNum.fin (1 / 10)).rounded roundBinary64) = some (.ok ([], skewRemoved64)) := by
  decide!

/-- Claim C21, counterexample. In binary64 arithmetic, for `skewRectangle`, whose projected
bounding box is `(1.002, 0)-(5.394304845413263, 1)`, and the pitch 3, the generator evaluates
three candidates in the lattice row 0, the third at `x = 8.394304845413263`, the bound
`maxX + r` itself, reached by adding `dx` twice. The closed form `minX - r + 2 * dx` is above the
bound, with `dx` the rounded product `Math.sqrt(3) * 3` and with the exact product alike, so
that the lattice of the closed form has two candidates in the row 0; the closed form with every
operation rounded to binary64 is above the bound too. -/
theorem skewRectangle_row_has_third_candidate :
    generateHexGridRounded roundBinary64 binary64Env 10 (skewRectangle.map Coord.toGeoPoint) 3
        ((JSNum.fin (1 / 10)).rounded roundBinary64) = some (.ok ([], skewRemoved64)) ∧
      (skewRemoved64.filter (fun p => decide (p.2 = .fin (-3)))).length = 3 ∧
      skewRemoved64[2]? = some (.fin (2362786760864845 / 281474976710656), .fin (-3)) ∧
      roundBinary64 (1518361830732877 / 281474976710656 + 3) =
        2362786760864845 / 281474976710656 ∧
      (2362786760864845 / 281474976710656 : ℚ) <
        4512606826625237 / 4503599627370496 - 3 + 2 * (binary64Env.sqrt 3 * 3) ∧
      (2362786760864845 / 281474976710656 : ℚ) <
        roundBinary64 (roundBinary64 (4512606826625237 / 4503599627370496 - 3) +
          roundBinary64 (2 * roundBinary64 (binary64Env.sqrt 3 * 3))) ∧
      (specLattice (4512606826625237 / 4503599627370496) 0
        (1518361830732877 / 281474976710656) 1 3 (binary64Env.sqrt 3 * 3)
          (3 / 2 * 3)).map List.length = [2, 2] ∧
      (specLattice (4512606826625237 / 4503599627370496) 0
        (1518361830732877 / 281474976710656) 1 3 (roundBinary64 (binary64Env.sqrt 3 * 3))
          (3 / 2 * 3)).map List.length = [2, 2] :=
  ⟨skewRectangle_grid, by decide!, by decide!, by decide!, by decide!, by decide!, by decide!,
   by decide!⟩

/-- Claim C21, as amended. With rounded arithmetic (binary64 rounding or none), for a
projection that maps finite coordinates to finite coordinates and a projected bounding box
`(minX, minY)-(maxX, maxY)`, a result of `generateHexGridWithBufferAndFilter` is the result of
running the loop body on lattice rows reached by repeated addition: the row `k` has the
northing `y_k` with `y_0 = minY - r` and `y_(k+1) = y_k + dy`, and holds the planar points
`(x_j, y_k)` with `x_0 = minX - r + o_k` and `x_(j+1) = x_j + dx` for as long as
`x_j <= maxX + r`, with `dx = sqrt(3) * r`, `dy = 1.5 * r`, `o_k = dx / 2` for an odd `k` and `0`
for an even one, every operation rounded; the rows run up to the row after which the counter
is above 500, or up to the first northing above `maxY + r`. When nothing is rounded, `r > 0`
and `Math.sqrt(3) > 0`, these are the points `(minX - r + o_k + j * dx, minY - r + k * dy)` of
the closed form. -/
theorem generateHexGridRounded_candidates_are_accumulated (rnd : ℚ → ℚ) (env : Env)
    (fuel : Nat) (polygonCoords : List GeoPoint) (ρ : ℚ) (threshold : JSNum)
    (rowPoints : List (List Position)) (removedPoints : List Position)
    (hfin : ∀ code p q, env.proj4 "WGS84" code p = .ok q → p.1.isFinite = true →
      p.2.isFinite = true → q.1.isFinite = true ∧ q.2.isFinite = true)
    (h : generateHexGridRounded rnd env fuel polygonCoords (.fin ρ) threshold =
      some (.ok (rowPoints, removedPoints))) :
    ∃ polygon bbox utmEPSG minX minY maxX maxY totalPoints,
      createTurfPolygon env polygonCoords = .ok polygon ∧ env.bbox polygon = .ok bbox ∧
      env.proj4 "WGS84" utmEPSG (bbox.1, bbox.2.1) = .ok (.fin minX, .fin minY) ∧
      env.proj4 "WGS84" utmEPSG (bbox.2.2.1, bbox.2.2.2) = .ok (.fin maxX, .fin maxY) ∧
      (∃ lattice,
        AccumulatedLattice rnd minX maxX maxY ρ (rnd (env.sqrt 3 * ρ)) (rnd (3 / 2 * ρ)) 0
          (rnd (minY - ρ)) lattice ∧
        evaluateLatticeRounded rnd env utmEPSG polygon (.fin ρ) threshold lattice ([], [], 0) =
          .ok (rowPoints, removedPoints, totalPoints) ∧
        (500 < totalPoints ∨
          ¬ northingAfter rnd (rnd (3 / 2 * ρ)) lattice.length (rnd (minY - ρ)) ≤
            rnd (maxY + ρ))) ∧
      ((∀ a, rnd a = a) → 0 < ρ → 0 < env.sqrt 3 →
        evaluateLattice env utmEPSG polygon (.fin ρ) threshold
          (specLattice minX minY maxX maxY ρ (env.sqrt 3 * ρ) (3 / 2 * ρ)) ([], [], 0) =
            .ok (rowPoints, removedPoints, totalPoints)) := by
  unfold generateHexGridRounded at h
  split at h
  · cases h
  · cases h
  · rename_i st hst
    cases h
    unfold hexGridFinalStateRounded at hst
    split at hst
    · cases hst
    · rename_i polygon h1
      split at hst
      · cases hst
      · rename_i bbox h2
        split at hst
        · cases hst
        · rename_i h3
          split at hst
          · cases hst
          · rename_i centerCoords h4
            simp only at hst
            split at hst
            · cases hst
            · rename_i minUTM h5
              split at hst
              · cases hst
              · rename_i maxUTM h6
                have hv : bbox.1.isFinite = true ∧ bbox.2.1.isFinite = true ∧
                    bbox.2.2.1.isFinite = true ∧ bbox.2.2.2.isFinite = true := by
                  simp [bboxValid] at h3
                  exact ⟨h3.1.2, h3.2.1.2, h3.2.2.1.2, h3.2.2.2.2⟩
                obtain ⟨hmin1, hmin2⟩ := hfin _ _ _ h5 hv.1 hv.2.1
                obtain ⟨hmax1, hmax2⟩ := hfin _ _ _ h6 hv.2.2.1 hv.2.2.2
                obtain ⟨minX, hminX⟩ := (isFinite_iff _).1 hmin1
                obtain ⟨minY, hminY⟩ := (isFinite_iff _).1 hmin2
                obtain ⟨maxX, hmaxX⟩ := (isFinite_iff _).1 hmax1
                obtain ⟨maxY, hmaxY⟩ := (isFinite_iff _).1 hmax2
                have hmin : minUTM = (.fin minX, .fin minY) := Prod.ext hminX hminY
                have hmax : maxUTM = (.fin maxX, .fin maxY) := Prod.ext hmaxX hmaxY
                subst hmin hmax
                rw [mathSqrt_three, fin_mul_fin, fin_mul_fin] at hst
                refine ⟨polygon, bbox, _, minX, minY, maxX, maxY, st.totalPoints, h1, h2, h5,
                  h6, ?_, ?_⟩
                · obtain ⟨lattice, ha, hb, hc⟩ := rowLoopRounded_eq_evaluateLattice rnd env _
                    polygon threshold (.fin minY) ρ (rnd (env.sqrt 3 * ρ)) (rnd (3 / 2 * ρ))
                    minX maxX maxY fuel _ st (rnd (minY - ρ))
                    (by simp only [fin_sub_fin, JSNum.rounded]) hst
                  exact ⟨lattice, ha, hb, hc⟩
                · intro hid hρ hsqrt
                  have hrnd : rnd = id := funext hid
                  subst hrnd
                  rw [rowLoopRounded_id] at hst
                  simp only [rounded_id] at hst
                  have hrun := rowLoop_eq_evaluateLattice env _ polygon threshold (.fin minY) ρ
                    (env.sqrt 3 * ρ) (3 / 2 * ρ) minX maxX maxY (mul_pos hsqrt hρ)
                    (by positivity) fuel _ (minY - ρ) (by simp only [fin_sub_fin]) _ hst
                  simp only [Nat.zero_add] at hrun
                  exact hrun.symm

/-- The amended C21 at `tallRectangle` in binary64 arithmetic: the lattice has five rows of
four or three candidates. -/
theorem generateHexGridRounded_candidates_are_accumulated_witness :
    generateHexGridRounded roundBinary64 binary64Env 10 (tallRectangle.map Coord.toGeoPoint)
        (.fin 3) ((JSNum.fin (1 / 10)).rounded roundBinary64) =
          some (.ok (tallRows64, tallRemoved64)) ∧
      AccumulatedLattice roundBinary64 0 10 14 3 (roundBinary64 (binary64Env.sqrt 3 * 3))
        (roundBinary64 (3 / 2 * 3)) 0 (roundBinary64 (0 - 3)) tallLattice64 ∧
      ∃ polygon bbox utmEPSG minX minY maxX maxY totalPoints,
        createTurfPolygon binary64Env (tallRectangle.map Coord.toGeoPoint) = .ok polygon ∧
        binary64Env.bbox polygon = .ok bbox ∧
        binary64Env.proj4 "WGS84" utmEPSG (bbox.1, bbox.2.1) = .ok (.fin minX, .fin minY) ∧
        binary64Env.proj4 "WGS84" utmEPSG (bbox.2.2.1, bbox.2.2.2) =
          .ok (.fin maxX, .fin maxY) ∧
        (∃ lattice,
          AccumulatedLattice roundBinary64 minX maxX maxY 3
            (roundBinary64 (binary64Env.sqrt 3 * 3)) (roundBinary64 (3 / 2 * 3)) 0
            (roundBinary64 (minY - 3)) lattice ∧
          evaluateLatticeRounded roundBinary64 binary64Env utmEPSG polygon (.fin 3)
            ((JSNum.fin (1 / 10)).rounded roundBinary64) lattice ([], [], 0) =
              .ok (tallRows64, tallRemoved64, totalPoints) ∧
          (500 < totalPoints ∨
            ¬ northingAfter roundBinary64 (roundBinary64 (3 / 2 * 3)) lattice.length
              (roundBinary64 (minY - 3)) ≤ roundBinary64 (maxY + 3))) ∧
        ((∀ a, roundBinary64 a = a) → (0 : ℚ) < 3 → 0 < binary64Env.sqrt 3 →
          evaluateLattice binary64Env utmEPSG polygon (.fin 3)
            ((JSNum.fin (1 / 10)).rounded roundBinary64)
            (specLattice minX minY maxX maxY 3 (binary64Env.sqrt 3 * 3) (3 / 2 * 3))
              ([], [], 0) = .ok (tallRows64, tallRemoved64, totalPoints)) :=
  ⟨by decide!, by decide!,
   generateHexGridRounded_candidates_are_accumulated roundBinary64 binary64Env 10
     (tallRectangle.map Coord.toGeoPoint) 3 ((JSNum.fin (1 / 10)).rounded roundBinary64)
     tallRows64 tallRemoved64
     (fun _ p q hpq hp1 hp2 => by
       simp only [binary64Env, rectEnv, Except.ok.injEq] at hpq
       rw [← hpq]
       exact ⟨hp1, hp2⟩)
     (by decide!)⟩

end WaypointCalculator
